import Mathlib

/-!
# mupen64plus-audio-sles: audio pacing and time-stretch control

A shallow embedding of `src/mupen64plus-audio-sles/src/main.cpp`.

Conventions of the embedding:

* `int` / `unsigned int` variables are `Int` / `Nat`; the `unsigned long` sample counter is
  reduced modulo `2 ^ w`, where `w` is the width of `unsigned long` on the target ABI.
  Where the bounds of the primary buffer are at stake (`CreatePrimaryBuffer`, the recorded
  copy loop `processAudio_loop`) the `unsigned int` arithmetic is reduced modulo `2 ^ 32`
  and the loop takes fuel.
* `double` / `float` quantities (times in seconds, tempo ratios) are exact rationals `ℚ`;
  rounding error of the machine arithmetic is not modelled, with two exceptions: a constant
  declared `const float` has the exact value of that `float`, and the stamp of a chunk is
  also given in machine arithmetic (`c_double`, `gameStartTime_double`,
  `timeSinceStart_double`), where its sign is at stake.
* A `std::chrono` time point is the number of seconds since the clock epoch, so a
  default-constructed time point is `0`.
* File-scope statics and function-local statics become fields of explicit state records that
  every function takes and returns.
* Calls into OpenSL ES, SoundTouch and the emulator core are represented by the values they
  return (inputs of the step functions) and by the values passed to them (outputs).
-/

namespace AudioSles

/-! ## Constants (`#define`s and never-reassigned statics) -/

/-- The macro `SECONDARY_BUFFER_NBR`. -/
def SECONDARY_BUFFER_NBR : Nat := 100

/-- The static `SecondaryBufferNbr`, initialised to `SECONDARY_BUFFER_NBR` and never assigned. -/
def SecondaryBufferNbr : Nat := SECONDARY_BUFFER_NBR

/-- The macro `N64_SAMPLE_BYTES`. -/
def N64_SAMPLE_BYTES : Nat := 4

/-- The macro `DEFAULT_FREQUENCY`. -/
def DEFAULT_FREQUENCY : Nat := 33600

/-- The macro `DEFAULT_SECONDARY_BUFFER_SIZE`. -/
def DEFAULT_SECONDARY_BUFFER_SIZE : Nat := 256

/-- The macro `PRIMARY_BUFFER_SIZE`. -/
def PRIMARY_BUFFER_SIZE : Nat := 16384

/-! ## Device queue tracker -/

/-- The struct `slesState`. -/
structure slesState where
  value : Int
  limit : Int
  errors : Int
  totalBuffersProcessed : Int
deriving DecidableEq, Repr

/-- The OpenSL ES buffer queue as `main.cpp` observes it: `count` is what `GetState` reports
(buffers enqueued and not yet played), `capacity` is the number of slots it was created with. -/
structure BufferQueue where
  count : Nat
  capacity : Nat
deriving DecidableEq, Repr

/-- The statics touched by the submission loop of `processAudio` and by `queueCallback`. -/
structure Device where
  state : slesState
  bufferQueue : BufferQueue
  secondaryBufferIndex : Int
deriving DecidableEq, Repr

/-- The tracker and buffer queue as `InitializeAudio` leaves them:
`state.value = state.limit = SecondaryBufferNbr`, counters zeroed, and a buffer queue created
with `SecondaryBufferNbr * 2` slots (`loc_bufq`). `CloseAudio` has zeroed `secondaryBufferIndex`. -/
def InitializeAudio_device : Device :=
  { state := { value := SecondaryBufferNbr, limit := SecondaryBufferNbr,
               errors := 0, totalBuffersProcessed := 0 },
    bufferQueue := { count := 0, capacity := SecondaryBufferNbr * 2 },
    secondaryBufferIndex := 0 }

/-- The call `(*bufferQueue)->Enqueue`: succeeds while a slot is free, otherwise the queue is
unchanged and the result is not `SL_RESULT_SUCCESS`. -/
def Enqueue (q : BufferQueue) : BufferQueue × Bool :=
  if q.count < q.capacity then ({ q with count := q.count + 1 }, true) else (q, false)

/-- One pass of the `do ... while (outSamples != 0)` body of `processAudio`, for a block of
`outSamples` frames returned by `receiveSamples`. -/
def processAudio_pass (d : Device) (outSamples : Nat) : Device :=
  if outSamples ≠ 0 ∧ d.state.value > 0 then
    let r := Enqueue d.bufferQueue
    let st := if r.2 then d.state else { d.state with errors := d.state.errors + 1 }
    let idx := d.secondaryBufferIndex + 1
    { state := st, bufferQueue := r.1,
      secondaryBufferIndex := if idx > (SecondaryBufferNbr : Int) - 1 then 0 else idx }
  else d

/-- The function `queueCallback`: `result` tells whether `GetState` succeeded and `count` is
the `st.count` it reported. -/
def queueCallback (state : slesState) (result : Bool) (count : Nat) : slesState :=
  if result then { state with value := state.limit - count } else state

/-- What can happen to the tracker: the consumer runs one pass of the submission loop, or the
hardware finishes playing one buffer and invokes `queueCallback`. -/
inductive Event where
  | submission (outSamples : Nat)
  | completion (result : Bool)
deriving DecidableEq, Repr

/-- One step of the tracker. A completion needs a buffer in the hardware queue; it removes
it and then runs the callback. -/
def Device.step (d : Device) : Event → Device
  | .submission outSamples => processAudio_pass d outSamples
  | .completion result =>
    if 0 < d.bufferQueue.count then
      let q : BufferQueue := { d.bufferQueue with count := d.bufferQueue.count - 1 }
      { d with bufferQueue := q, state := queueCallback d.state result q.count }
    else d

/-- The tracker after an interleaving of submissions and completions, from `InitializeAudio`. -/
def Device.run (es : List Event) : Device :=
  es.foldl Device.step InitializeAudio_device

/-! ## Plugin state and the producer side (`AiLenChanged`) -/

/-- Modelled from the spec: the element type `QueueData` of `audioConsumerQueue` is declared in
`main.h`, which is not among the sources; it is the spec's AudioChunk, with the three fields
that `main.cpp` stores and reads (`data`, `length`, `timeSinceStart`). -/
structure QueueData where
  data : List Nat
  length : Nat
  timeSinceStart : ℚ
deriving DecidableEq, Repr

/-- Modelled from the spec: the class `BlockingQueue` is declared in `BlockingQueue.h`, which
is not among the sources. Its content is a list, front first; `push` never blocks and
appends at the back (strict FIFO). -/
def BlockingQueue_push (q : List QueueData) (x : QueueData) : List QueueData := q ++ [x]

/-- The function-local statics of `AiLenChanged`, with their initial values as defaults. -/
structure AiLenStatics where
  hasBeenReset : Bool := false
  totalElapsedSamples : Nat := 0
  gameStartTime : ℚ := 0
  lastSpeedFactor : Int := 100
  lastSpeedLimiterEnabledState : Bool := false
  busyWait : Bool := false
  busyWaitEnableCount : Int := 0
  busyWaitDisableCount : Int := 0
deriving DecidableEq, Repr

/-- The file-scope statics that the pacing code reads or writes, with their initial values as
defaults. `audioConsumerQueue` is the content of the `BlockingQueue`, front first. -/
structure Plugin where
  l_PluginInit : Int := 0
  critical_failure : Int := 0
  shutdownThread : Bool := true
  speed_factor : Nat := 100
  GameFreq : Int := DEFAULT_FREQUENCY
  state : slesState := { value := 0, limit := 0, errors := 0, totalBuffersProcessed := 0 }
  audioConsumerQueue : List QueueData := []
  pacing : AiLenStatics := {}
deriving DecidableEq, Repr

/-- What one call of `AiLenChanged` reads from its environment: the value the core stores
into `e` for `M64CORE_SPEED_LIMITER`, the clock, the register `AI_LEN_REG` and the bytes at
the DMA address. -/
structure AiLenInput where
  e : Int
  currentTime : ℚ
  LenReg : Nat
  inputAudio : List Nat
deriving DecidableEq, Repr

/-- A stall of the producer thread: wait until `endTime`, spinning when `busyWait` is set and
with `sleep_until` otherwise. -/
structure Stall where
  endTime : ℚ
  busyWait : Bool
deriving DecidableEq, Repr

/-- The function `isSpeedLimiterEnabled`: `static_cast<bool>` of the queried value. -/
def isSpeedLimiterEnabled (e : Int) : Bool := decide (e ≠ 0)

/-- The constants `minSleepNeededForReset`, `minSleepNeeded`, `maxSleepNeeded` and
`busyWaitCheck` of `AiLenChanged`. -/
def minSleepNeededForReset : ℚ := -5

/-- See `minSleepNeededForReset`. -/
def minSleepNeeded : ℚ := -1 / 10

/-- See `minSleepNeededForReset`. -/
def maxSleepNeeded : ℚ := 1 / 2

/-- See `minSleepNeededForReset`. -/
def busyWaitCheck : Int := 30

/-- The local `speedFactor = static_cast<double>(speed_factor) / 100.0`. -/
def speedFactor (p : Plugin) : ℚ := (p.speed_factor : ℚ) / 100

/-- Lines 688-699 of `AiLenChanged`: the reset block ("first time or resuming from pause")
followed by `lastSpeedFactor = speed_factor`. -/
def AiLenChanged_reset (p : Plugin) (i : AiLenInput) : Plugin :=
  let limiterEnabled := isSpeedLimiterEnabled i.e
  let p1 : Plugin :=
    if p.pacing.gameStartTime = 0 ∨ p.pacing.hasBeenReset = false ∨
        p.pacing.lastSpeedFactor ≠ (p.speed_factor : Int) ∨
        p.pacing.lastSpeedLimiterEnabledState ≠ limiterEnabled then
      { p with
        pacing := { p.pacing with
          lastSpeedLimiterEnabledState := limiterEnabled
          gameStartTime := i.currentTime
          totalElapsedSamples := 0
          hasBeenReset := true }
        state := { p.state with totalBuffersProcessed := 0 } }
    else p
  { p1 with pacing := { p1.pacing with lastSpeedFactor := (p.speed_factor : Int) } }

/-- The local `timeSinceStart = currentTime - gameStartTime` (state after the reset block),
as the exact difference of the two times in seconds. The value the machine arithmetic gives
is `timeSinceStart_double`. -/
def timeSinceStart (p : Plugin) (i : AiLenInput) : ℚ :=
  i.currentTime - p.pacing.gameStartTime

/-- Rounding to the nearest integer, halfway cases to the even one. -/
def roundHalfEven (x : ℚ) : Int :=
  if x - ⌊x⌋ < 1 / 2 then ⌊x⌋
  else if x - ⌊x⌋ > 1 / 2 then ⌊x⌋ + 1
  else if ⌊x⌋ % 2 = 0 then ⌊x⌋ else ⌊x⌋ + 1

/-- The value of type `double` (IEEE 754 binary64, 53 significant bits) nearest to `x`,
halfway cases to the even significand: the result of a conversion to `double` or of a
`double` operation whose exact result is `x`. Overflow and subnormal values are not
modelled. -/
def c_double (x : ℚ) : ℚ :=
  if x = 0 then 0
  else (roundHalfEven (x / (2 : ℚ) ^ (Int.log 2 |x| - 52)) : ℚ) * (2 : ℚ) ^ (Int.log 2 |x| - 52)

/-- The assignment `gameStartTime = currentTime` of line 692 in machine arithmetic.
`currentTime` is a `steady_clock::time_point`, a whole number of nanoseconds held in an
`int64`; `gameStartTime` is a time point in `duration<double>`, seconds held in a `double`.
The conversion is `static_cast<double>(count) / 1e9`. The readings are given in seconds, as
in `AiLenInput`: the count is `currentTime * 10^9`. -/
def gameStartTime_double (currentTime : ℚ) : ℚ :=
  c_double (c_double (currentTime * 1000000000) / 1000000000)

/-- Lines 708-709 in machine arithmetic. The difference `currentTime - gameStartTime` of an
`int64` nanosecond time point and a `double` second time point is formed in their common
type `duration<double, nano>`: the count is converted to `double`, the origin is multiplied
by `1e9`, and the two are subtracted; the assignment to `duration<double> timeSinceStart`
divides by `1e9`. -/
def timeSinceStart_double (currentTime gameStartTime : ℚ) : ℚ :=
  c_double (c_double (c_double (currentTime * 1000000000)
    - c_double (gameStartTime * 1000000000)) / 1000000000)

/-- Lines 701-711 of `AiLenChanged`: the chunk is copied and pushed onto the queue. -/
def AiLenChanged_push (p : Plugin) (i : AiLenInput) : Plugin :=
  let theQueueData : QueueData :=
    { data := i.inputAudio.take i.LenReg, length := i.LenReg,
      timeSinceStart := timeSinceStart p i }
  { p with audioConsumerQueue := BlockingQueue_push p.audioConsumerQueue theQueueData }

/-- Line 714 of `AiLenChanged`: `totalElapsedSamples += LenReg / N64_SAMPLE_BYTES` on an
`unsigned long` of `w` bits. -/
def AiLenChanged_account (w : Nat) (p : Plugin) (i : AiLenInput) : Plugin :=
  { p with pacing := { p.pacing with
      totalElapsedSamples :=
        (p.pacing.totalElapsedSamples + i.LenReg / N64_SAMPLE_BYTES) % 2 ^ w } }

/-- The local `totalElapsedGameTime` (state after the chunk has been accounted). -/
def totalElapsedGameTime (p : Plugin) : ℚ :=
  (p.pacing.totalElapsedSamples : ℚ) / (p.GameFreq : ℚ) / speedFactor p

/-- Lines 720-767 of `AiLenChanged`: the body of `if (!limiterEnabled)`, given the
`sleepNeeded` it computed. Returns the new state and the stall, if the producer is stalled. -/
def AiLenChanged_pace (p : Plugin) (i : AiLenInput) (sleepNeeded : ℚ) : Plugin × Option Stall :=
  let s := p.pacing
  let hasBeenReset :=
    if sleepNeeded < minSleepNeededForReset ∨ sleepNeeded > maxSleepNeeded / speedFactor p
    then false else s.hasBeenReset
  let gameStartTime :=
    if sleepNeeded < minSleepNeeded then s.gameStartTime - minSleepNeeded else s.gameStartTime
  let enable1 := if sleepNeeded ≤ 0 then s.busyWaitEnableCount + 1 else 0
  let busyWait1 := if enable1 = busyWaitCheck then true else s.busyWait
  let enable2 := if enable1 = busyWaitCheck then 0 else enable1
  let disable1 := if enable1 = busyWaitCheck then 0 else s.busyWaitDisableCount
  let disable2 := if busyWait1 = true ∧ sleepNeeded > 0 then disable1 + 1 else disable1
  let busyWait2 := if busyWait1 = true ∧ disable2 = busyWaitCheck then false else busyWait1
  let stall : Option Stall :=
    if sleepNeeded > 0 ∧ sleepNeeded < maxSleepNeeded / speedFactor p then
      some { endTime := i.currentTime + sleepNeeded, busyWait := busyWait2 }
    else none
  ({ p with pacing := { s with
      hasBeenReset := hasBeenReset
      gameStartTime := gameStartTime
      busyWait := busyWait2
      busyWaitEnableCount := enable2
      busyWaitDisableCount := disable2 } }, stall)

/-- The state in which `AiLenChanged` evaluates line 716: after the reset block, the push and
the accounting of the chunk. -/
def AiLenChanged_accounted (w : Nat) (p : Plugin) (i : AiLenInput) : Plugin :=
  AiLenChanged_account w (AiLenChanged_push (AiLenChanged_reset p i) i) i

/-- The local `sleepNeeded = totalElapsedGameTime - timeSinceStart.count()` of a call made in
state `p` with input `i`. -/
def sleepNeeded (w : Nat) (p : Plugin) (i : AiLenInput) : ℚ :=
  totalElapsedGameTime (AiLenChanged_accounted w p i) - timeSinceStart (AiLenChanged_reset p i) i

/-- The function `AiLenChanged`. Returns the new state and the stall of the calling thread,
if any. -/
def AiLenChanged (w : Nat) (p : Plugin) (i : AiLenInput) : Plugin × Option Stall :=
  if p.critical_failure = 1 then (p, none)
  else if p.l_PluginInit = 0 then (p, none)
  else
    let limiterEnabled := isSpeedLimiterEnabled i.e
    let p3 := AiLenChanged_accounted w p i
    if limiterEnabled = false then AiLenChanged_pace p3 i (sleepNeeded w p i)
    else (p3, none)

/-- The function `SetSpeedFactor`; the assignment converts `int` to `unsigned int`. -/
def SetSpeedFactor (p : Plugin) (percentage : Int) : Plugin :=
  if p.l_PluginInit = 0 then p
  else if percentage ≥ 10 ∧ percentage ≤ 300 then { p with speed_factor := percentage.toNat }
  else p

/-- The effect of `CloseAudio` on the modelled statics: the consumer thread is told to stop
and is joined. -/
def CloseAudio (p : Plugin) : Plugin :=
  if p.shutdownThread = false then { p with shutdownThread := true } else p

/-- The function `RomClosed`. -/
def RomClosed (p : Plugin) : Plugin :=
  if p.l_PluginInit = 0 then p
  else if p.critical_failure = 1 then p
  else CloseAudio p

/-- The function `OnInitFailure`. -/
def OnInitFailure (p : Plugin) : Plugin :=
  { CloseAudio p with critical_failure := 1 }

/-- The function `InitializeAudio` on the modelled statics. `cfgFreq` is the configured
`DEFAULT_FREQUENCY`, and `slesOk` tells whether every OpenSL ES call succeeded. -/
def InitializeAudio (p : Plugin) (cfgFreq : Int) (freq : Int) (slesOk : Bool) : Plugin :=
  let p0 := { p with GameFreq := cfgFreq }
  if freq < 4000 then p0
  else if p0.critical_failure ≠ 0 then p0
  else
    let p1 := CloseAudio { p0 with GameFreq := freq }
    let p2 := { p1 with state :=
      { value := SecondaryBufferNbr, limit := SecondaryBufferNbr,
        totalBuffersProcessed := 0, errors := 0 } }
    if slesOk then { p2 with shutdownThread := false } else OnInitFailure p2

/-- The effect of a successful `PluginStartup` on the modelled statics (`l_PluginInit = 1`);
a failed or repeated call changes none of them. -/
def PluginStartup (p : Plugin) (ok : Bool) : Plugin :=
  if p.l_PluginInit ≠ 0 then p
  else if ok then { p with l_PluginInit := 1 } else p

/-- The entry points of the plugin that the host calls and that write a modelled static,
with what they read from the host. -/
inductive Call where
  | PluginStartup (ok : Bool)
  | InitializeAudio (cfgFreq freq : Int) (slesOk : Bool)
  | RomClosed
  | SetSpeedFactor (percentage : Int)
  | AiLenChanged (i : AiLenInput)
deriving DecidableEq, Repr

/-- One call on the plugin state. `RomOpen` and `AiDacrateChanged` are `InitializeAudio`
behind the `l_PluginInit` check. -/
def Plugin.call (w : Nat) (p : Plugin) : Call → Plugin
  | .PluginStartup ok => PluginStartup p ok
  | .InitializeAudio cfgFreq freq slesOk =>
    if p.l_PluginInit = 0 then p else InitializeAudio p cfgFreq freq slesOk
  | .RomClosed => RomClosed p
  | .SetSpeedFactor percentage => SetSpeedFactor p percentage
  | .AiLenChanged i => (AiLenChanged w p i).1

/-- The plugin state after a sequence of calls, from the initial values of the statics. -/
def Plugin.run (w : Nat) (cs : List Call) : Plugin :=
  cs.foldl (Plugin.call w) {}

/-! ## Repeated calls of `AiLenChanged` at a steady cadence -/

/-- The time at which a call of `AiLenChanged` made with input `i` returns, when a stall
ends exactly at its target time and the rest of the call takes no time. -/
def returnTime (i : AiLenInput) (stall : Option Stall) : ℚ :=
  match stall with
  | some s => s.endTime
  | none => i.currentTime

/-- The game duration of a chunk of `LenReg` bytes: `(LenReg / 4) / GameFreq / speedFactor`. -/
def chunkDuration (p : Plugin) (LenReg : Nat) : ℚ :=
  ((LenReg / N64_SAMPLE_BYTES : Nat) : ℚ) / (p.GameFreq : ℚ) / speedFactor p

/-- The input of a call at time `t` with the speed limiter of the core reported disabled
(the pacing block runs) and a chunk of `LenReg` bytes. -/
def steadyInput (LenReg : Nat) (audio : List Nat) (t : ℚ) : AiLenInput :=
  { e := 0, currentTime := t, LenReg := LenReg, inputAudio := audio }

/-- The state after call number `n` (counted from 0) and the time at which that call returns,
when the first call is made at `t0` in state `p0` and every later call is made `e` seconds
after the previous one returned. -/
def steadyRun (w : Nat) (p0 : Plugin) (LenReg : Nat) (audio : List Nat) (t0 e : ℚ) :
    Nat → Plugin × ℚ
  | 0 =>
    ((AiLenChanged w p0 (steadyInput LenReg audio t0)).1,
     returnTime (steadyInput LenReg audio t0) (AiLenChanged w p0 (steadyInput LenReg audio t0)).2)
  | n + 1 =>
    ((AiLenChanged w (steadyRun w p0 LenReg audio t0 e n).1
        (steadyInput LenReg audio ((steadyRun w p0 LenReg audio t0 e n).2 + e))).1,
     returnTime (steadyInput LenReg audio ((steadyRun w p0 LenReg audio t0 e n).2 + e))
      (AiLenChanged w (steadyRun w p0 LenReg audio t0 e n).1
        (steadyInput LenReg audio ((steadyRun w p0 LenReg audio t0 e n).2 + e))).2)

/-! ## Sequences of calls of `AiLenChanged` -/

/-- The state after the first `n` calls of a sequence of calls of `AiLenChanged`, call number
`k` (counted from 0) being made with input `calls k`. -/
def callRun (w : Nat) (p0 : Plugin) (calls : Nat → AiLenInput) : Nat → Plugin
  | 0 => p0
  | n + 1 => (AiLenChanged w (callRun w p0 calls n) (calls n)).1

/-- The `sleepNeeded` that call number `n` of the sequence computes. -/
def callSleep (w : Nat) (p0 : Plugin) (calls : Nat → AiLenInput) (n : Nat) : ℚ :=
  sleepNeeded w (callRun w p0 calls n) (calls n)

/-- The length of the run of consecutive calls with `sleepNeeded <= 0` that ends with call
number `n - 1`: a call with `sleepNeeded > 0` restarts it at 0. -/
def nonPositiveRun (w : Nat) (p0 : Plugin) (calls : Nat → AiLenInput) : Nat → Nat
  | 0 => 0
  | n + 1 => if callSleep w p0 calls n ≤ 0 then nonPositiveRun w p0 calls n + 1 else 0

/-- The number of calls with `sleepNeeded > 0` among the first `n` calls. -/
def positiveCount (w : Nat) (p0 : Plugin) (calls : Nat → AiLenInput) : Nat → Nat
  | 0 => 0
  | n + 1 =>
    if 0 < callSleep w p0 calls n then positiveCount w p0 calls n + 1
    else positiveCount w p0 calls n

/-- The statics `busyWait`, `busyWaitEnableCount` and `busyWaitDisableCount` of a state. -/
def busyWaitStatics (p : Plugin) : Bool × Int × Int :=
  (p.pacing.busyWait, p.pacing.busyWaitEnableCount, p.pacing.busyWaitDisableCount)

/-- Lines 733-753 of `AiLenChanged` on the three busy-wait statics alone; of `sleepNeeded`
only the sign matters (`positive` is `sleepNeeded > 0`). -/
def busyWaitStep (b : Bool × Int × Int) (positive : Bool) : Bool × Int × Int :=
  let enable1 : Int := if positive = false then b.2.1 + 1 else 0
  let busyWait1 : Bool := if enable1 = busyWaitCheck then true else b.1
  let enable2 : Int := if enable1 = busyWaitCheck then 0 else enable1
  let disable1 : Int := if enable1 = busyWaitCheck then 0 else b.2.2
  let disable2 : Int := if busyWait1 = true ∧ positive = true then disable1 + 1 else disable1
  let busyWait2 : Bool := if busyWait1 = true ∧ disable2 = busyWaitCheck then false else busyWait1
  (busyWait2, enable2, disable2)

/-- The busy-wait statics after `n` calls whose signs of `sleepNeeded` are given. -/
def busyWaitAfter (b0 : Bool × Int × Int) (positive : Nat → Bool) : Nat → Bool × Int × Int
  | 0 => b0
  | n + 1 => busyWaitStep (busyWaitAfter b0 positive n) (positive n)

/-- The sequence of pacing-active calls with chunks of `LenReg` bytes made at the times
`t 0`, `t 1`, ... -/
def timedCalls (LenReg : Nat) (audio : List Nat) (t : Nat → ℚ) : Nat → AiLenInput :=
  fun k => steadyInput LenReg audio (t k)

/-- The clock readings of the calls of `AiLenChanged` in a sequence of host calls, in
order. -/
def callTimes : List Call → List ℚ
  | [] => []
  | Call.AiLenChanged i :: cs => i.currentTime :: callTimes cs
  | _ :: cs => callTimes cs

/-- The invariant behind non-negative chunk timestamps: `GameFreq` is positive,
`speed_factor` is in range, the pacing origin (when it is valid) does not lie after the time
`tl` of the latest call, and every queued chunk has a non-negative `timeSinceStart`. -/
def StampInv (p : Plugin) (tl : ℚ) : Prop :=
  0 < p.GameFreq ∧ 10 ≤ p.speed_factor ∧ p.speed_factor ≤ 300 ∧
  (p.pacing.hasBeenReset = true → p.pacing.gameStartTime ≤ tl) ∧
  ∀ q ∈ p.audioConsumerQueue, 0 ≤ q.timeSinceStart

/-! ## The adaptive consumer (`audioConsumerStretch`) -/

/-- The libm function `round`: nearest integer, halfway cases away from zero. -/
def c_round (x : ℚ) : Int := if 0 ≤ x then ⌊x + 1 / 2⌋ else ⌈x - 1 / 2⌉

/-- The conversion `(int) x` of a floating value: truncation toward zero. -/
def c_int (x : ℚ) : Int := if 0 ≤ x then ⌊x⌋ else ⌈x⌉

/-- The constants `minSlowValue`, `maxSlowValue`, `maxSpeedUpRate`, `slowRate`,
`defaultSampleLength`, `maxWindowSize` and `increments` of `audioConsumerStretch`. The
constants declared `const float` have the value of the `float` nearest to their decimal
initialiser, which is what enters the `double` arithmetic they are used in. -/
def minSlowValue : ℚ := 2 / 10

/-- See `minSlowValue`. -/
def maxSlowValue : ℚ := 3

/-- See `minSlowValue`. Declared `const float maxSpeedUpRate = 0.5`, which a `float` holds
exactly. -/
def maxSpeedUpRate : ℚ := 5 / 10

/-- See `minSlowValue`. Declared `const float slowRate = 0.05`: the `float` nearest to 0.05 is
`13421773 / 2^28 = 0.0500000007450580596923828125`. -/
def slowRate : ℚ := 13421773 / 268435456

/-- See `minSlowValue`. Declared `const float defaultSampleLength = 0.01666`: the `float`
nearest to 0.01666 is `8944269 / 2^29`, about 0.0166599993. -/
def defaultSampleLength : ℚ := 8944269 / 536870912

/-- See `minSlowValue`. -/
def maxWindowSize : Nat := 500

/-- See `minSlowValue`. -/
def increments : Int := 4

/-- The locals of `audioConsumerStretch` that live across loop iterations. The defaults are
the initial values of lines 812-839; `speedFactor`, `maxQueueSize` and `minQueueSize` are
computed from the configuration by `audioConsumerStretch_init`. -/
structure StretchLocals where
  speedFactor : ℚ
  maxQueueSize : Int
  minQueueSize : Int
  drainQueue : Bool := false
  ranDry : Bool := false
  slowAdjustment : ℚ := 1
  currAdjustment : ℚ := 1
  prevTime : ℚ := 0
  feedTimeWindowSize : Int := 50
  feedTimeIndex : Int := 0
  feedTimesSet : Bool := false
  feedTimes : List ℚ := List.replicate maxWindowSize 0
  gameTimes : List ℚ := List.replicate maxWindowSize 0
  averageGameTime : ℚ := defaultSampleLength
  averageFeedTime : ℚ := defaultSampleLength
deriving DecidableEq, Repr

/-- Lines 799-839 of `audioConsumerStretch`: the locals before the loop and the tempo handed
to `soundTouch.setTempo`. -/
def audioConsumerStretch_init (state : slesState) (speed_factor : Nat)
    (OutputFreq SecondaryBufferSize TargetSecondaryBuffers : Int) : StretchLocals × ℚ :=
  let speedFactor : ℚ := (speed_factor : ℚ) / 100
  let bufferMultiplier : ℚ := ((OutputFreq : ℚ) / (DEFAULT_FREQUENCY : ℚ)) *
    ((DEFAULT_SECONDARY_BUFFER_SIZE : ℚ) / (SecondaryBufferSize : ℚ))
  let bufferLimit : Int := state.limit - 20
  let maxQueueSize0 : Int := c_int (((TargetSecondaryBuffers : ℚ) + 30) * bufferMultiplier)
  let maxQueueSize : Int := if maxQueueSize0 > bufferLimit then bufferLimit else maxQueueSize0
  let minQueueSize : Int := c_int ((TargetSecondaryBuffers : ℚ) * bufferMultiplier)
  ({ speedFactor := speedFactor, maxQueueSize := maxQueueSize, minQueueSize := minQueueSize },
   speedFactor)

/-- The local `slesQueueLength = state.limit - state.value` read at the top of an iteration. -/
def slesQueueLength (state : slesState) : Int := state.limit - state.value

/-- The local `temp = averageGameTime / averageFeedTime` (the spec's baseRatio). -/
def baseRatio (v : StretchLocals) : ℚ := v.averageGameTime / v.averageFeedTime

/-- Lines 844 and 864-878 of `audioConsumerStretch`: `ranDry` and the three-way choice of
`currAdjustment` on the post-warm-up path. `state.value` is the value read at the top of the
iteration. -/
def audioConsumerStretch_adjust (state : slesState) (v : StretchLocals) : StretchLocals :=
  let ranDry : Bool := decide (slesQueueLength state < v.minQueueSize)
  let temp := baseRatio v
  let v := { v with ranDry := ranDry }
  if (slesQueueLength state > v.maxQueueSize ∨ v.drainQueue = true) ∧ ranDry = false then
    { v with
      drainQueue := true
      currAdjustment := temp +
        ((slesQueueLength state - v.minQueueSize : Int) : ℚ) /
        ((state.limit - v.minQueueSize : Int) : ℚ) * maxSpeedUpRate }
  else if ranDry = true then
    { v with drainQueue := false, currAdjustment := temp - slowRate }
  else if slesQueueLength state < v.maxQueueSize then
    { v with currAdjustment := temp }
  else v

/-- Lines 882-887 of `audioConsumerStretch`: the value of `slowAdjustment` handed to
`setTempo`, `round((currAdjustment * 100) / increments) * increments / 100`. -/
def quantizeTempo (currAdjustment : ℚ) : ℚ :=
  ((c_round ((currAdjustment * 100) / (increments : ℚ)) * increments : Int) : ℚ) / 100

/-- Lines 881-890 of `audioConsumerStretch`: the argument of the call `soundTouch.setTempo`
on the post-warm-up path, or `none` when the guard fails and `setTempo` is not called. -/
def audioConsumerStretch_setTempo (v : StretchLocals) : Option ℚ :=
  if v.currAdjustment > minSlowValue ∧ v.currAdjustment < maxSlowValue then
    some (quantizeTempo v.currAdjustment)
  else none

/-- Lines 842-893 of `audioConsumerStretch` for a chunk returned by `tryPop`, up to the call
of `processAudio`: the new locals and the tempo in effect in the engine while the chunk is
fed. `tempo` is the tempo in effect before. `state.value` is the value read at the top of the
iteration, `state.totalBuffersProcessed` the one read by the warm-up test. -/
def audioConsumerStretch_tempo (state : slesState) (speed_factor : Nat) (v : StretchLocals)
    (tempo : ℚ) : StretchLocals × ℚ :=
  if state.totalBuffersProcessed < state.limit then
    let speedFactor : ℚ := (speed_factor : ℚ) / 100
    ({ v with ranDry := decide (slesQueueLength state < v.minQueueSize),
              speedFactor := speedFactor }, speedFactor)
  else
    let v1 := audioConsumerStretch_adjust state v
    match audioConsumerStretch_setTempo v1 with
    | some t => ({ v1 with slowAdjustment := t }, t)
    | none => (v1, tempo)

/-- The function `GetAverageTime`: the sum of the first `numTimes` slots divided by
`numTimes` (a read past the end of the array is not modelled: the list gives what it has). -/
def GetAverageTime (feedTimes : List ℚ) (numTimes : Int) : ℚ :=
  (feedTimes.take numTimes.toNat).sum / (numTimes : ℚ)

/-- Lines 907-927 of `audioConsumerStretch`: the feed gap and the game time of the chunk are
recorded at `feedTimeIndex`, both averages are recomputed, the index advances (wrapping at
the window length, which marks the window as filled), and the window length is re-derived
from the new `averageGameTime`. -/
def audioConsumerStretch_average (GameFreq : Int) (v : StretchLocals) (chunk : QueueData) :
    StretchLocals :=
  let timeDiff : ℚ := chunk.timeSinceStart - v.prevTime
  let feedTimes := v.feedTimes.set v.feedTimeIndex.toNat timeDiff
  let numTimes : Int := if v.feedTimesSet = true then v.feedTimeWindowSize else v.feedTimeIndex + 1
  let averageFeedTime := GetAverageTime feedTimes numTimes
  let gameTimes := v.gameTimes.set v.feedTimeIndex.toNat
    ((chunk.length : ℚ) / (N64_SAMPLE_BYTES : ℚ) / (GameFreq : ℚ))
  let averageGameTime := GetAverageTime gameTimes numTimes
  let feedTimeIndex1 : Int := v.feedTimeIndex + 1
  let feedTimeIndex2 : Int := if feedTimeIndex1 ≥ v.feedTimeWindowSize then 0 else feedTimeIndex1
  let feedTimesSet2 : Bool := if feedTimeIndex1 ≥ v.feedTimeWindowSize then true else v.feedTimesSet
  let feedTimeWindowSize1 : Int := c_int (defaultSampleLength / averageGameTime * 50)
  let feedTimeWindowSize2 : Int :=
    if feedTimeWindowSize1 > (maxWindowSize : Int) then (maxWindowSize : Int)
    else feedTimeWindowSize1
  { v with
    prevTime := chunk.timeSinceStart
    feedTimes := feedTimes
    averageFeedTime := averageFeedTime
    gameTimes := gameTimes
    averageGameTime := averageGameTime
    feedTimeIndex := feedTimeIndex2
    feedTimesSet := feedTimesSet2
    feedTimeWindowSize := feedTimeWindowSize2 }

/-- The element count passed to `GetAverageTime` at lines 912 and 915 of
`audioConsumerStretch`: `feedTimesSet ? feedTimeWindowSize : (feedTimeIndex + 1)`. -/
def audioConsumerStretch_numTimes (v : StretchLocals) : Int :=
  if v.feedTimesSet = true then v.feedTimeWindowSize else v.feedTimeIndex + 1

/-- What one iteration of the loop of `audioConsumerStretch` reads from outside its locals:
the tracker (`state.value` at the top of the iteration, `state.totalBuffersProcessed` at the
warm-up test), the statics `speed_factor` and `GameFreq`, and the chunk returned by
`tryPop`, or `none` when `tryPop` timed out. -/
structure StretchInput where
  state : slesState
  speed_factor : Nat
  GameFreq : Int
  chunk : Option QueueData
deriving DecidableEq, Repr

/-- One iteration of the loop of `audioConsumerStretch` (lines 842-931), as it acts on the
locals and on the tempo in effect in the engine: `ranDry` is refreshed; when `tryPop`
returns a chunk the tempo is selected and the averages, the index and the window length are
updated. The calls of `processAudio` touch neither the locals nor the tempo. -/
def audioConsumerStretch_iteration (v : StretchLocals) (tempo : ℚ) (x : StretchInput) :
    StretchLocals × ℚ :=
  match x.chunk with
  | none => ({ v with ranDry := decide (slesQueueLength x.state < v.minQueueSize) }, tempo)
  | some chunk =>
    (audioConsumerStretch_average x.GameFreq
      (audioConsumerStretch_tempo x.state x.speed_factor v tempo).1 chunk,
     (audioConsumerStretch_tempo x.state x.speed_factor v tempo).2)

/-- The locals and the tempo after the first `n` iterations of the loop of
`audioConsumerStretch`, iteration `k` reading `inputs k`. -/
def audioConsumerStretch_run (v0 : StretchLocals) (tempo0 : ℚ) (inputs : Nat → StretchInput) :
    Nat → StretchLocals × ℚ
  | 0 => (v0, tempo0)
  | n + 1 =>
    audioConsumerStretch_iteration (audioConsumerStretch_run v0 tempo0 inputs n).1
      (audioConsumerStretch_run v0 tempo0 inputs n).2 (inputs n)

/-- The locals of `audioConsumerStretch` as iteration `n` of its loop starts, the function
having run from its first line: the initialisation of lines 799-839, then `n` iterations. -/
def audioConsumerStretch_locals (state : slesState) (speed_factor : Nat)
    (OutputFreq SecondaryBufferSize TargetSecondaryBuffers : Int) (inputs : Nat → StretchInput)
    (n : Nat) : StretchLocals :=
  (audioConsumerStretch_run
    (audioConsumerStretch_init state speed_factor OutputFreq SecondaryBufferSize
      TargetSecondaryBuffers).1
    (audioConsumerStretch_init state speed_factor OutputFreq SecondaryBufferSize
      TargetSecondaryBuffers).2 inputs n).1

/-- The window length is at most `maxWindowSize`, the write index is a valid index of the two
window arrays, and the arrays keep their `maxWindowSize` slots. -/
def WindowInv (v : StretchLocals) : Prop :=
  v.feedTimeWindowSize ≤ (maxWindowSize : Int) ∧ 0 ≤ v.feedTimeIndex ∧
  v.feedTimeIndex < (maxWindowSize : Int) ∧
  v.feedTimes.length = maxWindowSize ∧ v.gameTimes.length = maxWindowSize

/-! ## `processAudio`: channel copy and feeding the engine -/

/-- One call of `soundTouch.putSamples`: the memory at the pointer passed (the primary
buffer) and the frame count. The engine reads `4 * numSamples` bytes from it. -/
structure PutSamples where
  samples : List Nat
  numSamples : Nat
deriving DecidableEq, Repr

/-- The body of the copy loop of `processAudio` for one frame at byte offset `i`. -/
def processAudio_frame (SwapChannels : Int) (buffer : List Nat) (i : Nat)
    (primaryBuffer : List Nat) : List Nat :=
  if SwapChannels = 0 then
    (((primaryBuffer.set i (buffer.getD (i + 2) 0)).set (i + 1) (buffer.getD (i + 3) 0)).set
      (i + 2) (buffer.getD i 0)).set (i + 3) (buffer.getD (i + 1) 0)
  else
    (((primaryBuffer.set i (buffer.getD i 0)).set (i + 1) (buffer.getD (i + 1) 0)).set
      (i + 2) (buffer.getD (i + 2) 0)).set (i + 3) (buffer.getD (i + 3) 0)

/-- The loop `for (i = ...; i < length; i += 4)` of `processAudio`, from offset `i`. -/
def processAudio_copy (SwapChannels : Int) (buffer : List Nat) (length : Nat) (i : Nat)
    (primaryBuffer : List Nat) : List Nat :=
  if i < length then
    processAudio_copy SwapChannels buffer length (i + 4)
      (processAudio_frame SwapChannels buffer i primaryBuffer)
  else primaryBuffer
termination_by length - i

/-- Lines 981-1019 of `processAudio` (integer-sample build): the primary buffer afterwards
and the calls of `putSamples` made for the chunk, in order. -/
def processAudio_feed (SwapChannels : Int) (primaryBuffer : List Nat) (primaryBufferBytes : Nat)
    (buffer : List Nat) (length : Nat) : List Nat × List PutSamples :=
  let primaryBuffer1 :=
    if length < primaryBufferBytes then processAudio_copy SwapChannels buffer length 0 primaryBuffer
    else primaryBuffer
  (primaryBuffer1, [{ samples := primaryBuffer1, numSamples := length / N64_SAMPLE_BYTES }])

/-! ## The primary buffer and the stores of the copy loop -/

/-- The number of values of the type `unsigned int` (32 bits on every Android ABI). -/
def UINT_RANGE : Nat := 4294967296

/-- The conversion of an integer value to `unsigned int`: the value modulo `2^32`. -/
def c_unsigned (x : Int) : Nat := (x % (UINT_RANGE : Int)).toNat

/-- The conversion of an `unsigned int` value to `int`: the values from `2^31` on wrap to
the negative ones. -/
def c_signed (x : Nat) : Int :=
  if x % UINT_RANGE < 2147483648 then ((x % UINT_RANGE : Nat) : Int)
  else ((x % UINT_RANGE : Nat) : Int) - (UINT_RANGE : Int)

/-- The sum of two `unsigned int` values, as in `i + 1` and `i += 4` for `unsigned int i`. -/
def uint_add (a b : Nat) : Nat := (a + b) % UINT_RANGE

/-- The statics `primaryBuffer` (the bytes of the array it points to) and
`primaryBufferBytes`. -/
structure PrimaryStatics where
  primaryBuffer : List Nat
  primaryBufferBytes : Int
deriving DecidableEq, Repr

/-- The function `CreatePrimaryBuffer`: `primaryBytes` is the product
`PrimaryBufferSize * N64_SAMPLE_BYTES` converted to `unsigned int` (a product outside the
range of `int` is taken to wrap, which gives the same `unsigned int` value); the array has
`primaryBytes` zeroed bytes and `primaryBufferBytes` is `primaryBytes` converted to `int`. -/
def CreatePrimaryBuffer (PrimaryBufferSize : Int) : PrimaryStatics :=
  let primaryBytes : Nat := c_unsigned (PrimaryBufferSize * (N64_SAMPLE_BYTES : Int))
  { primaryBuffer := List.replicate primaryBytes 0
    primaryBufferBytes := c_signed primaryBytes }

/-- The four stores of the body of the copy loop of `processAudio` at offset `i`, in program
order: the index into `primaryBuffer` and the byte stored there. -/
def processAudio_stores (SwapChannels : Int) (buffer : List Nat) (i : Nat) : List (Nat × Nat) :=
  if SwapChannels = 0 then
    [(i, buffer.getD (uint_add i 2) 0), (uint_add i 1, buffer.getD (uint_add i 3) 0),
     (uint_add i 2, buffer.getD i 0), (uint_add i 3, buffer.getD (uint_add i 1) 0)]
  else
    [(i, buffer.getD i 0), (uint_add i 1, buffer.getD (uint_add i 1) 0),
     (uint_add i 2, buffer.getD (uint_add i 2) 0), (uint_add i 3, buffer.getD (uint_add i 3) 0)]

/-- The record of an execution of the copy loop: the bytes of the primary buffer, the
indices stored to (in program order) and the number of iterations made. -/
structure CopyTrace where
  primaryBuffer : List Nat
  written : List Nat
  iterations : Nat
deriving DecidableEq, Repr

/-- The loop `for (i = ...; i < length; i += 4)` of `processAudio` with its `unsigned int`
counter, from offset `i`, recording every store. `fuel` bounds the number of evaluations of
the loop test; `none` means the bound was reached with the loop still running. -/
def processAudio_loop (SwapChannels : Int) (buffer : List Nat) (length : Nat) :
    Nat → Nat → CopyTrace → Option CopyTrace
  | 0, _, _ => none
  | fuel + 1, i, t =>
    if i < length then
      processAudio_loop SwapChannels buffer length fuel (uint_add i 4)
        { primaryBuffer :=
            (processAudio_stores SwapChannels buffer i).foldl (fun b s => b.set s.1 s.2)
              t.primaryBuffer
          written := t.written ++ (processAudio_stores SwapChannels buffer i).map Prod.fst
          iterations := t.iterations + 1 }
    else some t

/-- Lines 981-1004 of `processAudio`: the test `length < primaryBufferBytes` compares an
`unsigned int` with an `int`, so `primaryBufferBytes` is converted to `unsigned int`; when
it holds the copy loop runs from offset 0, otherwise no store is made. -/
def processAudio_guarded (SwapChannels : Int) (s : PrimaryStatics) (buffer : List Nat)
    (length : Nat) (fuel : Nat) : Option CopyTrace :=
  if length < c_unsigned s.primaryBufferBytes then
    processAudio_loop SwapChannels buffer length fuel 0
      { primaryBuffer := s.primaryBuffer, written := [], iterations := 0 }
  else some { primaryBuffer := s.primaryBuffer, written := [], iterations := 0 }

/-! ## Concrete states used to exercise the definitions -/

/-- A tracker snapshot after warm-up with 40 buffers in the hardware queue. -/
def healthyState : slesState :=
  { value := 60, limit := 100, errors := 0, totalBuffersProcessed := 100 }

/-- The statics after a successful `PluginStartup` and a successful `InitializeAudio` at
33600 Hz: the consumer thread is running. -/
def runningPlugin : Plugin :=
  { l_PluginInit := 1, shutdownThread := false,
    state := { value := 100, limit := 100, errors := 0, totalBuffersProcessed := 0 } }

/-- The bytes of 336 frames of silence. -/
def silence : List Nat := List.replicate 1344 0

/-- A chunk of 336 frames (10 ms at 33600 Hz) announced at clock time 10 s. The field `e` is
what the core reports for its speed limiter. -/
def chunkAt10 (e : Int) : AiLenInput :=
  { e := e, currentTime := 10, LenReg := 1344, inputAudio := silence }

/-- The running plugin one chunk into a game: the pacing origin is at 10 s and 336 samples
have been accounted. -/
def pausedPlugin : Plugin :=
  { runningPlugin with
    pacing := { hasBeenReset := true, totalElapsedSamples := 336, gameStartTime := 10 } }

/-- The first chunk after a pause of ten seconds, with the pacing block running. -/
def chunkAfterPause : AiLenInput :=
  { e := 0, currentTime := 20, LenReg := 1344, inputAudio := silence }

/-- The chunk after `chunkAfterPause`, 10 ms later. -/
def chunkAfterResume : AiLenInput :=
  { e := 0, currentTime := 2001 / 100, LenReg := 1344, inputAudio := silence }

/-- A primary buffer of the default size (`PRIMARY_BUFFER_SIZE * 4` bytes) holding the
bytes of an earlier chunk. -/
def stalePrimaryBuffer : List Nat := List.replicate 65536 1

/-- A chunk of 65536 bytes, as long as the default primary buffer. -/
def oversizedChunk : List Nat := List.replicate 65536 7

/-- A tracker snapshot after warm-up with `value = 0`: 100 buffers in the hardware queue. -/
def fullQueueState : slesState :=
  { value := 0, limit := 100, errors := 0, totalBuffersProcessed := 100 }

/-- A tracker snapshot after warm-up with `value = limit`: the hardware queue is empty. -/
def emptyQueueState : slesState :=
  { value := 100, limit := 100, errors := 0, totalBuffersProcessed := 100 }

/-- Consumer locals for 44100 Hz output with 20 target buffers (thresholds 26 and 65), with
the initial averages: the base ratio is 1. -/
def defaultLocals : StretchLocals :=
  { speedFactor := 1, maxQueueSize := 65, minQueueSize := 26 }

/-- A chunk announced half a second after the pacing origin of `pausedPlugin`, with the
pacing block running: the game is 0.48 s behind. -/
def chunkLate : AiLenInput :=
  { e := 0, currentTime := 21 / 2, LenReg := 1344, inputAudio := silence }

/-- A tracker snapshot after warm-up with 70 buffers in the hardware queue, above the upper
threshold of `defaultLocals`. -/
def busyQueueState : slesState :=
  { value := 30, limit := 100, errors := 0, totalBuffersProcessed := 100 }

/-- A tracker snapshot after warm-up with exactly 65 buffers in the hardware queue, the
upper threshold of `defaultLocals`. -/
def boundaryState : slesState :=
  { value := 35, limit := 100, errors := 0, totalBuffersProcessed := 100 }

/-- The locals of `defaultLocals` as an iteration that found the queue dry leaves them: the
adjustment is taken as 0.95 (the code's value is the base ratio 1 less `slowRate`, below
0.95 by less than `10^-9`), applied as tempo 0.96. -/
def afterDryLocals : StretchLocals :=
  { defaultLocals with ranDry := true, currAdjustment := 19 / 20, slowAdjustment := 24 / 25 }

/-- Call times of a producer that falls behind and catches up, for 10 ms chunks: the first
call at 10 s stalls until 10.01 s; calls 1 to 30 and call 60 arrive exactly when their chunk
is due (`sleepNeeded = 0`); calls 31 to 59 and call 61 arrive 5 ms early
(`sleepNeeded = 0.005`). Every call is made after the previous one has returned. -/
def lagTimes (k : Nat) : ℚ :=
  if k = 0 then 10
  else if k ≤ 30 ∨ k = 60 then 10 + ((k : ℚ) + 1) / 100
  else 10 + (k : ℚ) / 100 + 1 / 200

/-- The sign of `sleepNeeded` along `lagTimes`: positive for call 0, calls 31 to 59 and
call 61. -/
def lagPositive (k : Nat) : Bool :=
  decide (k = 0 ∨ (30 < k ∧ k ≠ 60))

/-- Call times of a producer that runs late and then early, for 10 ms chunks: the first
call at 10 s stalls until 10.01 s; calls 1 to 30 and call 60 arrive 2 ms after their chunk
is due (`sleepNeeded = -0.002`) and return at once; calls 31 to 59 and call 61 arrive 2 ms
early (`sleepNeeded = 0.002`) and stall until their chunk is due. Every call is made after
the previous one has returned. The sign of `sleepNeeded` is `lagPositive`. -/
def lateTimes (k : Nat) : ℚ :=
  if k = 0 then 10
  else if k ≤ 30 ∨ k = 60 then 10 + ((k : ℚ) + 1) / 100 + 1 / 500
  else 10 + ((k : ℚ) + 1) / 100 - 1 / 500

/-- A session of host calls: start-up, initialisation at 33600 Hz, a chunk at 10 s, a change
of the speed factor, a chunk after a pause of ten seconds and the chunk after it. -/
def sessionCalls : List Call :=
  [Call.PluginStartup true, Call.InitializeAudio 33600 33600 true,
   Call.AiLenChanged (chunkAt10 0), Call.SetSpeedFactor 150,
   Call.AiLenChanged chunkAfterPause, Call.AiLenChanged chunkAfterResume]

/-- A chunk of `length` bytes of silence stamped `timeSinceStart`. -/
def chunkOf (length : Nat) (timeSinceStart : ℚ) : QueueData :=
  { data := List.replicate length 0, length := length, timeSinceStart := timeSinceStart }

/-- Two chunks of 0.3 s (40320 bytes at 33600 Hz) followed by two chunks of 10 ms (1344
bytes), each arriving when the previous one has been played. -/
def growingWindowChunks : List QueueData :=
  [chunkOf 40320 0, chunkOf 40320 (3 / 10), chunkOf 1344 (6 / 10), chunkOf 1344 (61 / 100)]

/-- A window array whose first two slots have been written and whose other 498 slots still
hold the zeros of their initialisation. -/
def windowSlots (a b : ℚ) : List ℚ :=
  a :: b :: 0 :: 0 :: 0 :: List.replicate 495 0

/-- A tracker snapshot during warm-up with 40 buffers in the hardware queue. -/
def warmUpState : slesState :=
  { value := 60, limit := 100, errors := 0, totalBuffersProcessed := 0 }

/-- Iterations during warm-up at 33600 Hz: a chunk of 10 ms (1344 bytes), then chunks of 1 s
(134400 bytes) stamped 10 ms after it. -/
def shrinkingInputs (k : Nat) : StretchInput :=
  { state := warmUpState, speed_factor := 100, GameFreq := 33600,
    chunk := some (if k = 0 then chunkOf 1344 0 else chunkOf 134400 (1 / 100)) }

/-- The locals after the first two iterations of `shrinkingInputs`: two slots recorded, the
write index at 2 and the window length re-derived as 1. -/
def shrunkLocals : StretchLocals :=
  { defaultLocals with
    prevTime := 1 / 100, feedTimeIndex := 2, feedTimeWindowSize := 1,
    feedTimes := windowSlots 0 (1 / 100), gameTimes := windowSlots (1 / 100) 1,
    averageGameTime := 101 / 200, averageFeedTime := 1 / 200 }

/-- A first chunk announced 68.417862475 s after the start of the steady clock (the reading
is 68417862475 ns), with the pacing block running. -/
def chunkAtUptime : AiLenInput :=
  { e := 0, currentTime := 68417862475 / 1000000000, LenReg := 1344, inputAudio := silence }

/-! ## Theorems -/

/-! ### Device queue tracker -/

/-- Invariant of the tracker used for the occupancy bounds. -/
theorem Device.step_inv (d : Device) (e : Event)
    (h : d.state.limit = SecondaryBufferNbr ∧ d.bufferQueue.capacity = SecondaryBufferNbr * 2 ∧
      d.bufferQueue.count ≤ d.bufferQueue.capacity ∧
      d.state.value ≤ d.state.limit ∧ -d.state.limit < d.state.value) :
    (d.step e).state.limit = SecondaryBufferNbr ∧
      (d.step e).bufferQueue.capacity = SecondaryBufferNbr * 2 ∧
      (d.step e).bufferQueue.count ≤ (d.step e).bufferQueue.capacity ∧
      (d.step e).state.value ≤ (d.step e).state.limit ∧
      -(d.step e).state.limit < (d.step e).state.value := by
  obtain ⟨hl, hc, hle, hv1, hv2⟩ := h
  cases e with
  | submission n =>
    simp only [Device.step, processAudio_pass, Enqueue]
    split_ifs <;> simp_all <;> omega
  | completion r =>
    simp only [Device.step, queueCallback]
    split_ifs <;> simp_all <;> omega

/-- The tracker invariant is preserved along any sequence of events. -/
theorem Device.foldl_inv (es : List Event) (d : Device)
    (h : d.state.limit = SecondaryBufferNbr ∧ d.bufferQueue.capacity = SecondaryBufferNbr * 2 ∧
      d.bufferQueue.count ≤ d.bufferQueue.capacity ∧
      d.state.value ≤ d.state.limit ∧ -d.state.limit < d.state.value) :
    (es.foldl Device.step d).state.limit = SecondaryBufferNbr ∧
      (es.foldl Device.step d).state.value ≤ (es.foldl Device.step d).state.limit ∧
      -(es.foldl Device.step d).state.limit < (es.foldl Device.step d).state.value := by
  induction es generalizing d with
  | nil => exact ⟨h.1, h.2.2.2.1, h.2.2.2.2⟩
  | cons e es ih => exact ih (d.step e) (Device.step_inv d e h)

/-- C1 (counterexample): after 102 submissions with no completion in between and then one
completion, `value` is `-1`, so `0 <= value <= limit` fails in a reachable state. -/
theorem C1_counterexample :
    ¬ (0 ≤ (Device.run (List.replicate 102 (Event.submission 256) ++
          [Event.completion true])).state.value ∧
        (Device.run (List.replicate 102 (Event.submission 256) ++
          [Event.completion true])).state.value ≤
        (Device.run (List.replicate 102 (Event.submission 256) ++
          [Event.completion true])).state.limit) := by
  have h : (Device.run (List.replicate 102 (Event.submission 256) ++
      [Event.completion true])).state.value = -1 := by
    set_option maxRecDepth 100000 in decide
  rw [h]
  decide

/-- C1 (amended): in every state reachable from `InitializeAudio` by any interleaving of
submissions and completions, `limit` is 100 and `-limit < value <= limit`: `value` never
exceeds `limit`, but it may be negative, because the hardware queue holds up to `2 * limit`
buffers and a submission does not touch `value`. -/
theorem C1_occupancy_bound (es : List Event) :
    (Device.run es).state.limit = 100 ∧
      (Device.run es).state.value ≤ (Device.run es).state.limit ∧
      -(Device.run es).state.limit < (Device.run es).state.value := by
  have h := Device.foldl_inv es InitializeAudio_device (by decide)
  exact h

/-! ### Tempo selection of the adaptive consumer -/

/-- After warm-up an adjustment inside the guard is quantized and handed to `setTempo`. -/
theorem audioConsumerStretch_tempo_adopted (state : slesState) (speed_factor : Nat)
    (v : StretchLocals) (tempo : ℚ) (hwarm : state.limit ≤ state.totalBuffersProcessed)
    (hin : minSlowValue < (audioConsumerStretch_adjust state v).currAdjustment ∧
      (audioConsumerStretch_adjust state v).currAdjustment < maxSlowValue) :
    (audioConsumerStretch_tempo state speed_factor v tempo).2 =
      quantizeTempo (audioConsumerStretch_adjust state v).currAdjustment := by
  unfold audioConsumerStretch_tempo audioConsumerStretch_setTempo
  rw [if_neg (not_lt.mpr hwarm)]
  dsimp only
  rw [if_pos hin]

/-- The running state is reached by the host calls `PluginStartup` and `InitializeAudio`. -/
theorem runningPlugin_reachable :
    Plugin.run 64 [Call.PluginStartup true, Call.InitializeAudio 33600 33600 true]
      = runningPlugin := by
  decide

/-- The accounting stages do not touch the speed factor. -/
theorem AiLenChanged_accounted_speedFactor (w : Nat) (p : Plugin) (i : AiLenInput) :
    speedFactor (AiLenChanged_accounted w p i) = speedFactor p := by
  unfold speedFactor AiLenChanged_accounted AiLenChanged_account AiLenChanged_push
    AiLenChanged_reset
  dsimp only
  split_ifs <;> rfl

/-- After the reset block `hasBeenReset` is set. -/
theorem AiLenChanged_reset_hasBeenReset (p : Plugin) (i : AiLenInput) :
    (AiLenChanged_reset p i).pacing.hasBeenReset = true := by
  unfold AiLenChanged_reset
  dsimp only
  split_ifs with h
  · rfl
  · simp only [not_or, Bool.not_eq_false] at h
    exact h.2.1

/-- The accounting stages keep the busy-wait statics and `hasBeenReset` of the reset block. -/
theorem AiLenChanged_accounted_statics (w : Nat) (p : Plugin) (i : AiLenInput) :
    (AiLenChanged_accounted w p i).pacing.hasBeenReset = true ∧
    (AiLenChanged_accounted w p i).pacing.busyWait = p.pacing.busyWait ∧
    (AiLenChanged_accounted w p i).pacing.busyWaitEnableCount = p.pacing.busyWaitEnableCount ∧
    (AiLenChanged_accounted w p i).pacing.busyWaitDisableCount
      = p.pacing.busyWaitDisableCount := by
  refine ⟨AiLenChanged_reset_hasBeenReset p i, ?_, ?_, ?_⟩ <;>
  · unfold AiLenChanged_accounted AiLenChanged_account AiLenChanged_push AiLenChanged_reset
    dsimp only
    split_ifs <;> rfl

/-- On an initialised, non-failed plugin the call runs the pacing block exactly when the
core reports its speed limiter disabled. -/
theorem AiLenChanged_eq (w : Nat) (p : Plugin) (i : AiLenInput)
    (hinit : p.l_PluginInit ≠ 0) (hok : p.critical_failure ≠ 1) :
    AiLenChanged w p i =
      if isSpeedLimiterEnabled i.e = false then
        AiLenChanged_pace (AiLenChanged_accounted w p i) i (sleepNeeded w p i)
      else (AiLenChanged_accounted w p i, none) := by
  unfold AiLenChanged
  rw [if_neg hok, if_neg hinit]

/-- The pacing block stalls exactly inside the band. -/
theorem AiLenChanged_pace_stall (p : Plugin) (i : AiLenInput) (sn : ℚ) :
    (AiLenChanged_pace p i sn).2 =
      if sn > 0 ∧ sn < maxSleepNeeded / speedFactor p then
        some { endTime := i.currentTime + sn, busyWait := (AiLenChanged_pace p i sn).1.pacing.busyWait }
      else none := by
  unfold AiLenChanged_pace
  rfl

/-- A call with positive `sleepNeeded` does not switch busy-waiting on. -/
theorem AiLenChanged_pace_busyWait_of_pos (p : Plugin) (i : AiLenInput) (sn : ℚ)
    (hsn : 0 < sn) (hb : p.pacing.busyWait = false) :
    (AiLenChanged_pace p i sn).1.pacing.busyWait = false := by
  unfold AiLenChanged_pace
  dsimp only
  rw [if_neg (not_le.mpr hsn), hb]
  simp [busyWaitCheck]

/-- The reset block when it fires because `hasBeenReset` is clear. -/
theorem AiLenChanged_reset_of_stale (p : Plugin) (i : AiLenInput)
    (h : p.pacing.hasBeenReset = false) :
    AiLenChanged_reset p i =
      { p with
        pacing := { p.pacing with
          lastSpeedLimiterEnabledState := isSpeedLimiterEnabled i.e
          gameStartTime := i.currentTime
          totalElapsedSamples := 0
          hasBeenReset := true
          lastSpeedFactor := (p.speed_factor : Int) }
        state := { p.state with totalBuffersProcessed := 0 } } := by
  unfold AiLenChanged_reset
  dsimp only
  rw [if_pos (Or.inr (Or.inl h))]

/-- The reset block when none of its four conditions holds: nothing changes. -/
theorem AiLenChanged_reset_of_fresh (p : Plugin) (i : AiLenInput)
    (h1 : p.pacing.gameStartTime ≠ 0) (h2 : p.pacing.hasBeenReset = true)
    (h3 : p.pacing.lastSpeedFactor = (p.speed_factor : Int))
    (h4 : p.pacing.lastSpeedLimiterEnabledState = isSpeedLimiterEnabled i.e) :
    AiLenChanged_reset p i = p := by
  unfold AiLenChanged_reset
  dsimp only
  rw [if_neg (by simp [h1, h2, h3, h4]), ← h3]

/-- The value of `sleepNeeded` in terms of the state left by the reset block. -/
theorem sleepNeeded_eq (w : Nat) (p : Plugin) (i : AiLenInput) :
    sleepNeeded w p i =
      (((AiLenChanged_reset p i).pacing.totalElapsedSamples + i.LenReg / 4) % 2 ^ w : Nat)
          / ((AiLenChanged_reset p i).GameFreq : ℚ) / speedFactor (AiLenChanged_reset p i)
        - (i.currentTime - (AiLenChanged_reset p i).pacing.gameStartTime) := by
  rfl

/-- The first chunk of 10 ms announced to the running plugin needs a stall of 10 ms, whatever
the core reports for its speed limiter. -/
theorem sleepNeeded_chunkAt10 (e : Int) :
    sleepNeeded 64 runningPlugin (chunkAt10 e) = 1 / 100 := by
  have h : (0 + 1344 / 4) % 2 ^ 64 = 336 := by norm_num
  rw [sleepNeeded_eq, AiLenChanged_reset_of_stale _ _ rfl]
  simp only [speedFactor, runningPlugin, chunkAt10, DEFAULT_FREQUENCY]
  rw [h]
  norm_num

/-- C4 (counterexample): the running plugin is handed a 10 ms chunk, for which
`sleepNeeded = 0.01` lies inside the stall band. With the speed limiter reported enabled
the call does not stall; with the speed limiter reported disabled it stalls until 10.01 s.
The call that skips the pacing block still changes `hasBeenReset`, from clear to set. -/
theorem C4_counterexample :
    runningPlugin.l_PluginInit ≠ 0 ∧ runningPlugin.critical_failure ≠ 1 ∧
    isSpeedLimiterEnabled (chunkAt10 1).e = true ∧
    0 < sleepNeeded 64 runningPlugin (chunkAt10 1) ∧
    sleepNeeded 64 runningPlugin (chunkAt10 1) < (1 / 2) / speedFactor runningPlugin ∧
    (AiLenChanged 64 runningPlugin (chunkAt10 1)).2 = none ∧
    isSpeedLimiterEnabled (chunkAt10 0).e = false ∧
    (AiLenChanged 64 runningPlugin (chunkAt10 0)).2
      = some { endTime := 10 + 1 / 100, busyWait := false } ∧
    runningPlugin.pacing.hasBeenReset = false ∧
    (AiLenChanged 64 runningPlugin (chunkAt10 1)).1.pacing.hasBeenReset = true := by
  have hsf : speedFactor runningPlugin = 1 := by
    simp [speedFactor, runningPlugin]
  refine ⟨by decide, by decide, by decide, ?_, ?_, ?_, by decide, ?_, rfl, ?_⟩
  · rw [sleepNeeded_chunkAt10]; norm_num
  · rw [sleepNeeded_chunkAt10, hsf]; norm_num
  · rw [AiLenChanged_eq _ _ _ (by decide) (by decide), if_neg (by decide)]
  · rw [AiLenChanged_eq _ _ _ (by decide) (by decide), if_pos (by decide),
      AiLenChanged_pace_stall, AiLenChanged_accounted_speedFactor, sleepNeeded_chunkAt10, hsf,
      if_pos (by norm_num [maxSleepNeeded]),
      AiLenChanged_pace_busyWait_of_pos _ _ _ (by norm_num)
        (AiLenChanged_accounted_statics 64 runningPlugin (chunkAt10 0)).2.1]
    simp only [chunkAt10]
  · rw [AiLenChanged_eq _ _ _ (by decide) (by decide), if_neg (by decide)]
    exact (AiLenChanged_accounted_statics 64 runningPlugin (chunkAt10 1)).1

/-- C4 (amended): on an initialised, non-failed plugin, if the core reports its speed limiter
disabled the pacing block runs on the `sleepNeeded` of the call and the producer is stalled
exactly when `0 < sleepNeeded < 0.5 / speedFactor`; if the core reports it enabled the
pacing block is skipped: the call does not stall, leaves the busy-wait mode and its two
counters unchanged, and leaves `hasBeenReset` set. -/
theorem C4_pacing_gate (w : Nat) (p : Plugin) (i : AiLenInput)
    (hinit : p.l_PluginInit ≠ 0) (hok : p.critical_failure ≠ 1) :
    (isSpeedLimiterEnabled i.e = false →
      AiLenChanged w p i =
          AiLenChanged_pace (AiLenChanged_accounted w p i) i (sleepNeeded w p i) ∧
        ((AiLenChanged w p i).2.isSome = true ↔
          0 < sleepNeeded w p i ∧ sleepNeeded w p i < (1 / 2) / speedFactor p)) ∧
    (isSpeedLimiterEnabled i.e = true →
      (AiLenChanged w p i).2 = none ∧
        (AiLenChanged w p i).1.pacing.hasBeenReset = true ∧
        (AiLenChanged w p i).1.pacing.busyWait = p.pacing.busyWait ∧
        (AiLenChanged w p i).1.pacing.busyWaitEnableCount = p.pacing.busyWaitEnableCount ∧
        (AiLenChanged w p i).1.pacing.busyWaitDisableCount
          = p.pacing.busyWaitDisableCount) := by
  have heq := AiLenChanged_eq w p i hinit hok
  constructor
  · intro hdis
    rw [if_pos hdis] at heq
    refine ⟨heq, ?_⟩
    rw [heq, AiLenChanged_pace_stall, AiLenChanged_accounted_speedFactor]
    unfold maxSleepNeeded
    split_ifs with h
    · simpa using h
    · simpa using h
  · intro hen
    rw [if_neg (by rw [hen]; decide)] at heq
    rw [heq]
    exact ⟨rfl, AiLenChanged_accounted_statics w p i⟩

/-- C4 (witness): the amended statement at the running plugin and the first 10 ms chunk. -/
theorem C4_pacing_gate_witness :
    runningPlugin.l_PluginInit ≠ 0 ∧ runningPlugin.critical_failure ≠ 1 ∧
    ((isSpeedLimiterEnabled (chunkAt10 0).e = false →
      AiLenChanged 64 runningPlugin (chunkAt10 0) =
          AiLenChanged_pace (AiLenChanged_accounted 64 runningPlugin (chunkAt10 0)) (chunkAt10 0)
            (sleepNeeded 64 runningPlugin (chunkAt10 0)) ∧
        ((AiLenChanged 64 runningPlugin (chunkAt10 0)).2.isSome = true ↔
          0 < sleepNeeded 64 runningPlugin (chunkAt10 0) ∧
            sleepNeeded 64 runningPlugin (chunkAt10 0) < (1 / 2) / speedFactor runningPlugin)) ∧
    (isSpeedLimiterEnabled (chunkAt10 0).e = true →
      (AiLenChanged 64 runningPlugin (chunkAt10 0)).2 = none ∧
        (AiLenChanged 64 runningPlugin (chunkAt10 0)).1.pacing.hasBeenReset = true ∧
        (AiLenChanged 64 runningPlugin (chunkAt10 0)).1.pacing.busyWait
          = runningPlugin.pacing.busyWait ∧
        (AiLenChanged 64 runningPlugin (chunkAt10 0)).1.pacing.busyWaitEnableCount
          = runningPlugin.pacing.busyWaitEnableCount ∧
        (AiLenChanged 64 runningPlugin (chunkAt10 0)).1.pacing.busyWaitDisableCount
          = runningPlugin.pacing.busyWaitDisableCount)) :=
  ⟨by decide, by decide, C4_pacing_gate 64 runningPlugin (chunkAt10 0) (by decide) (by decide)⟩

/-- The pacing block leaves the queue, the sample counter and the file-scope statics alone. -/
theorem AiLenChanged_pace_frame (p : Plugin) (i : AiLenInput) (sn : ℚ) :
    (AiLenChanged_pace p i sn).1.audioConsumerQueue = p.audioConsumerQueue ∧
    (AiLenChanged_pace p i sn).1.pacing.totalElapsedSamples = p.pacing.totalElapsedSamples ∧
    (AiLenChanged_pace p i sn).1.pacing.lastSpeedFactor = p.pacing.lastSpeedFactor ∧
    (AiLenChanged_pace p i sn).1.pacing.lastSpeedLimiterEnabledState
      = p.pacing.lastSpeedLimiterEnabledState ∧
    (AiLenChanged_pace p i sn).1.speed_factor = p.speed_factor ∧
    (AiLenChanged_pace p i sn).1.GameFreq = p.GameFreq ∧
    (AiLenChanged_pace p i sn).1.l_PluginInit = p.l_PluginInit ∧
    (AiLenChanged_pace p i sn).1.critical_failure = p.critical_failure ∧
    (AiLenChanged_pace p i sn).1.shutdownThread = p.shutdownThread :=
  ⟨rfl, rfl, rfl, rfl, rfl, rfl, rfl, rfl, rfl⟩

/-- What the accounting stages do to the queue and to the file-scope statics. -/
theorem AiLenChanged_accounted_frame (w : Nat) (p : Plugin) (i : AiLenInput) :
    (AiLenChanged_accounted w p i).audioConsumerQueue = p.audioConsumerQueue ++
      [{ data := i.inputAudio.take i.LenReg, length := i.LenReg,
         timeSinceStart := i.currentTime - (AiLenChanged_reset p i).pacing.gameStartTime }] ∧
    (AiLenChanged_accounted w p i).pacing.totalElapsedSamples =
      ((AiLenChanged_reset p i).pacing.totalElapsedSamples + i.LenReg / 4) % 2 ^ w ∧
    (AiLenChanged_accounted w p i).pacing.gameStartTime
      = (AiLenChanged_reset p i).pacing.gameStartTime ∧
    (AiLenChanged_accounted w p i).speed_factor = p.speed_factor ∧
    (AiLenChanged_accounted w p i).GameFreq = p.GameFreq ∧
    (AiLenChanged_accounted w p i).l_PluginInit = p.l_PluginInit ∧
    (AiLenChanged_accounted w p i).critical_failure = p.critical_failure ∧
    (AiLenChanged_accounted w p i).shutdownThread = p.shutdownThread := by
  refine ⟨?_, rfl, rfl, ?_, ?_, ?_, ?_, ?_⟩ <;>
  · unfold AiLenChanged_accounted AiLenChanged_account AiLenChanged_push AiLenChanged_reset
      timeSinceStart
    dsimp only
    split_ifs <;> rfl

/-- After the reset block the remembered limiter state is the one just queried. -/
theorem AiLenChanged_reset_limiter (p : Plugin) (i : AiLenInput) :
    (AiLenChanged_reset p i).pacing.lastSpeedLimiterEnabledState = isSpeedLimiterEnabled i.e ∧
    (AiLenChanged_reset p i).pacing.lastSpeedFactor = (p.speed_factor : Int) ∧
    (AiLenChanged_reset p i).speed_factor = p.speed_factor ∧
    (AiLenChanged_reset p i).GameFreq = p.GameFreq := by
  unfold AiLenChanged_reset
  dsimp only
  split_ifs with h
  · exact ⟨rfl, rfl, rfl, rfl⟩
  · simp only [not_or, not_not] at h
    exact ⟨h.2.2.2, rfl, rfl, rfl⟩

/-- A pacing-active call whose `sleepNeeded` lies in `[0, 0.5 / speedFactor)`: it keeps
`hasBeenReset` and the origin left by the reset block, and returns `sleepNeeded` seconds
after it was made. -/
theorem AiLenChanged_in_band (w : Nat) (p : Plugin) (i : AiLenInput)
    (hinit : p.l_PluginInit ≠ 0) (hok : p.critical_failure ≠ 1)
    (hpace : isSpeedLimiterEnabled i.e = false)
    (h0 : 0 ≤ sleepNeeded w p i) (h1 : sleepNeeded w p i < (1 / 2) / speedFactor p) :
    (AiLenChanged w p i).1.pacing.hasBeenReset = true ∧
    (AiLenChanged w p i).1.pacing.gameStartTime
      = (AiLenChanged_reset p i).pacing.gameStartTime ∧
    (AiLenChanged w p i).1.pacing.totalElapsedSamples =
      ((AiLenChanged_reset p i).pacing.totalElapsedSamples + i.LenReg / 4) % 2 ^ w ∧
    (AiLenChanged w p i).1.pacing.lastSpeedFactor = (p.speed_factor : Int) ∧
    (AiLenChanged w p i).1.pacing.lastSpeedLimiterEnabledState = false ∧
    (AiLenChanged w p i).1.speed_factor = p.speed_factor ∧
    (AiLenChanged w p i).1.GameFreq = p.GameFreq ∧
    (AiLenChanged w p i).1.l_PluginInit = p.l_PluginInit ∧
    (AiLenChanged w p i).1.critical_failure = p.critical_failure ∧
    returnTime i (AiLenChanged w p i).2 = i.currentTime + sleepNeeded w p i := by
  have heq := AiLenChanged_eq w p i hinit hok
  rw [if_pos hpace] at heq
  have hsf := AiLenChanged_accounted_speedFactor w p i
  have hacc := AiLenChanged_accounted_frame w p i
  have hst := AiLenChanged_accounted_statics w p i
  have hlim := AiLenChanged_reset_limiter p i
  have hfr := AiLenChanged_pace_frame (AiLenChanged_accounted w p i) i (sleepNeeded w p i)
  have hnr : ¬ (sleepNeeded w p i < minSleepNeededForReset ∨
      sleepNeeded w p i > maxSleepNeeded / speedFactor (AiLenChanged_accounted w p i)) := by
    rw [hsf]
    unfold minSleepNeededForReset maxSleepNeeded
    rintro (h | h) <;> linarith
  have hng : ¬ (sleepNeeded w p i < minSleepNeeded) := by
    unfold minSleepNeeded
    intro h
    linarith
  rw [heq]
  refine ⟨?_, ?_, ?_, ?_, ?_, ?_, ?_, ?_, ?_, ?_⟩
  · unfold AiLenChanged_pace
    dsimp only
    rw [if_neg hnr]
    exact hst.1
  · unfold AiLenChanged_pace
    dsimp only
    rw [if_neg hng]
    exact hacc.2.2.1
  · rw [hfr.2.1]; exact hacc.2.1
  · rw [hfr.2.2.1]; exact hlim.2.1
  · rw [hfr.2.2.2.1]
    exact hlim.1.trans hpace
  · rw [hfr.2.2.2.2.1]; exact hacc.2.2.2.1
  · rw [hfr.2.2.2.2.2.1]; exact hacc.2.2.2.2.1
  · rw [hfr.2.2.2.2.2.2.1]; exact hacc.2.2.2.2.2.1
  · rw [hfr.2.2.2.2.2.2.2.1]; exact hacc.2.2.2.2.2.2.1
  · rw [AiLenChanged_pace_stall, hsf]
    unfold maxSleepNeeded
    by_cases hz : sleepNeeded w p i > 0
    · rw [if_pos ⟨hz, h1⟩]
      rfl
    · rw [if_neg (fun h => hz h.1)]
      have : sleepNeeded w p i = 0 := le_antisymm (not_lt.mp hz) h0
      rw [this, add_zero]
      rfl

/-- The chunk duration written with the literal sample size. -/
theorem chunkDuration_eq (p : Plugin) (LenReg : Nat) :
    chunkDuration p LenReg = ((LenReg / 4 : Nat) : ℚ) / (p.GameFreq : ℚ) / speedFactor p := rfl

/-- The first call after a reset computes the duration of its own chunk as `sleepNeeded`. -/
theorem sleepNeeded_first (w : Nat) (p : Plugin) (LenReg : Nat) (audio : List Nat) (t : ℚ)
    (hstale : p.pacing.hasBeenReset = false) (hov : LenReg / 4 < 2 ^ w) :
    sleepNeeded w p (steadyInput LenReg audio t) = chunkDuration p LenReg := by
  rw [sleepNeeded_eq, AiLenChanged_reset_of_stale p _ hstale, chunkDuration_eq]
  simp only [steadyInput, speedFactor]
  rw [Nat.zero_add, Nat.mod_eq_of_lt hov, sub_self, sub_zero]

/-- A later call, made with the pacing origin `g` in place and `k` samples accounted. -/
theorem sleepNeeded_next (w : Nat) (p : Plugin) (LenReg : Nat) (audio : List Nat) (t : ℚ)
    (h1 : p.pacing.gameStartTime ≠ 0) (h2 : p.pacing.hasBeenReset = true)
    (h3 : p.pacing.lastSpeedFactor = (p.speed_factor : Int))
    (h4 : p.pacing.lastSpeedLimiterEnabledState = false)
    (hov : p.pacing.totalElapsedSamples + LenReg / 4 < 2 ^ w) :
    sleepNeeded w p (steadyInput LenReg audio t) =
      ((p.pacing.totalElapsedSamples + LenReg / 4 : Nat) : ℚ) / (p.GameFreq : ℚ) / speedFactor p
        - (t - p.pacing.gameStartTime) := by
  rw [sleepNeeded_eq, AiLenChanged_reset_of_fresh p _ h1 h2 h3 (by rw [h4]; rfl)]
  simp only [steadyInput]
  rw [Nat.mod_eq_of_lt hov]

/-- The state and the return time after each call of a steady run. -/
theorem steadyRun_inv (w : Nat) (p0 : Plugin) (LenReg : Nat) (audio : List Nat) (t0 e : ℚ)
    (hinit : p0.l_PluginInit ≠ 0) (hok : p0.critical_failure ≠ 1)
    (hfresh : p0.pacing.hasBeenReset = false) (ht0 : t0 ≠ 0)
    (hd1 : 0 < chunkDuration p0 LenReg)
    (hd2 : chunkDuration p0 LenReg < (1 / 2) / speedFactor p0)
    (he1 : 0 ≤ e) (he2 : e ≤ chunkDuration p0 LenReg) (n : Nat)
    (hov : (n + 1) * (LenReg / 4) < 2 ^ w) :
    (steadyRun w p0 LenReg audio t0 e n).1.pacing.hasBeenReset = true ∧
    (steadyRun w p0 LenReg audio t0 e n).1.pacing.gameStartTime = t0 ∧
    (steadyRun w p0 LenReg audio t0 e n).1.pacing.totalElapsedSamples
      = (n + 1) * (LenReg / 4) ∧
    (steadyRun w p0 LenReg audio t0 e n).1.pacing.lastSpeedFactor = (p0.speed_factor : Int) ∧
    (steadyRun w p0 LenReg audio t0 e n).1.pacing.lastSpeedLimiterEnabledState = false ∧
    (steadyRun w p0 LenReg audio t0 e n).1.speed_factor = p0.speed_factor ∧
    (steadyRun w p0 LenReg audio t0 e n).1.GameFreq = p0.GameFreq ∧
    (steadyRun w p0 LenReg audio t0 e n).1.l_PluginInit = p0.l_PluginInit ∧
    (steadyRun w p0 LenReg audio t0 e n).1.critical_failure = p0.critical_failure ∧
    (steadyRun w p0 LenReg audio t0 e n).2 = t0 + ((n : ℚ) + 1) * chunkDuration p0 LenReg := by
  induction n with
  | zero =>
    have hsmall : LenReg / 4 < 2 ^ w := by simpa using hov
    have hsn := sleepNeeded_first w p0 LenReg audio t0 hfresh hsmall
    have hb := AiLenChanged_in_band w p0 (steadyInput LenReg audio t0) hinit hok rfl
      (by rw [hsn]; exact le_of_lt hd1) (by rw [hsn]; exact hd2)
    rw [AiLenChanged_reset_of_stale p0 _ hfresh, hsn] at hb
    obtain ⟨b1, b2, b3, b4, b5, b6, b7, b8, b9, b10⟩ := hb
    simp only [steadyRun]
    refine ⟨b1, b2, ?_, b4, b5, b6, b7, b8, b9, ?_⟩
    · rw [b3]
      simp only [steadyInput]
      rw [Nat.zero_add, Nat.mod_eq_of_lt hsmall]
      simp
    · rw [b10]
      simp [steadyInput]
  | succ n ih =>
    have hov1 : (n + 1) * (LenReg / 4) < 2 ^ w :=
      lt_of_le_of_lt (Nat.mul_le_mul_right _ (by omega)) hov
    obtain ⟨a1, a2, a3, a4, a5, a6, a7, a8, a9, a10⟩ := ih hov1
    have hov2 : (steadyRun w p0 LenReg audio t0 e n).1.pacing.totalElapsedSamples
        + LenReg / 4 < 2 ^ w := by
      rw [a3]
      calc (n + 1) * (LenReg / 4) + LenReg / 4 = (n + 1 + 1) * (LenReg / 4) := by ring
        _ < 2 ^ w := hov
    have hsfeq : speedFactor (steadyRun w p0 LenReg audio t0 e n).1 = speedFactor p0 := by
      unfold speedFactor
      rw [a6]
    have hsn := sleepNeeded_next w (steadyRun w p0 LenReg audio t0 e n).1 LenReg audio
      ((steadyRun w p0 LenReg audio t0 e n).2 + e) (by rw [a2]; exact ht0) a1
      (by rw [a4, a6]) a5 hov2
    rw [a3, a7, hsfeq, a2, a10] at hsn
    have hsn2 : sleepNeeded w (steadyRun w p0 LenReg audio t0 e n).1
        (steadyInput LenReg audio ((steadyRun w p0 LenReg audio t0 e n).2 + e))
        = chunkDuration p0 LenReg - e := by
      rw [a10, hsn, chunkDuration_eq]
      push_cast
      ring
    have hb := AiLenChanged_in_band w (steadyRun w p0 LenReg audio t0 e n).1
      (steadyInput LenReg audio ((steadyRun w p0 LenReg audio t0 e n).2 + e))
      (by rw [a8]; exact hinit) (by rw [a9]; exact hok) rfl
      (by rw [hsn2]; linarith) (by rw [hsn2, hsfeq]; linarith)
    rw [AiLenChanged_reset_of_fresh _ _ (by rw [a2]; exact ht0) a1 (by rw [a4, a6])
      (by rw [a5]; rfl), hsn2] at hb
    obtain ⟨b1, b2, b3, b4, b5, b6, b7, b8, b9, b10⟩ := hb
    simp only [steadyRun]
    refine ⟨b1, b2.trans a2, ?_, b4.trans (by rw [a6]), b5, b6.trans a6, b7.trans a7,
      b8.trans a8, b9.trans a9, ?_⟩
    · rw [b3]
      simp only [steadyInput]
      rw [Nat.mod_eq_of_lt hov2, a3]
      ring
    · rw [b10]
      simp only [steadyInput]
      rw [a10]
      push_cast
      ring

/-- A pacing-active call whose `sleepNeeded` lies in `[-5, -0.1)`: it keeps `hasBeenReset`,
moves the origin left by the reset block 0.1 s later, and returns without waiting. -/
theorem AiLenChanged_lagging (w : Nat) (p : Plugin) (i : AiLenInput)
    (hinit : p.l_PluginInit ≠ 0) (hok : p.critical_failure ≠ 1)
    (hpace : isSpeedLimiterEnabled i.e = false) (hsf0 : 0 < speedFactor p)
    (h0 : -5 ≤ sleepNeeded w p i) (h1 : sleepNeeded w p i < -(1 / 10)) :
    (AiLenChanged w p i).1.pacing.hasBeenReset = true ∧
    (AiLenChanged w p i).1.pacing.gameStartTime
      = (AiLenChanged_reset p i).pacing.gameStartTime + 1 / 10 ∧
    (AiLenChanged w p i).1.pacing.totalElapsedSamples =
      ((AiLenChanged_reset p i).pacing.totalElapsedSamples + i.LenReg / 4) % 2 ^ w ∧
    (AiLenChanged w p i).1.pacing.lastSpeedFactor = (p.speed_factor : Int) ∧
    (AiLenChanged w p i).1.pacing.lastSpeedLimiterEnabledState = false ∧
    (AiLenChanged w p i).1.speed_factor = p.speed_factor ∧
    (AiLenChanged w p i).1.GameFreq = p.GameFreq ∧
    returnTime i (AiLenChanged w p i).2 = i.currentTime := by
  have heq := AiLenChanged_eq w p i hinit hok
  rw [if_pos hpace] at heq
  have hsf := AiLenChanged_accounted_speedFactor w p i
  have hacc := AiLenChanged_accounted_frame w p i
  have hst := AiLenChanged_accounted_statics w p i
  have hlim := AiLenChanged_reset_limiter p i
  have hfr := AiLenChanged_pace_frame (AiLenChanged_accounted w p i) i (sleepNeeded w p i)
  have hpos : (0 : ℚ) < (1 / 2) / speedFactor p := div_pos (by norm_num) hsf0
  have hnr : ¬ (sleepNeeded w p i < minSleepNeededForReset ∨
      sleepNeeded w p i > maxSleepNeeded / speedFactor (AiLenChanged_accounted w p i)) := by
    rw [hsf]
    unfold minSleepNeededForReset maxSleepNeeded
    rintro (h | h) <;> linarith
  rw [heq]
  refine ⟨?_, ?_, ?_, ?_, ?_, ?_, ?_, ?_⟩
  · unfold AiLenChanged_pace
    dsimp only
    rw [if_neg hnr]
    exact hst.1
  · have hgs : (AiLenChanged_pace (AiLenChanged_accounted w p i) i
        (sleepNeeded w p i)).1.pacing.gameStartTime =
        if sleepNeeded w p i < minSleepNeeded then
          (AiLenChanged_accounted w p i).pacing.gameStartTime - minSleepNeeded
        else (AiLenChanged_accounted w p i).pacing.gameStartTime := rfl
    rw [hgs, if_pos (by unfold minSleepNeeded; linarith), hacc.2.2.1]
    unfold minSleepNeeded
    ring
  · rw [hfr.2.1]; exact hacc.2.1
  · rw [hfr.2.2.1]; exact hlim.2.1
  · rw [hfr.2.2.2.1]
    exact hlim.1.trans hpace
  · rw [hfr.2.2.2.2.1]; exact hacc.2.2.2.1
  · rw [hfr.2.2.2.2.2.1]; exact hacc.2.2.2.2.1
  · rw [AiLenChanged_pace_stall, if_neg (fun h => by linarith [h.1])]
    rfl

/-- The 10 ms chunk of the running plugin. -/
theorem chunkDuration_running : chunkDuration runningPlugin 1344 = 1 / 100 := by
  have h : (1344 / 4 : Nat) = 336 := by norm_num
  rw [chunkDuration_eq, h]
  simp only [speedFactor, runningPlugin, DEFAULT_FREQUENCY]
  norm_num

/-- The pacing statics of `pausedPlugin` that enter `sleepNeeded` are those left by a first
call on the running plugin at 10 s with a chunk of 10 ms. -/
theorem pausedPlugin_after_first_call :
    (AiLenChanged 64 runningPlugin (steadyInput 1344 silence 10)).1.pacing.hasBeenReset
      = pausedPlugin.pacing.hasBeenReset ∧
    (AiLenChanged 64 runningPlugin (steadyInput 1344 silence 10)).1.pacing.gameStartTime
      = pausedPlugin.pacing.gameStartTime ∧
    (AiLenChanged 64 runningPlugin (steadyInput 1344 silence 10)).1.pacing.totalElapsedSamples
      = pausedPlugin.pacing.totalElapsedSamples ∧
    (AiLenChanged 64 runningPlugin (steadyInput 1344 silence 10)).1.pacing.lastSpeedFactor
      = pausedPlugin.pacing.lastSpeedFactor ∧
    (AiLenChanged 64 runningPlugin
        (steadyInput 1344 silence 10)).1.pacing.lastSpeedLimiterEnabledState
      = pausedPlugin.pacing.lastSpeedLimiterEnabledState := by
  obtain ⟨a1, a2, a3, a4, a5, _⟩ :=
    steadyRun_inv 64 runningPlugin 1344 silence 10 0 (by decide) (by decide) rfl (by norm_num)
      (by rw [chunkDuration_running]; norm_num)
      (by rw [chunkDuration_running]; simp only [speedFactor, runningPlugin]; norm_num)
      (le_refl _) (by rw [chunkDuration_running]; norm_num) 0 (by norm_num)
  have hrun : (steadyRun 64 runningPlugin 1344 silence 10 0 0).1
      = (AiLenChanged 64 runningPlugin (steadyInput 1344 silence 10)).1 := rfl
  rw [hrun] at a1 a2 a3 a4 a5
  refine ⟨a1, a2, ?_, a4, a5⟩
  rw [a3]
  rfl

/-- The call at 13 s, three seconds after the origin of `pausedPlugin`, finds the game
2.98 s behind. -/
theorem sleepNeeded_stale_first :
    sleepNeeded 64 pausedPlugin (steadyInput 1344 silence 13) = -(149 / 50) := by
  have h : (336 + 1344 / 4) % 2 ^ 64 = 672 := by norm_num
  rw [sleepNeeded_eq, AiLenChanged_reset_of_fresh _ _ (by decide) rfl rfl rfl]
  simp only [speedFactor, pausedPlugin, runningPlugin, steadyInput, DEFAULT_FREQUENCY]
  rw [h]
  norm_num

/-- The chunk duration and the speed factor of `pausedPlugin`. -/
theorem chunkDuration_paused :
    chunkDuration pausedPlugin 1344 = 1 / 100 ∧ speedFactor pausedPlugin = 1 := by
  have h : (1344 / 4 : Nat) = 336 := by norm_num
  rw [chunkDuration_eq, h]
  simp only [speedFactor, pausedPlugin, runningPlugin, DEFAULT_FREQUENCY]
  norm_num

/-- C6 (counterexample): the plugin one chunk into a game (origin at 10 s, 336 samples
accounted, `hasBeenReset` set), then calls with 10 ms chunks from 13 s on, each 5 ms after
the previous one returned, the pacing block running: `0 < d = 0.01 < 0.5 / speedFactor` and
`0 <= e = 0.005 <= d`, but the first call leaves the origin in place (it only moves it by
0.1 s) and returns at once, and the call after it computes `sleepNeeded = -2.875`, not
`d - e = 0.005`. -/
theorem C6_counterexample :
    pausedPlugin.l_PluginInit ≠ 0 ∧ pausedPlugin.critical_failure ≠ 1 ∧
    isSpeedLimiterEnabled (steadyInput 1344 silence 13).e = false ∧
    0 < chunkDuration pausedPlugin 1344 ∧
    chunkDuration pausedPlugin 1344 < (1 / 2) / speedFactor pausedPlugin ∧
    (0 : ℚ) ≤ 1 / 200 ∧ 1 / 200 ≤ chunkDuration pausedPlugin 1344 ∧
    pausedPlugin.pacing.hasBeenReset = true ∧
    (steadyRun 64 pausedPlugin 1344 silence 13 (1 / 200) 0).2 = 13 ∧
    (steadyRun 64 pausedPlugin 1344 silence 13 (1 / 200) 0).1.pacing.gameStartTime
      = 101 / 10 ∧
    sleepNeeded 64 (steadyRun 64 pausedPlugin 1344 silence 13 (1 / 200) 0).1
        (steadyInput 1344 silence
          ((steadyRun 64 pausedPlugin 1344 silence 13 (1 / 200) 0).2 + 1 / 200))
      = -(23 / 8) ∧
    chunkDuration pausedPlugin 1344 - 1 / 200 = 1 / 200 ∧
    sleepNeeded 64 (steadyRun 64 pausedPlugin 1344 silence 13 (1 / 200) 0).1
        (steadyInput 1344 silence
          ((steadyRun 64 pausedPlugin 1344 silence 13 (1 / 200) 0).2 + 1 / 200))
      ≠ chunkDuration pausedPlugin 1344 - 1 / 200 := by
  obtain ⟨hd, hsf⟩ := chunkDuration_paused
  have hr : AiLenChanged_reset pausedPlugin (steadyInput 1344 silence 13) = pausedPlugin :=
    AiLenChanged_reset_of_fresh _ _ (by decide) rfl rfl rfl
  have hb := AiLenChanged_lagging 64 pausedPlugin (steadyInput 1344 silence 13) (by decide)
    (by decide) rfl (by rw [hsf]; norm_num) (by rw [sleepNeeded_stale_first]; norm_num)
    (by rw [sleepNeeded_stale_first]; norm_num)
  rw [hr] at hb
  obtain ⟨b1, b2, b3, b4, b5, b6, b7, b8⟩ := hb
  have hrun : steadyRun 64 pausedPlugin 1344 silence 13 (1 / 200) 0 =
      ((AiLenChanged 64 pausedPlugin (steadyInput 1344 silence 13)).1,
       returnTime (steadyInput 1344 silence 13)
        (AiLenChanged 64 pausedPlugin (steadyInput 1344 silence 13)).2) := rfl
  have ht : (steadyRun 64 pausedPlugin 1344 silence 13 (1 / 200) 0).2 = 13 := by
    rw [hrun, b8]
    rfl
  have hg : (steadyRun 64 pausedPlugin 1344 silence 13 (1 / 200) 0).1.pacing.gameStartTime
      = 101 / 10 := by
    rw [hrun, b2]
    simp only [pausedPlugin]
    norm_num
  have h3 : (AiLenChanged 64 pausedPlugin
      (steadyInput 1344 silence 13)).1.pacing.totalElapsedSamples = 672 := by
    rw [b3]
    simp only [pausedPlugin, steadyInput]
    norm_num
  have hsn : sleepNeeded 64 (steadyRun 64 pausedPlugin 1344 silence 13 (1 / 200) 0).1
      (steadyInput 1344 silence
        ((steadyRun 64 pausedPlugin 1344 silence 13 (1 / 200) 0).2 + 1 / 200))
      = -(23 / 8) := by
    rw [ht]
    rw [hrun] at hg
    have hq := sleepNeeded_next 64 (AiLenChanged 64 pausedPlugin
      (steadyInput 1344 silence 13)).1 1344 silence (13 + 1 / 200)
      (by rw [hg]; norm_num) b1 (by rw [b4, b6]) b5 (by rw [h3]; norm_num)
    rw [hrun, hq, h3, hg, b7]
    have hsf2 : speedFactor (AiLenChanged 64 pausedPlugin
        (steadyInput 1344 silence 13)).1 = 1 := by
      unfold speedFactor
      rw [b6]
      exact hsf
    rw [hsf2]
    simp only [pausedPlugin, runningPlugin, DEFAULT_FREQUENCY]
    norm_num
  refine ⟨by decide, by decide, rfl, ?_, ?_, by norm_num, ?_, rfl, ht, hg, hsn, ?_, ?_⟩
  · rw [hd]; norm_num
  · rw [hd, hsf]; norm_num
  · rw [hd]; norm_num
  · rw [hd]; norm_num
  · rw [hsn, hd]; norm_num

/-- C6 (amended): with the pacing block running, `speed_factor` and `GameFreq` constant,
the first call of the sequence made with `hasBeenReset` clear (the initial statics, or after
a reset condition), so that it restarts the pacing origin at its own time, every chunk
of the same length with game duration `d`, `0 < d < 0.5 / speedFactor`, every stall ending
at its target, and the producer calling again `e` seconds after each return, `0 <= e <= d`:
every call after the first (call `n + 1`, as long as the sample counter has not wrapped)
computes `sleepNeeded = d - e`, which is 0 when `e = d`; no reset is triggered (the reset
block changes nothing, `hasBeenReset` stays set and the origin stays at the time of the first
call); and when a call returns the time since `gameStartTime` equals
`totalElapsedGameTime`. -/
theorem C6_pacing_convergence (w : Nat) (p0 : Plugin) (LenReg : Nat) (audio : List Nat)
    (t0 e : ℚ) (hinit : p0.l_PluginInit ≠ 0) (hok : p0.critical_failure ≠ 1)
    (hfresh : p0.pacing.hasBeenReset = false) (ht0 : t0 ≠ 0)
    (hd1 : 0 < chunkDuration p0 LenReg)
    (hd2 : chunkDuration p0 LenReg < (1 / 2) / speedFactor p0)
    (he1 : 0 ≤ e) (he2 : e ≤ chunkDuration p0 LenReg) (n : Nat)
    (hov : (n + 2) * (LenReg / 4) < 2 ^ w) :
    sleepNeeded w (steadyRun w p0 LenReg audio t0 e n).1
        (steadyInput LenReg audio ((steadyRun w p0 LenReg audio t0 e n).2 + e))
      = chunkDuration p0 LenReg - e ∧
    (e = chunkDuration p0 LenReg →
      sleepNeeded w (steadyRun w p0 LenReg audio t0 e n).1
        (steadyInput LenReg audio ((steadyRun w p0 LenReg audio t0 e n).2 + e)) = 0) ∧
    AiLenChanged_reset (steadyRun w p0 LenReg audio t0 e n).1
        (steadyInput LenReg audio ((steadyRun w p0 LenReg audio t0 e n).2 + e))
      = (steadyRun w p0 LenReg audio t0 e n).1 ∧
    (steadyRun w p0 LenReg audio t0 e (n + 1)).1.pacing.hasBeenReset = true ∧
    (steadyRun w p0 LenReg audio t0 e (n + 1)).1.pacing.gameStartTime = t0 ∧
    (steadyRun w p0 LenReg audio t0 e n).2
        - (steadyRun w p0 LenReg audio t0 e n).1.pacing.gameStartTime
      = totalElapsedGameTime (steadyRun w p0 LenReg audio t0 e n).1 ∧
    (steadyRun w p0 LenReg audio t0 e (n + 1)).2
        - (steadyRun w p0 LenReg audio t0 e (n + 1)).1.pacing.gameStartTime
      = totalElapsedGameTime (steadyRun w p0 LenReg audio t0 e (n + 1)).1 := by
  have hov1 : (n + 1) * (LenReg / 4) < 2 ^ w :=
    lt_of_le_of_lt (Nat.mul_le_mul_right _ (by omega)) hov
  obtain ⟨a1, a2, a3, a4, a5, a6, a7, _, _, a10⟩ :=
    steadyRun_inv w p0 LenReg audio t0 e hinit hok hfresh ht0 hd1 hd2 he1 he2 n hov1
  obtain ⟨b1, b2, b3, _, _, b6, b7, _, _, b10⟩ :=
    steadyRun_inv w p0 LenReg audio t0 e hinit hok hfresh ht0 hd1 hd2 he1 he2 (n + 1) hov
  have hov2 : (steadyRun w p0 LenReg audio t0 e n).1.pacing.totalElapsedSamples
      + LenReg / 4 < 2 ^ w := by
    rw [a3]
    calc (n + 1) * (LenReg / 4) + LenReg / 4 = (n + 2) * (LenReg / 4) := by ring
      _ < 2 ^ w := hov
  have hsfa : speedFactor (steadyRun w p0 LenReg audio t0 e n).1 = speedFactor p0 := by
    unfold speedFactor
    rw [a6]
  have hsfb : speedFactor (steadyRun w p0 LenReg audio t0 e (n + 1)).1 = speedFactor p0 := by
    unfold speedFactor
    rw [b6]
  have hsn := sleepNeeded_next w (steadyRun w p0 LenReg audio t0 e n).1 LenReg audio
    ((steadyRun w p0 LenReg audio t0 e n).2 + e) (by rw [a2]; exact ht0) a1
    (by rw [a4, a6]) a5 hov2
  rw [a3, a7, hsfa, a2, a10] at hsn
  have hsn2 : sleepNeeded w (steadyRun w p0 LenReg audio t0 e n).1
      (steadyInput LenReg audio ((steadyRun w p0 LenReg audio t0 e n).2 + e))
      = chunkDuration p0 LenReg - e := by
    rw [a10, hsn, chunkDuration_eq]
    push_cast
    ring
  refine ⟨hsn2, ?_, ?_, b1, b2, ?_, ?_⟩
  · intro he
    rw [hsn2, he, sub_self]
  · exact AiLenChanged_reset_of_fresh _ _ (by rw [a2]; exact ht0) a1 (by rw [a4, a6])
      (by rw [a5]; rfl)
  · unfold totalElapsedGameTime
    rw [a10, a2, a3, a7, hsfa, chunkDuration_eq]
    push_cast
    ring
  · unfold totalElapsedGameTime
    rw [b10, b2, b3, b7, hsfb, chunkDuration_eq]
    push_cast
    ring

/-- C6 (witness): the running plugin fed 10 ms chunks from clock time 10 s, with the producer
taking 5 ms between calls; the third call. -/
theorem C6_pacing_convergence_witness :
    sleepNeeded 64 (steadyRun 64 runningPlugin 1344 silence 10 (1 / 200) 1).1
        (steadyInput 1344 silence ((steadyRun 64 runningPlugin 1344 silence 10 (1 / 200) 1).2
          + 1 / 200))
      = chunkDuration runningPlugin 1344 - 1 / 200 ∧
    (1 / 200 = chunkDuration runningPlugin 1344 →
      sleepNeeded 64 (steadyRun 64 runningPlugin 1344 silence 10 (1 / 200) 1).1
        (steadyInput 1344 silence ((steadyRun 64 runningPlugin 1344 silence 10 (1 / 200) 1).2
          + 1 / 200)) = 0) ∧
    AiLenChanged_reset (steadyRun 64 runningPlugin 1344 silence 10 (1 / 200) 1).1
        (steadyInput 1344 silence ((steadyRun 64 runningPlugin 1344 silence 10 (1 / 200) 1).2
          + 1 / 200))
      = (steadyRun 64 runningPlugin 1344 silence 10 (1 / 200) 1).1 ∧
    (steadyRun 64 runningPlugin 1344 silence 10 (1 / 200) (1 + 1)).1.pacing.hasBeenReset
      = true ∧
    (steadyRun 64 runningPlugin 1344 silence 10 (1 / 200) (1 + 1)).1.pacing.gameStartTime
      = 10 ∧
    (steadyRun 64 runningPlugin 1344 silence 10 (1 / 200) 1).2
        - (steadyRun 64 runningPlugin 1344 silence 10 (1 / 200) 1).1.pacing.gameStartTime
      = totalElapsedGameTime (steadyRun 64 runningPlugin 1344 silence 10 (1 / 200) 1).1 ∧
    (steadyRun 64 runningPlugin 1344 silence 10 (1 / 200) (1 + 1)).2
        - (steadyRun 64 runningPlugin 1344 silence 10 (1 / 200) (1 + 1)).1.pacing.gameStartTime
      = totalElapsedGameTime (steadyRun 64 runningPlugin 1344 silence 10 (1 / 200) (1 + 1)).1 :=
  C6_pacing_convergence 64 runningPlugin 1344 silence 10 (1 / 200) (by decide) (by decide) rfl
    (by norm_num) (by rw [chunkDuration_running]; norm_num)
    (by rw [chunkDuration_running]; simp only [speedFactor, runningPlugin]; norm_num)
    (by norm_num) (by rw [chunkDuration_running]; norm_num) 1 (by norm_num)

/-! ### Feeding the engine -/

/-- For every chunk at least as long as the primary buffer, `processAudio` skips the copy
loop but still makes one call of `putSamples`, on the unchanged primary buffer. -/
theorem processAudio_feed_overflow (SwapChannels : Int) (primaryBuffer : List Nat)
    (primaryBufferBytes : Nat) (buffer : List Nat) (length : Nat)
    (h : primaryBufferBytes ≤ length) :
    processAudio_feed SwapChannels primaryBuffer primaryBufferBytes buffer length =
      (primaryBuffer, [{ samples := primaryBuffer, numSamples := length / 4 }]) := by
  unfold processAudio_feed
  dsimp only
  rw [if_neg (not_lt.mpr h)]
  rfl

/-- C7 (the code at the failing input): for a chunk as long as the primary buffer
(`length = primaryBufferBytes = 65536`) `processAudio` leaves the primary buffer unchanged
but still calls `putSamples`, handing the engine `65536 / 4 = 16384` frames of the stale
primary buffer. -/
theorem C7_oversized_chunk_is_fed :
    ¬ ((65536 : Nat) < 65536) ∧
    processAudio_feed 0 stalePrimaryBuffer 65536 oversizedChunk 65536 =
      (stalePrimaryBuffer, [{ samples := stalePrimaryBuffer, numSamples := 16384 }]) ∧
    (processAudio_feed 0 stalePrimaryBuffer 65536 oversizedChunk 65536).2 ≠ [] := by
  have h : processAudio_feed 0 stalePrimaryBuffer 65536 oversizedChunk 65536 =
      (stalePrimaryBuffer, [{ samples := stalePrimaryBuffer, numSamples := 16384 }]) := by
    unfold processAudio_feed
    dsimp only
    rw [if_neg (by norm_num)]
    norm_num [N64_SAMPLE_BYTES]
  refine ⟨by norm_num, h, ?_⟩
  rw [h]
  exact List.cons_ne_nil _ _

/-! ### Pushes and shutdown -/

/-- C8 (counterexample): after `PluginStartup`, `InitializeAudio` and `RomClosed` the flag
`shutdownThread` is set (the consumer has been joined), the plugin is initialised and not
failed, and a call of `AiLenChanged` still appends a chunk to the queue. -/
theorem C8_counterexample :
    (Plugin.run 64 [Call.PluginStartup true, Call.InitializeAudio 33600 33600 true,
      Call.RomClosed]).shutdownThread = true ∧
    (AiLenChanged 64 (Plugin.run 64 [Call.PluginStartup true,
      Call.InitializeAudio 33600 33600 true, Call.RomClosed]) (chunkAt10 0)).1.audioConsumerQueue
      ≠ (Plugin.run 64 [Call.PluginStartup true, Call.InitializeAudio 33600 33600 true,
          Call.RomClosed]).audioConsumerQueue := by
  have hp : Plugin.run 64 [Call.PluginStartup true, Call.InitializeAudio 33600 33600 true,
      Call.RomClosed] = { runningPlugin with shutdownThread := true } := by
    decide
  rw [hp]
  refine ⟨rfl, ?_⟩
  rw [AiLenChanged_eq _ _ _ (by decide) (by decide), if_pos (by decide),
    (AiLenChanged_pace_frame _ _ _).1, (AiLenChanged_accounted_frame _ _ _).1]
  intro h
  have hl := congrArg List.length h
  simp at hl

/-- C8 (amended): a call of `AiLenChanged` leaves the queue unchanged when
`critical_failure` is 1 or the plugin is not initialised; on an initialised, non-failed
plugin it appends exactly one chunk, whatever `shutdownThread` is. A failed initialisation
(`OnInitFailure`) sets both `shutdownThread` and `critical_failure`, so after it nothing is
pushed. -/
theorem C8_push_gate (w : Nat) (p : Plugin) (i : AiLenInput) :
    (p.critical_failure = 1 ∨ p.l_PluginInit = 0 →
      (AiLenChanged w p i).1.audioConsumerQueue = p.audioConsumerQueue) ∧
    (p.critical_failure ≠ 1 ∧ p.l_PluginInit ≠ 0 →
      (AiLenChanged w p i).1.audioConsumerQueue = p.audioConsumerQueue ++
        [{ data := i.inputAudio.take i.LenReg, length := i.LenReg,
           timeSinceStart := i.currentTime - (AiLenChanged_reset p i).pacing.gameStartTime }]) ∧
    ((OnInitFailure p).shutdownThread = true ∧ (OnInitFailure p).critical_failure = 1 ∧
      (AiLenChanged w (OnInitFailure p) i).1.audioConsumerQueue
        = (OnInitFailure p).audioConsumerQueue) := by
  refine ⟨?_, ?_, ?_, rfl, ?_⟩
  · intro h
    unfold AiLenChanged
    by_cases hc : p.critical_failure = 1
    · rw [if_pos hc]
    · rw [if_neg hc, if_pos (h.resolve_left hc)]
  · rintro ⟨hok, hinit⟩
    rw [AiLenChanged_eq w p i hinit hok]
    split_ifs
    · rw [(AiLenChanged_pace_frame _ _ _).1]
      exact (AiLenChanged_accounted_frame w p i).1
    · exact (AiLenChanged_accounted_frame w p i).1
  · unfold OnInitFailure CloseAudio
    split_ifs with hs
    · rfl
    · simpa using hs
  · have hc : (OnInitFailure p).critical_failure = 1 := rfl
    unfold AiLenChanged
    rw [if_pos hc]

/-- C8 (witness): on the running plugin with `shutdownThread` set, which is initialised and
not failed, the call appends the chunk. -/
theorem C8_push_gate_witness :
    ({ runningPlugin with shutdownThread := true } : Plugin).shutdownThread = true ∧
    (AiLenChanged 64 { runningPlugin with shutdownThread := true }
        (chunkAt10 0)).1.audioConsumerQueue =
      ({ runningPlugin with shutdownThread := true } : Plugin).audioConsumerQueue ++
        [{ data := (chunkAt10 0).inputAudio.take (chunkAt10 0).LenReg,
           length := (chunkAt10 0).LenReg,
           timeSinceStart := (chunkAt10 0).currentTime -
            (AiLenChanged_reset { runningPlugin with shutdownThread := true }
              (chunkAt10 0)).pacing.gameStartTime }] :=
  ⟨rfl, (C8_push_gate 64 { runningPlugin with shutdownThread := true } (chunkAt10 0)).2.1
    ⟨by decide, by decide⟩⟩

/-! ### The starvation scenario -/

/-- The drain branch of the tempo selection. -/
theorem audioConsumerStretch_adjust_drain (state : slesState) (v : StretchLocals)
    (h1 : slesQueueLength state > v.maxQueueSize ∨ v.drainQueue = true)
    (h2 : ¬ slesQueueLength state < v.minQueueSize) :
    (audioConsumerStretch_adjust state v).drainQueue = true ∧
    (audioConsumerStretch_adjust state v).currAdjustment = baseRatio v +
      ((slesQueueLength state - v.minQueueSize : Int) : ℚ) /
      ((state.limit - v.minQueueSize : Int) : ℚ) * maxSpeedUpRate := by
  unfold audioConsumerStretch_adjust
  dsimp only
  rw [if_pos ⟨h1, by simpa using h2⟩]
  exact ⟨rfl, rfl⟩

/-- The dry branch of the tempo selection. -/
theorem audioConsumerStretch_adjust_dry (state : slesState) (v : StretchLocals)
    (h : slesQueueLength state < v.minQueueSize) :
    (audioConsumerStretch_adjust state v).drainQueue = false ∧
    (audioConsumerStretch_adjust state v).currAdjustment = baseRatio v - slowRate := by
  unfold audioConsumerStretch_adjust
  dsimp only
  rw [if_neg (by simp [h]), if_pos (by simpa using h)]
  exact ⟨rfl, rfl⟩

/-- The truncation of a non-negative value is its floor. -/
theorem c_int_eq (x : ℚ) (k : Int) (h0 : (k : ℚ) ≤ x) (h1 : x < (k : ℚ) + 1) (hk : 0 ≤ k) :
    c_int x = k := by
  unfold c_int
  have hx : (0 : ℚ) ≤ x := le_trans (by exact_mod_cast hk) h0
  rw [if_pos hx, Int.floor_eq_iff]
  exact ⟨h0, h1⟩

/-- The thresholds of `defaultLocals` are the ones the consumer computes for 44100 Hz output,
256-frame secondary buffers and 20 target buffers. -/
theorem audioConsumerStretch_init_thresholds :
    (audioConsumerStretch_init healthyState 100 44100 256 20).1.minQueueSize
      = defaultLocals.minQueueSize ∧
    (audioConsumerStretch_init healthyState 100 44100 256 20).1.maxQueueSize
      = defaultLocals.maxQueueSize := by
  have hmin : c_int (((20 : Int) : ℚ) * ((((44100 : Int) : ℚ) / ((DEFAULT_FREQUENCY : Nat) : ℚ)) *
      (((DEFAULT_SECONDARY_BUFFER_SIZE : Nat) : ℚ) / ((256 : Int) : ℚ)))) = 26 :=
    c_int_eq _ 26 (by norm_num [DEFAULT_FREQUENCY, DEFAULT_SECONDARY_BUFFER_SIZE])
      (by norm_num [DEFAULT_FREQUENCY, DEFAULT_SECONDARY_BUFFER_SIZE]) (by norm_num)
  have hmax : c_int ((((20 : Int) : ℚ) + 30) * ((((44100 : Int) : ℚ) /
      ((DEFAULT_FREQUENCY : Nat) : ℚ)) *
      (((DEFAULT_SECONDARY_BUFFER_SIZE : Nat) : ℚ) / ((256 : Int) : ℚ)))) = 65 :=
    c_int_eq _ 65 (by norm_num [DEFAULT_FREQUENCY, DEFAULT_SECONDARY_BUFFER_SIZE])
      (by norm_num [DEFAULT_FREQUENCY, DEFAULT_SECONDARY_BUFFER_SIZE]) (by norm_num)
  unfold audioConsumerStretch_init
  dsimp only
  rw [hmin, hmax]
  exact ⟨rfl, by decide⟩

/-- The upper threshold never exceeds `state.limit - 20`. -/
theorem audioConsumerStretch_init_maxQueueSize (state : slesState) (speed_factor : Nat)
    (OutputFreq SecondaryBufferSize TargetSecondaryBuffers : Int) :
    (audioConsumerStretch_init state speed_factor OutputFreq SecondaryBufferSize
      TargetSecondaryBuffers).1.maxQueueSize ≤ state.limit - 20 := by
  unfold audioConsumerStretch_init
  dsimp only
  split_ifs with h
  · exact le_refl _
  · exact not_lt.mp h

/-- C9 (counterexample): after warm-up, with thresholds 26 and 65 and capacity 100, an
iteration that observes `value = 0` ends in drain mode with `currAdjustment` equal to the
base ratio plus 0.5, not in non-drain mode with the base ratio minus 0.05. -/
theorem C9_counterexample :
    fullQueueState.value = 0 ∧ fullQueueState.limit = 100 ∧
    fullQueueState.limit ≤ fullQueueState.totalBuffersProcessed ∧
    defaultLocals.minQueueSize ≤ defaultLocals.maxQueueSize ∧
    defaultLocals.maxQueueSize ≤ 80 ∧
    (audioConsumerStretch_adjust fullQueueState defaultLocals).drainQueue = true ∧
    (audioConsumerStretch_adjust fullQueueState defaultLocals).currAdjustment
      = baseRatio defaultLocals + 1 / 2 ∧
    ¬ ((audioConsumerStretch_adjust fullQueueState defaultLocals).drainQueue = false ∧
      (audioConsumerStretch_adjust fullQueueState defaultLocals).currAdjustment
        = baseRatio defaultLocals - 5 / 100) := by
  have h := audioConsumerStretch_adjust_drain fullQueueState defaultLocals
    (Or.inl (by decide)) (by decide)
  have hc : (audioConsumerStretch_adjust fullQueueState defaultLocals).currAdjustment
      = baseRatio defaultLocals + 1 / 2 := by
    rw [h.2]
    simp only [slesQueueLength, fullQueueState, defaultLocals, maxSpeedUpRate]
    norm_num
  refine ⟨rfl, rfl, by decide, by decide, by decide, h.1, hc, ?_⟩
  rintro ⟨hd, _⟩
  rw [h.1] at hd
  exact Bool.noConfusion hd

/-- C9 (amended): `value` is `limit` minus the number of buffers in the hardware queue, so
with capacity 100 and thresholds `minQueueSize <= maxQueueSize <= 80` a post-warm-up
iteration that observes `value = 0` sees a full hardware queue: afterwards the controller is
in drain mode and `currAdjustment` is the base ratio plus 0.5. The starvation response
(`drainQueue = false`, `currAdjustment` equal to the base ratio minus `slowRate`, the `float`
constant 0.05) is computed by an iteration that observes a queue level `limit - value` below
`minQueueSize`. -/
theorem C9_starvation (state : slesState) (v : StretchLocals)
    (hlim : state.limit = 100) (hmm : v.minQueueSize ≤ v.maxQueueSize)
    (hmax : v.maxQueueSize ≤ 80) :
    (state.value = 0 →
      (audioConsumerStretch_adjust state v).drainQueue = true ∧
      (audioConsumerStretch_adjust state v).currAdjustment = baseRatio v + 1 / 2) ∧
    (state.limit - state.value < v.minQueueSize →
      (audioConsumerStretch_adjust state v).drainQueue = false ∧
      (audioConsumerStretch_adjust state v).currAdjustment = baseRatio v - slowRate) := by
  constructor
  · intro hval
    have hq : slesQueueLength state = 100 := by
      unfold slesQueueLength
      rw [hlim, hval]
      rfl
    have h := audioConsumerStretch_adjust_drain state v
      (Or.inl (by rw [hq]; omega)) (by rw [hq]; omega)
    refine ⟨h.1, ?_⟩
    rw [h.2, hq, hlim]
    have hne : ((100 - v.minQueueSize : Int) : ℚ) ≠ 0 := by
      have : (100 - v.minQueueSize : Int) ≠ 0 := by omega
      exact_mod_cast this
    rw [div_self hne]
    unfold maxSpeedUpRate
    norm_num
  · intro hdry
    exact audioConsumerStretch_adjust_dry state v hdry

/-- C9 (witness): the amended statement at the full-queue snapshot with thresholds 26 and
65. -/
theorem C9_starvation_witness :
    fullQueueState.limit = 100 ∧ defaultLocals.minQueueSize ≤ defaultLocals.maxQueueSize ∧
    defaultLocals.maxQueueSize ≤ 80 ∧
    ((fullQueueState.value = 0 →
      (audioConsumerStretch_adjust fullQueueState defaultLocals).drainQueue = true ∧
      (audioConsumerStretch_adjust fullQueueState defaultLocals).currAdjustment
        = baseRatio defaultLocals + 1 / 2) ∧
    (fullQueueState.limit - fullQueueState.value < defaultLocals.minQueueSize →
      (audioConsumerStretch_adjust fullQueueState defaultLocals).drainQueue = false ∧
      (audioConsumerStretch_adjust fullQueueState defaultLocals).currAdjustment
        = baseRatio defaultLocals - slowRate)) :=
  ⟨rfl, by decide, by decide,
   C9_starvation fullQueueState defaultLocals rfl (by decide) (by decide)⟩

/-! ### The speed factor -/

/-- The function `AiLenChanged` never writes `speed_factor`. -/
theorem AiLenChanged_speed_factor (w : Nat) (p : Plugin) (i : AiLenInput) :
    (AiLenChanged w p i).1.speed_factor = p.speed_factor := by
  by_cases hc : p.critical_failure = 1
  · unfold AiLenChanged
    rw [if_pos hc]
  · by_cases hi : p.l_PluginInit = 0
    · unfold AiLenChanged
      rw [if_neg hc, if_pos hi]
    · rw [AiLenChanged_eq w p i hi hc]
      split_ifs
      · exact ((AiLenChanged_pace_frame _ _ _).2.2.2.2.1).trans
          (AiLenChanged_accounted_frame w p i).2.2.2.1
      · exact (AiLenChanged_accounted_frame w p i).2.2.2.1

/-- What `SetSpeedFactor` does to `speed_factor`. -/
theorem SetSpeedFactor_speed_factor (p : Plugin) (percentage : Int) :
    (p.l_PluginInit ≠ 0 ∧ 10 ≤ percentage ∧ percentage ≤ 300 →
      ((SetSpeedFactor p percentage).speed_factor : Int) = percentage) ∧
    (¬ (p.l_PluginInit ≠ 0 ∧ 10 ≤ percentage ∧ percentage ≤ 300) →
      (SetSpeedFactor p percentage).speed_factor = p.speed_factor) := by
  unfold SetSpeedFactor
  constructor
  · rintro ⟨h1, h2, h3⟩
    rw [if_neg h1, if_pos ⟨h2, h3⟩]
    exact Int.toNat_of_nonneg (by omega)
  · intro h
    split_ifs with h1 h2
    · rfl
    · exact absurd ⟨h1, h2.1, h2.2⟩ h
    · rfl

/-- Every call keeps `speed_factor` between 10 and 300. -/
theorem Plugin.call_speed_factor (w : Nat) (p : Plugin) (c : Call)
    (h : 10 ≤ p.speed_factor ∧ p.speed_factor ≤ 300) :
    10 ≤ (p.call w c).speed_factor ∧ (p.call w c).speed_factor ≤ 300 := by
  cases c with
  | PluginStartup ok =>
    simp only [Plugin.call, PluginStartup]
    split_ifs <;> exact h
  | InitializeAudio cfgFreq freq slesOk =>
    simp only [Plugin.call, InitializeAudio, OnInitFailure, CloseAudio]
    split_ifs <;> exact h
  | RomClosed =>
    simp only [Plugin.call, RomClosed, CloseAudio]
    split_ifs <;> exact h
  | SetSpeedFactor percentage =>
    simp only [Plugin.call]
    by_cases hc : p.l_PluginInit ≠ 0 ∧ 10 ≤ percentage ∧ percentage ≤ 300
    · have := (SetSpeedFactor_speed_factor p percentage).1 hc
      omega
    · rw [(SetSpeedFactor_speed_factor p percentage).2 hc]
      exact h
  | AiLenChanged i =>
    simp only [Plugin.call]
    rw [AiLenChanged_speed_factor]
    exact h

/-- The bounds on `speed_factor` hold along any sequence of calls. -/
theorem Plugin.foldl_speed_factor (w : Nat) (cs : List Call) (p : Plugin)
    (h : 10 ≤ p.speed_factor ∧ p.speed_factor ≤ 300) :
    10 ≤ (cs.foldl (Plugin.call w) p).speed_factor ∧
      (cs.foldl (Plugin.call w) p).speed_factor ≤ 300 := by
  induction cs generalizing p with
  | nil => exact h
  | cons c cs ih => exact ih (p.call w c) (Plugin.call_speed_factor w p c h)

/-- C10: `speed_factor` starts at 100; `SetSpeedFactor(p)` sets it to `p` exactly when the
plugin is initialised and `10 <= p <= 300` and leaves it unchanged otherwise; hence after
any sequence of calls `10 <= speed_factor <= 300`, and the divisor
`speedFactor = speed_factor / 100` lies in `[0.1, 3.0]` and is not zero. -/
theorem C10_speed_factor_range (w : Nat) (cs : List Call) :
    (Plugin.run w []).speed_factor = 100 ∧
    (∀ (p : Plugin) (percentage : Int),
      (p.l_PluginInit ≠ 0 ∧ 10 ≤ percentage ∧ percentage ≤ 300 →
        ((SetSpeedFactor p percentage).speed_factor : Int) = percentage) ∧
      (¬ (p.l_PluginInit ≠ 0 ∧ 10 ≤ percentage ∧ percentage ≤ 300) →
        (SetSpeedFactor p percentage).speed_factor = p.speed_factor)) ∧
    10 ≤ (Plugin.run w cs).speed_factor ∧ (Plugin.run w cs).speed_factor ≤ 300 ∧
    1 / 10 ≤ speedFactor (Plugin.run w cs) ∧ speedFactor (Plugin.run w cs) ≤ 3 ∧
    speedFactor (Plugin.run w cs) ≠ 0 := by
  have h := Plugin.foldl_speed_factor w cs {} (by decide)
  have h1 : (10 : ℚ) ≤ ((Plugin.run w cs).speed_factor : ℚ) := by exact_mod_cast h.1
  have h2 : ((Plugin.run w cs).speed_factor : ℚ) ≤ 300 := by exact_mod_cast h.2
  refine ⟨rfl, SetSpeedFactor_speed_factor, h.1, h.2, ?_, ?_, ?_⟩
  · unfold speedFactor
    linarith
  · unfold speedFactor
    linarith
  · unfold speedFactor
    intro h0
    linarith

/-! ### Single calls of `AiLenChanged`: stall band, forced reset, runaway guard -/

/-- C11: in a pacing-active call, `sleepNeeded` is
`totalElapsedSamples / GameFreq / speedFactor - (currentTime - gameStartTime)` taken after the
`LenReg / 4` samples of the chunk have been added; the producer is stalled if and only if
`0 < sleepNeeded < 0.5 / speedFactor`; when it is stalled the target is
`currentTime + sleepNeeded` whatever the busy-wait mode is; and for `sleepNeeded <= 0` or
`sleepNeeded >= 0.5 / speedFactor` the call returns without waiting. -/
theorem C11_stall_band (w : Nat) (p : Plugin) (i : AiLenInput)
    (hinit : p.l_PluginInit ≠ 0) (hok : p.critical_failure ≠ 1)
    (hpace : isSpeedLimiterEnabled i.e = false) :
    sleepNeeded w p i =
      ((AiLenChanged_accounted w p i).pacing.totalElapsedSamples : ℚ) / (p.GameFreq : ℚ)
          / speedFactor p
        - (i.currentTime - (AiLenChanged_reset p i).pacing.gameStartTime) ∧
    (AiLenChanged_accounted w p i).pacing.totalElapsedSamples =
      ((AiLenChanged_reset p i).pacing.totalElapsedSamples + i.LenReg / 4) % 2 ^ w ∧
    ((AiLenChanged w p i).2.isSome = true ↔
      0 < sleepNeeded w p i ∧ sleepNeeded w p i < (1 / 2) / speedFactor p) ∧
    (0 < sleepNeeded w p i ∧ sleepNeeded w p i < (1 / 2) / speedFactor p →
      (AiLenChanged w p i).2 = some
        { endTime := i.currentTime + sleepNeeded w p i,
          busyWait := (AiLenChanged w p i).1.pacing.busyWait }) ∧
    (∀ s : Stall, (AiLenChanged w p i).2 = some s →
      s.endTime = i.currentTime + sleepNeeded w p i) ∧
    (sleepNeeded w p i ≤ 0 ∨ (1 / 2) / speedFactor p ≤ sleepNeeded w p i →
      (AiLenChanged w p i).2 = none) := by
  have heq := AiLenChanged_eq w p i hinit hok
  rw [if_pos hpace] at heq
  have hsf := AiLenChanged_accounted_speedFactor w p i
  have hst : (AiLenChanged w p i).2 =
      if sleepNeeded w p i > 0 ∧ sleepNeeded w p i < (1 / 2) / speedFactor p then
        some { endTime := i.currentTime + sleepNeeded w p i,
               busyWait := (AiLenChanged w p i).1.pacing.busyWait }
      else none := by
    rw [heq, AiLenChanged_pace_stall, hsf]
    rfl
  have hlim := AiLenChanged_reset_limiter p i
  refine ⟨?_, rfl, ?_, ?_, ?_, ?_⟩
  · rw [sleepNeeded_eq, hlim.2.2.2]
    have h1 : speedFactor (AiLenChanged_reset p i) = speedFactor p := by
      unfold speedFactor
      rw [hlim.2.2.1]
    rw [h1]
    rfl
  · rw [hst]
    split_ifs with h
    · simpa using h
    · simpa using h
  · intro h
    rw [hst, if_pos h]
  · intro s hs
    rw [hst] at hs
    split_ifs at hs with h
    rw [← Option.some.inj hs]
  · intro h
    rw [hst, if_neg]
    rintro ⟨h1, h2⟩
    rcases h with h | h <;> linarith

/-- C11 (witness): the first 10 ms chunk of the running plugin, with the pacing block
running. -/
theorem C11_stall_band_witness :
    sleepNeeded 64 runningPlugin (chunkAt10 0) = 1 / 100 ∧
    (AiLenChanged 64 runningPlugin (chunkAt10 0)).2.isSome = true ∧
    (∀ s : Stall, (AiLenChanged 64 runningPlugin (chunkAt10 0)).2 = some s →
      s.endTime = (chunkAt10 0).currentTime + sleepNeeded 64 runningPlugin (chunkAt10 0)) :=
  ⟨sleepNeeded_chunkAt10 0,
   (C11_stall_band 64 runningPlugin (chunkAt10 0) (by decide) (by decide)
      (by decide)).2.2.1.mpr
    ⟨by rw [sleepNeeded_chunkAt10]; norm_num,
     by rw [sleepNeeded_chunkAt10]; simp only [speedFactor, runningPlugin]; norm_num⟩,
   (C11_stall_band 64 runningPlugin (chunkAt10 0) (by decide) (by decide)
      (by decide)).2.2.2.2.1⟩

/-- The runaway guard as the pacing block applies it. -/
theorem AiLenChanged_pace_gameStartTime (p : Plugin) (i : AiLenInput) (sn : ℚ) :
    (AiLenChanged_pace p i sn).1.pacing.gameStartTime =
      if sn < minSleepNeeded then p.pacing.gameStartTime - minSleepNeeded
      else p.pacing.gameStartTime := rfl

/-- The late chunk finds the game 0.48 s behind. -/
theorem sleepNeeded_chunkLate : sleepNeeded 64 pausedPlugin chunkLate = -(12 / 25) := by
  have h : (336 + 1344 / 4) % 2 ^ 64 = 672 := by norm_num
  rw [sleepNeeded_eq, AiLenChanged_reset_of_fresh _ _ (by decide) rfl rfl rfl]
  simp only [speedFactor, pausedPlugin, runningPlugin, chunkLate, DEFAULT_FREQUENCY]
  rw [h]
  norm_num

/-- C13 (counterexample): a pacing-active call that finds the game 0.48 s behind
(`sleepNeeded = -0.48 < -0.1`) with the origin at 10 s leaves the origin at 10.1 s, not at
9.9 s: the guard moves `gameStartTime` to a later time. -/
theorem C13_counterexample :
    isSpeedLimiterEnabled chunkLate.e = false ∧
    sleepNeeded 64 pausedPlugin chunkLate < -(1 / 10) ∧
    (AiLenChanged_reset pausedPlugin chunkLate).pacing.gameStartTime = 10 ∧
    (AiLenChanged 64 pausedPlugin chunkLate).1.pacing.gameStartTime = 10 + 1 / 10 ∧
    ¬ ((AiLenChanged 64 pausedPlugin chunkLate).1.pacing.gameStartTime =
      (AiLenChanged_reset pausedPlugin chunkLate).pacing.gameStartTime - 1 / 10) := by
  have hr : (AiLenChanged_reset pausedPlugin chunkLate).pacing.gameStartTime = 10 := by
    rw [AiLenChanged_reset_of_fresh _ _ (by decide) rfl rfl rfl]
    rfl
  have hg : (AiLenChanged 64 pausedPlugin chunkLate).1.pacing.gameStartTime = 10 + 1 / 10 := by
    rw [AiLenChanged_eq _ _ _ (by decide) (by decide), if_pos (by decide),
      AiLenChanged_pace_gameStartTime, sleepNeeded_chunkLate,
      if_pos (by norm_num [minSleepNeeded]),
      (AiLenChanged_accounted_frame 64 pausedPlugin chunkLate).2.2.1, hr]
    norm_num [minSleepNeeded]
  refine ⟨by decide, ?_, hr, hg, ?_⟩
  · rw [sleepNeeded_chunkLate]; norm_num
  · rw [hg, hr]; norm_num

/-- C13 (amended): in every pacing-active call with `sleepNeeded < -0.1` the guard moves
`gameStartTime` forward by 0.1 s: its value after the call is its value before the guard
plus 0.1 s (a later origin, which forgives 0.1 s of the lag); for `sleepNeeded >= -0.1` the
guard leaves `gameStartTime` unchanged. -/
theorem C13_runaway_guard (w : Nat) (p : Plugin) (i : AiLenInput)
    (hinit : p.l_PluginInit ≠ 0) (hok : p.critical_failure ≠ 1)
    (hpace : isSpeedLimiterEnabled i.e = false) :
    (sleepNeeded w p i < -(1 / 10) →
      (AiLenChanged w p i).1.pacing.gameStartTime =
          (AiLenChanged_reset p i).pacing.gameStartTime + 1 / 10 ∧
        (AiLenChanged_reset p i).pacing.gameStartTime
          < (AiLenChanged w p i).1.pacing.gameStartTime) ∧
    (-(1 / 10) ≤ sleepNeeded w p i →
      (AiLenChanged w p i).1.pacing.gameStartTime
        = (AiLenChanged_reset p i).pacing.gameStartTime) := by
  have heq := AiLenChanged_eq w p i hinit hok
  rw [if_pos hpace] at heq
  have hacc := (AiLenChanged_accounted_frame w p i).2.2.1
  constructor
  · intro h
    have hg : (AiLenChanged w p i).1.pacing.gameStartTime =
        (AiLenChanged_reset p i).pacing.gameStartTime + 1 / 10 := by
      rw [heq, AiLenChanged_pace_gameStartTime,
        if_pos (by unfold minSleepNeeded; linarith), hacc]
      unfold minSleepNeeded
      ring
    refine ⟨hg, ?_⟩
    rw [hg]
    linarith
  · intro h
    rw [heq, AiLenChanged_pace_gameStartTime,
      if_neg (by unfold minSleepNeeded; linarith), hacc]

/-- C13 (witness): the chunk that finds the game 0.48 s behind. -/
theorem C13_runaway_guard_witness :
    (sleepNeeded 64 pausedPlugin chunkLate < -(1 / 10) →
      (AiLenChanged 64 pausedPlugin chunkLate).1.pacing.gameStartTime =
          (AiLenChanged_reset pausedPlugin chunkLate).pacing.gameStartTime + 1 / 10 ∧
        (AiLenChanged_reset pausedPlugin chunkLate).pacing.gameStartTime
          < (AiLenChanged 64 pausedPlugin chunkLate).1.pacing.gameStartTime) ∧
    (-(1 / 10) ≤ sleepNeeded 64 pausedPlugin chunkLate →
      (AiLenChanged 64 pausedPlugin chunkLate).1.pacing.gameStartTime
        = (AiLenChanged_reset pausedPlugin chunkLate).pacing.gameStartTime) :=
  C13_runaway_guard 64 pausedPlugin chunkLate (by decide) (by decide) (by decide)

/-! ### The three branches of the tempo selection -/

/-- After warm-up the iteration keeps the drain flag and adjustment chosen by the branch. -/
theorem audioConsumerStretch_tempo_locals (state : slesState) (speed_factor : Nat)
    (v : StretchLocals) (tempo : ℚ) (hwarm : state.limit ≤ state.totalBuffersProcessed) :
    (audioConsumerStretch_tempo state speed_factor v tempo).1.drainQueue
      = (audioConsumerStretch_adjust state v).drainQueue ∧
    (audioConsumerStretch_tempo state speed_factor v tempo).1.currAdjustment
      = (audioConsumerStretch_adjust state v).currAdjustment := by
  unfold audioConsumerStretch_tempo
  rw [if_neg (not_lt.mpr hwarm)]
  dsimp only
  cases audioConsumerStretch_setTempo (audioConsumerStretch_adjust state v) with
  | none => exact ⟨rfl, rfl⟩
  | some t => exact ⟨rfl, rfl⟩

/-- The boundary of the tempo selection: exactly at the upper threshold, not draining and
not dry, no branch runs and the locals keep their values (only `ranDry` is refreshed). -/
theorem audioConsumerStretch_adjust_boundary (state : slesState) (v : StretchLocals)
    (h1 : slesQueueLength state = v.maxQueueSize) (h2 : v.drainQueue = false)
    (h3 : v.minQueueSize ≤ slesQueueLength state) :
    (audioConsumerStretch_adjust state v).drainQueue = false ∧
    (audioConsumerStretch_adjust state v).currAdjustment = v.currAdjustment := by
  unfold audioConsumerStretch_adjust
  dsimp only
  rw [if_neg (by simp [h2]; intro h; omega), if_neg (by simp; omega),
    if_neg (by omega)]
  exact ⟨h2, rfl⟩

/-- C16: in a post-warm-up iteration with `queueLevel = state.limit - state.value`, if
`queueLevel > maxQueueSize` or `drainQueue` is already set, and `queueLevel >= minQueueSize`,
then `drainQueue` is set afterwards and `currAdjustment` is
`baseRatio + (queueLevel - minQueueSize) / (state.limit - minQueueSize) * 0.5`; whenever
`minQueueSize < state.limit` this is at least `baseRatio`. -/
theorem C16_drain_raises_tempo (state : slesState) (speed_factor : Nat) (v : StretchLocals)
    (tempo : ℚ) (hwarm : state.limit ≤ state.totalBuffersProcessed)
    (h1 : state.limit - state.value > v.maxQueueSize ∨ v.drainQueue = true)
    (h2 : v.minQueueSize ≤ state.limit - state.value) :
    (audioConsumerStretch_tempo state speed_factor v tempo).1.drainQueue = true ∧
    (audioConsumerStretch_tempo state speed_factor v tempo).1.currAdjustment =
      baseRatio v + ((state.limit - state.value - v.minQueueSize : Int) : ℚ) /
        ((state.limit - v.minQueueSize : Int) : ℚ) * (1 / 2) ∧
    (v.minQueueSize < state.limit →
      baseRatio v ≤ (audioConsumerStretch_tempo state speed_factor v tempo).1.currAdjustment) := by
  have hl := audioConsumerStretch_tempo_locals state speed_factor v tempo hwarm
  have hd := audioConsumerStretch_adjust_drain state v h1 (not_lt.mpr h2)
  have hc : (audioConsumerStretch_tempo state speed_factor v tempo).1.currAdjustment =
      baseRatio v + ((state.limit - state.value - v.minQueueSize : Int) : ℚ) /
        ((state.limit - v.minQueueSize : Int) : ℚ) * (1 / 2) := by
    rw [hl.2, hd.2]
    unfold slesQueueLength maxSpeedUpRate
    norm_num
  refine ⟨hl.1.trans hd.1, hc, ?_⟩
  intro hlt
  rw [hc]
  have hn : (0 : ℚ) ≤ ((state.limit - state.value - v.minQueueSize : Int) : ℚ) := by
    exact_mod_cast (by omega : (0 : Int) ≤ state.limit - state.value - v.minQueueSize)
  have hp : (0 : ℚ) < ((state.limit - v.minQueueSize : Int) : ℚ) := by
    exact_mod_cast (by omega : (0 : Int) < state.limit - v.minQueueSize)
  have := div_nonneg hn (le_of_lt hp)
  linarith [mul_nonneg this (by norm_num : (0 : ℚ) ≤ 1 / 2)]

/-- C16 (witness): 70 buffers queued with thresholds 26 and 65. -/
theorem C16_drain_raises_tempo_witness :
    (audioConsumerStretch_tempo busyQueueState 100 defaultLocals 1).1.drainQueue = true ∧
    (audioConsumerStretch_tempo busyQueueState 100 defaultLocals 1).1.currAdjustment =
      baseRatio defaultLocals + ((busyQueueState.limit - busyQueueState.value
          - defaultLocals.minQueueSize : Int) : ℚ) /
        ((busyQueueState.limit - defaultLocals.minQueueSize : Int) : ℚ) * (1 / 2) ∧
    (defaultLocals.minQueueSize < busyQueueState.limit →
      baseRatio defaultLocals
        ≤ (audioConsumerStretch_tempo busyQueueState 100 defaultLocals 1).1.currAdjustment) :=
  C16_drain_raises_tempo busyQueueState 100 defaultLocals 1 (by decide)
    (Or.inl (by decide)) (by decide)

/-- The base ratio of the initial averages is 1. -/
theorem baseRatio_defaultLocals : baseRatio defaultLocals = 1 := by
  simp only [baseRatio, defaultLocals, defaultSampleLength]
  norm_num

/-- The quantization of 0.95 is 0.96. -/
theorem quantizeTempo_afterDry : quantizeTempo (19 / 20) = 24 / 25 := by
  have h : c_round ((19 / 20 : ℚ) * 100 / ((4 : Int) : ℚ)) = 24 := by
    unfold c_round
    rw [if_pos (by norm_num), Int.floor_eq_iff]
    norm_num
  unfold quantizeTempo increments
  rw [h]
  norm_num

/-- The quantization of 1 is 1. -/
theorem quantizeTempo_one : quantizeTempo 1 = 1 := by
  have h : c_round ((1 : ℚ) * 100 / ((4 : Int) : ℚ)) = 25 := by
    unfold c_round
    rw [if_pos (by norm_num), Int.floor_eq_iff]
    norm_num
  unfold quantizeTempo increments
  rw [h]
  norm_num

/-- The quantization of 1 less `slowRate` is 0.96. -/
theorem quantizeTempo_dry_default : quantizeTempo (1 - slowRate) = 24 / 25 := by
  have h : c_round ((1 - slowRate : ℚ) * 100 / ((4 : Int) : ℚ)) = 24 := by
    unfold c_round slowRate
    rw [if_pos (by norm_num), Int.floor_eq_iff]
    norm_num
  unfold quantizeTempo increments
  rw [h]
  norm_num

/-- A dry iteration from `defaultLocals` leaves the adjustment `1 - slowRate`, which is
within `10^-9` of the 0.95 carried by `afterDryLocals`, the drain flag of `afterDryLocals`,
and applies the tempo 0.96 of `afterDryLocals`. -/
theorem afterDryLocals_from_dry :
    (audioConsumerStretch_tempo emptyQueueState 100 defaultLocals 1).1.currAdjustment
      = 1 - slowRate ∧
    |(audioConsumerStretch_tempo emptyQueueState 100 defaultLocals 1).1.currAdjustment
      - afterDryLocals.currAdjustment| < 1 / 1000000000 ∧
    (audioConsumerStretch_tempo emptyQueueState 100 defaultLocals 1).1.drainQueue
      = afterDryLocals.drainQueue ∧
    (audioConsumerStretch_tempo emptyQueueState 100 defaultLocals 1).2
      = afterDryLocals.slowAdjustment := by
  have hl := audioConsumerStretch_tempo_locals emptyQueueState 100 defaultLocals 1 (by decide)
  have hd := audioConsumerStretch_adjust_dry emptyQueueState defaultLocals (by decide)
  have hc : (audioConsumerStretch_adjust emptyQueueState defaultLocals).currAdjustment
      = 1 - slowRate := by
    rw [hd.2, baseRatio_defaultLocals]
  refine ⟨hl.2.trans hc, ?_, hl.1.trans hd.1, ?_⟩
  · rw [hl.2, hc]
    have ha : afterDryLocals.currAdjustment = 19 / 20 := rfl
    rw [ha, abs_lt]
    constructor <;> norm_num [slowRate]
  · rw [audioConsumerStretch_tempo_adopted _ _ _ _ (by decide)
      (by rw [hc]; norm_num [minSlowValue, maxSlowValue, slowRate]), hc,
      quantizeTempo_dry_default]
    rfl

/-- C18 (the code at the failing input): after warm-up, with the queue level exactly at
`maxQueueSize = 65`, `drainQueue` clear and the queue not dry, the iteration is neither in
the drain case nor dry, but `currAdjustment` is not set to the base ratio 1: it keeps the
0.95 left by the previous (dry) iteration, and the chunk is fed at tempo 0.96 instead
of 1. -/
theorem C18_boundary_keeps_previous :
    boundaryState.limit ≤ boundaryState.totalBuffersProcessed ∧
    boundaryState.limit - boundaryState.value = afterDryLocals.maxQueueSize ∧
    afterDryLocals.drainQueue = false ∧
    ¬ (boundaryState.limit - boundaryState.value < afterDryLocals.minQueueSize) ∧
    baseRatio afterDryLocals = 1 ∧
    (audioConsumerStretch_tempo boundaryState 100 afterDryLocals (24 / 25)).1.currAdjustment
      = 19 / 20 ∧
    (audioConsumerStretch_tempo boundaryState 100 afterDryLocals (24 / 25)).1.currAdjustment
      ≠ baseRatio afterDryLocals ∧
    (audioConsumerStretch_tempo boundaryState 100 afterDryLocals (24 / 25)).2 = 24 / 25 ∧
    quantizeTempo (baseRatio afterDryLocals) = 1 := by
  have hb : baseRatio afterDryLocals = 1 := baseRatio_defaultLocals
  have hl := audioConsumerStretch_tempo_locals boundaryState 100 afterDryLocals (24 / 25)
    (by decide)
  have ha := audioConsumerStretch_adjust_boundary boundaryState afterDryLocals
    (by decide) rfl (by decide)
  have hc : (audioConsumerStretch_adjust boundaryState afterDryLocals).currAdjustment
      = 19 / 20 := ha.2
  refine ⟨by decide, by decide, rfl, by decide, hb, hl.2.trans hc, ?_, ?_, ?_⟩
  · rw [hl.2, hc, hb]
    norm_num
  · rw [audioConsumerStretch_tempo_adopted _ _ _ _ (by decide)
      (by rw [hc]; norm_num [minSlowValue, maxSlowValue]), hc, quantizeTempo_afterDry]
  · rw [hb, quantizeTempo_one]

/-! ### Busy-wait hysteresis over sequences of calls -/

/-- A call of `AiLenChanged` never writes `l_PluginInit` or `critical_failure`. -/
theorem AiLenChanged_flags (w : Nat) (p : Plugin) (i : AiLenInput) :
    (AiLenChanged w p i).1.l_PluginInit = p.l_PluginInit ∧
    (AiLenChanged w p i).1.critical_failure = p.critical_failure := by
  by_cases hc : p.critical_failure = 1
  · unfold AiLenChanged
    rw [if_pos hc]
    exact ⟨rfl, rfl⟩
  · by_cases hi : p.l_PluginInit = 0
    · unfold AiLenChanged
      rw [if_neg hc, if_pos hi]
      exact ⟨rfl, rfl⟩
    · have hacc := AiLenChanged_accounted_frame w p i
      rw [AiLenChanged_eq w p i hi hc]
      split_ifs
      · exact ⟨((AiLenChanged_pace_frame _ _ _).2.2.2.2.2.2.1).trans hacc.2.2.2.2.2.1,
          ((AiLenChanged_pace_frame _ _ _).2.2.2.2.2.2.2.1).trans hacc.2.2.2.2.2.2.1⟩
      · exact ⟨hacc.2.2.2.2.2.1, hacc.2.2.2.2.2.2.1⟩

/-- The flags `l_PluginInit` and `critical_failure` are constant along a sequence of calls. -/
theorem callRun_flags (w : Nat) (p0 : Plugin) (calls : Nat → AiLenInput) (n : Nat) :
    (callRun w p0 calls n).l_PluginInit = p0.l_PluginInit ∧
    (callRun w p0 calls n).critical_failure = p0.critical_failure := by
  induction n with
  | zero => exact ⟨rfl, rfl⟩
  | succ n ih =>
    have h := AiLenChanged_flags w (callRun w p0 calls n) (calls n)
    exact ⟨h.1.trans ih.1, h.2.trans ih.2⟩

/-- The pacing block computes `busyWaitStep` on the busy-wait statics. -/
theorem AiLenChanged_pace_busy (p : Plugin) (i : AiLenInput) (sn : ℚ) :
    busyWaitStatics (AiLenChanged_pace p i sn).1
      = busyWaitStep (busyWaitStatics p) (decide (0 < sn)) := by
  unfold AiLenChanged_pace busyWaitStep busyWaitStatics
  by_cases h : 0 < sn
  · have h' : ¬ sn ≤ 0 := not_le.mpr h
    simp [h, h']
  · have h' : sn ≤ 0 := not_lt.mp h
    simp [h, h']

/-- A pacing-active call on an initialised, non-failed plugin computes `busyWaitStep` on the
busy-wait statics, with the sign of its `sleepNeeded`. -/
theorem AiLenChanged_busy (w : Nat) (p : Plugin) (i : AiLenInput)
    (hinit : p.l_PluginInit ≠ 0) (hok : p.critical_failure ≠ 1)
    (hpace : isSpeedLimiterEnabled i.e = false) :
    busyWaitStatics (AiLenChanged w p i).1
      = busyWaitStep (busyWaitStatics p) (decide (0 < sleepNeeded w p i)) := by
  have hst := AiLenChanged_accounted_statics w p i
  have hb : busyWaitStatics (AiLenChanged_accounted w p i) = busyWaitStatics p := by
    unfold busyWaitStatics
    rw [hst.2.1, hst.2.2.1, hst.2.2.2]
  rw [AiLenChanged_eq w p i hinit hok, if_pos hpace, AiLenChanged_pace_busy, hb]

/-- Along a sequence of pacing-active calls the busy-wait statics follow `busyWaitAfter`. -/
theorem callRun_busy (w : Nat) (p0 : Plugin) (calls : Nat → AiLenInput)
    (hinit : p0.l_PluginInit ≠ 0) (hok : p0.critical_failure ≠ 1)
    (hpace : ∀ k, isSpeedLimiterEnabled (calls k).e = false) (n : Nat) :
    busyWaitStatics (callRun w p0 calls n)
      = busyWaitAfter (busyWaitStatics p0) (fun k => decide (0 < callSleep w p0 calls k)) n := by
  induction n with
  | zero => rfl
  | succ n ih =>
    have hf := callRun_flags w p0 calls n
    have h := AiLenChanged_busy w (callRun w p0 calls n) (calls n)
      (by rw [hf.1]; exact hinit) (by rw [hf.2]; exact hok) (hpace n)
    simp only [callRun, busyWaitAfter]
    rw [h, ih]
    rfl

/-- One more pacing-active call: the busy-wait statics after call number `n`. -/
theorem callRun_busy_succ (w : Nat) (p0 : Plugin) (calls : Nat → AiLenInput)
    (hinit : p0.l_PluginInit ≠ 0) (hok : p0.critical_failure ≠ 1)
    (hpace : ∀ k, isSpeedLimiterEnabled (calls k).e = false) (n : Nat) :
    busyWaitStatics (callRun w p0 calls (n + 1))
      = busyWaitStep (busyWaitStatics (callRun w p0 calls n))
          (decide (0 < callSleep w p0 calls n)) := by
  have hf := callRun_flags w p0 calls n
  exact AiLenChanged_busy w (callRun w p0 calls n) (calls n)
    (by rw [hf.1]; exact hinit) (by rw [hf.2]; exact hok) (hpace n)

/-- Not busy-waiting, a call with `sleepNeeded <= 0` that does not complete the run counts. -/
theorem busyWaitStep_idle_nonpos (c d : Int) (h : c + 1 ≠ 30) :
    busyWaitStep (false, c, d) false = (false, c + 1, d) := by
  simp [busyWaitStep, busyWaitCheck, h]

/-- Not busy-waiting, a call with `sleepNeeded > 0` restarts the run count. -/
theorem busyWaitStep_idle_pos (c d : Int) :
    busyWaitStep (false, c, d) true = (false, 0, d) := by
  simp [busyWaitStep, busyWaitCheck]

/-- The call with `sleepNeeded <= 0` that brings the run count to 30 enters busy-waiting. -/
theorem busyWaitStep_enter (b : Bool) (d : Int) :
    busyWaitStep (b, 29, d) false = (true, 0, 0) := by
  simp [busyWaitStep, busyWaitCheck]

/-- Busy-waiting, a call with `sleepNeeded > 0` that is not the 30th counts. -/
theorem busyWaitStep_busy_pos (c d : Int) (h : d + 1 ≠ 30) :
    busyWaitStep (true, c, d) true = (true, 0, d + 1) := by
  simp [busyWaitStep, busyWaitCheck, h]

/-- Busy-waiting, the 30th call with `sleepNeeded > 0` leaves busy-waiting. -/
theorem busyWaitStep_busy_leave (c : Int) :
    busyWaitStep (true, c, 29) true = (false, 0, 30) := by
  simp [busyWaitStep, busyWaitCheck]

/-- Busy-waiting, a call with `sleepNeeded <= 0` keeps the count of positive calls. -/
theorem busyWaitStep_busy_nonpos (c d : Int) (h : c + 1 ≠ 30) (hd : d ≠ 30) :
    busyWaitStep (true, c, d) false = (true, c + 1, d) := by
  simp [busyWaitStep, busyWaitCheck, h, hd]

/-- Before the first run of 30 consecutive calls with `sleepNeeded <= 0` completes, the
plugin is not busy-waiting and `busyWaitEnableCount` is the length of the current run. -/
theorem callRun_idle_inv (w : Nat) (p0 : Plugin) (calls : Nat → AiLenInput)
    (hinit : p0.l_PluginInit ≠ 0) (hok : p0.critical_failure ≠ 1)
    (hpace : ∀ k, isSpeedLimiterEnabled (calls k).e = false)
    (hb : p0.pacing.busyWait = false) (he : p0.pacing.busyWaitEnableCount = 0) (n : Nat)
    (hrun : ∀ k, k ≤ n → nonPositiveRun w p0 calls k < 30) :
    busyWaitStatics (callRun w p0 calls n)
      = (false, (nonPositiveRun w p0 calls n : Int), p0.pacing.busyWaitDisableCount) := by
  induction n with
  | zero =>
    unfold busyWaitStatics
    simp only [callRun, nonPositiveRun]
    rw [hb, he]
    rfl
  | succ n ih =>
    have ih' := ih (fun k hk => hrun k (Nat.le_succ_of_le hk))
    have hlt := hrun (n + 1) (le_refl _)
    rw [callRun_busy_succ w p0 calls hinit hok hpace n, ih']
    by_cases hs : callSleep w p0 calls n ≤ 0
    · have hr : nonPositiveRun w p0 calls (n + 1) = nonPositiveRun w p0 calls n + 1 := by
        simp only [nonPositiveRun]
        rw [if_pos hs]
      rw [hr] at hlt ⊢
      rw [decide_eq_false (not_lt.mpr hs),
        busyWaitStep_idle_nonpos _ _ (by omega)]
      push_cast
      rfl
    · have hr : nonPositiveRun w p0 calls (n + 1) = 0 := by
        simp only [nonPositiveRun]
        rw [if_neg hs]
      rw [hr, decide_eq_true (not_le.mp hs), busyWaitStep_idle_pos]
      rfl

/-- C14: over any sequence of pacing-active calls that starts with `busyWait = false` and
`busyWaitEnableCount = 0`: as long as no run of 30 consecutive calls with `sleepNeeded <= 0`
has been completed, `busyWait` is false and `busyWaitEnableCount` is the length of the
current run; the first call that completes such a run sets `busyWait`; and a call with
`sleepNeeded > 0` restarts the run count at 0. -/
theorem C14_busy_wait_entry (w : Nat) (p0 : Plugin) (calls : Nat → AiLenInput)
    (hinit : p0.l_PluginInit ≠ 0) (hok : p0.critical_failure ≠ 1)
    (hpace : ∀ k, isSpeedLimiterEnabled (calls k).e = false)
    (hb : p0.pacing.busyWait = false) (he : p0.pacing.busyWaitEnableCount = 0) (n : Nat)
    (hrun : ∀ k, k ≤ n → nonPositiveRun w p0 calls k < 30) :
    (callRun w p0 calls n).pacing.busyWait = false ∧
    (callRun w p0 calls n).pacing.busyWaitEnableCount = (nonPositiveRun w p0 calls n : Int) ∧
    (nonPositiveRun w p0 calls (n + 1) = 30 →
      (callRun w p0 calls (n + 1)).pacing.busyWait = true) ∧
    (nonPositiveRun w p0 calls (n + 1) < 30 →
      (callRun w p0 calls (n + 1)).pacing.busyWait = false) ∧
    (0 < callSleep w p0 calls n →
      nonPositiveRun w p0 calls (n + 1) = 0 ∧
      (callRun w p0 calls (n + 1)).pacing.busyWaitEnableCount = 0) := by
  have hinv := callRun_idle_inv w p0 calls hinit hok hpace hb he n hrun
  have hsucc := callRun_busy_succ w p0 calls hinit hok hpace n
  rw [hinv] at hsucc
  refine ⟨congrArg Prod.fst hinv, congrArg (fun x => x.2.1) hinv, ?_, ?_, ?_⟩
  · intro h30
    have hs : callSleep w p0 calls n ≤ 0 := by
      by_contra hs
      simp only [nonPositiveRun] at h30
      rw [if_neg hs] at h30
      omega
    have hr : nonPositiveRun w p0 calls n = 29 := by
      simp only [nonPositiveRun] at h30
      rw [if_pos hs] at h30
      omega
    rw [hr, decide_eq_false (not_lt.mpr hs)] at hsucc
    have hstep := busyWaitStep_enter false p0.pacing.busyWaitDisableCount
    have : busyWaitStatics (callRun w p0 calls (n + 1)) = (true, 0, 0) := by
      rw [hsucc]
      exact hstep
    exact congrArg Prod.fst this
  · intro hlt
    have hinv' := callRun_idle_inv w p0 calls hinit hok hpace hb he (n + 1)
      (fun k hk => by
        rcases Nat.lt_or_ge k (n + 1) with h | h
        · exact hrun k (Nat.lt_succ_iff.mp h)
        · have : k = n + 1 := le_antisymm hk h
          rw [this]
          exact hlt)
    exact congrArg Prod.fst hinv'
  · intro hpos
    have hr : nonPositiveRun w p0 calls (n + 1) = 0 := by
      simp only [nonPositiveRun]
      rw [if_neg (not_le.mpr hpos)]
    rw [decide_eq_true hpos, busyWaitStep_idle_pos] at hsucc
    exact ⟨hr, congrArg (fun x => x.2.1) hsucc⟩

/-! ### Calls at given times without reset or guard -/

/-- A pacing-active call whose `sleepNeeded` lies in `[-0.1, 0.5 / speedFactor]`: neither the
reset condition nor the runaway guard fires. -/
theorem AiLenChanged_on_track (w : Nat) (p : Plugin) (i : AiLenInput)
    (hinit : p.l_PluginInit ≠ 0) (hok : p.critical_failure ≠ 1)
    (hpace : isSpeedLimiterEnabled i.e = false)
    (h0 : -(1 / 10) ≤ sleepNeeded w p i) (h1 : sleepNeeded w p i ≤ (1 / 2) / speedFactor p) :
    (AiLenChanged w p i).1.pacing.hasBeenReset = true ∧
    (AiLenChanged w p i).1.pacing.gameStartTime
      = (AiLenChanged_reset p i).pacing.gameStartTime ∧
    (AiLenChanged w p i).1.pacing.totalElapsedSamples =
      ((AiLenChanged_reset p i).pacing.totalElapsedSamples + i.LenReg / 4) % 2 ^ w ∧
    (AiLenChanged w p i).1.pacing.lastSpeedFactor = (p.speed_factor : Int) ∧
    (AiLenChanged w p i).1.pacing.lastSpeedLimiterEnabledState = false ∧
    (AiLenChanged w p i).1.speed_factor = p.speed_factor ∧
    (AiLenChanged w p i).1.GameFreq = p.GameFreq := by
  have heq := AiLenChanged_eq w p i hinit hok
  rw [if_pos hpace] at heq
  have hsf := AiLenChanged_accounted_speedFactor w p i
  have hacc := AiLenChanged_accounted_frame w p i
  have hst := AiLenChanged_accounted_statics w p i
  have hlim := AiLenChanged_reset_limiter p i
  have hfr := AiLenChanged_pace_frame (AiLenChanged_accounted w p i) i (sleepNeeded w p i)
  have hnr : ¬ (sleepNeeded w p i < minSleepNeededForReset ∨
      sleepNeeded w p i > maxSleepNeeded / speedFactor (AiLenChanged_accounted w p i)) := by
    rw [hsf]
    unfold minSleepNeededForReset maxSleepNeeded
    rintro (h | h) <;> linarith
  rw [heq]
  refine ⟨?_, ?_, ?_, ?_, ?_, ?_, ?_⟩
  · unfold AiLenChanged_pace
    dsimp only
    rw [if_neg hnr]
    exact hst.1
  · rw [AiLenChanged_pace_gameStartTime, if_neg (by unfold minSleepNeeded; linarith)]
    exact hacc.2.2.1
  · rw [hfr.2.1]; exact hacc.2.1
  · rw [hfr.2.2.1]; exact hlim.2.1
  · rw [hfr.2.2.2.1]
    exact hlim.1.trans hpace
  · rw [hfr.2.2.2.2.1]; exact hacc.2.2.2.1
  · rw [hfr.2.2.2.2.2.1]; exact hacc.2.2.2.2.1

/-- Calls made at the times `t k`, as long as every `sleepNeeded` stays in
`[-0.1, 0.5 / speedFactor]`: the origin stays at `t 0`, every chunk is accounted, and call
number `n` computes `sleepNeeded = (n + 1) * d - (t n - t 0)`, with `d` the duration of a
chunk. -/
theorem timedCalls_inv (w : Nat) (p0 : Plugin) (LenReg : Nat) (audio : List Nat) (t : Nat → ℚ)
    (hinit : p0.l_PluginInit ≠ 0) (hok : p0.critical_failure ≠ 1)
    (hfresh : p0.pacing.hasBeenReset = false) (ht0 : t 0 ≠ 0) (n : Nat)
    (htrack : ∀ k, k ≤ n →
      -(1 / 10) ≤ ((k : ℚ) + 1) * chunkDuration p0 LenReg - (t k - t 0) ∧
      ((k : ℚ) + 1) * chunkDuration p0 LenReg - (t k - t 0) ≤ (1 / 2) / speedFactor p0)
    (hov : (n + 1) * (LenReg / 4) < 2 ^ w) :
    callSleep w p0 (timedCalls LenReg audio t) n
      = ((n : ℚ) + 1) * chunkDuration p0 LenReg - (t n - t 0) ∧
    (callRun w p0 (timedCalls LenReg audio t) (n + 1)).pacing.hasBeenReset = true ∧
    (callRun w p0 (timedCalls LenReg audio t) (n + 1)).pacing.gameStartTime = t 0 ∧
    (callRun w p0 (timedCalls LenReg audio t) (n + 1)).pacing.totalElapsedSamples
      = (n + 1) * (LenReg / 4) ∧
    (callRun w p0 (timedCalls LenReg audio t) (n + 1)).pacing.lastSpeedFactor
      = (p0.speed_factor : Int) ∧
    (callRun w p0 (timedCalls LenReg audio t) (n + 1)).pacing.lastSpeedLimiterEnabledState
      = false ∧
    (callRun w p0 (timedCalls LenReg audio t) (n + 1)).speed_factor = p0.speed_factor ∧
    (callRun w p0 (timedCalls LenReg audio t) (n + 1)).GameFreq = p0.GameFreq := by
  induction n with
  | zero =>
    have hsmall : LenReg / 4 < 2 ^ w := by simpa using hov
    have hsn : callSleep w p0 (timedCalls LenReg audio t) 0 = chunkDuration p0 LenReg :=
      sleepNeeded_first w p0 LenReg audio (t 0) hfresh hsmall
    have htr := htrack 0 (le_refl _)
    have hsn' : callSleep w p0 (timedCalls LenReg audio t) 0
        = (((0 : Nat) : ℚ) + 1) * chunkDuration p0 LenReg - (t 0 - t 0) := by
      rw [hsn]
      push_cast
      ring
    have hsn2 : sleepNeeded w p0 (steadyInput LenReg audio (t 0))
        = (((0 : Nat) : ℚ) + 1) * chunkDuration p0 LenReg - (t 0 - t 0) := hsn'
    have hb := AiLenChanged_on_track w p0 (steadyInput LenReg audio (t 0)) hinit hok rfl
      (by rw [hsn2]; exact htr.1) (by rw [hsn2]; exact htr.2)
    rw [AiLenChanged_reset_of_stale p0 _ hfresh] at hb
    obtain ⟨b1, b2, b3, b4, b5, b6, b7⟩ := hb
    refine ⟨hsn', b1, b2, ?_, b4, b5, b6, b7⟩
    have : (callRun w p0 (timedCalls LenReg audio t) (0 + 1)).pacing.totalElapsedSamples
        = (0 + LenReg / 4) % 2 ^ w := b3
    rw [this, Nat.zero_add, Nat.mod_eq_of_lt hsmall]
    simp
  | succ n ih =>
    have hov1 : (n + 1) * (LenReg / 4) < 2 ^ w :=
      lt_of_le_of_lt (Nat.mul_le_mul_right _ (by omega)) hov
    obtain ⟨_, a1, a2, a3, a4, a5, a6, a7⟩ :=
      ih (fun k hk => htrack k (Nat.le_succ_of_le hk)) hov1
    have hfl := callRun_flags w p0 (timedCalls LenReg audio t) (n + 1)
    have hov2 : (callRun w p0 (timedCalls LenReg audio t) (n + 1)).pacing.totalElapsedSamples
        + LenReg / 4 < 2 ^ w := by
      rw [a3]
      calc (n + 1) * (LenReg / 4) + LenReg / 4 = (n + 1 + 1) * (LenReg / 4) := by ring
        _ < 2 ^ w := hov
    have hsfeq : speedFactor (callRun w p0 (timedCalls LenReg audio t) (n + 1))
        = speedFactor p0 := by
      unfold speedFactor
      rw [a6]
    have hsn := sleepNeeded_next w (callRun w p0 (timedCalls LenReg audio t) (n + 1)) LenReg
      audio (t (n + 1)) (by rw [a2]; exact ht0) a1 (by rw [a4, a6]) a5 hov2
    rw [a3, a7, hsfeq, a2] at hsn
    have hsn2 : sleepNeeded w (callRun w p0 (timedCalls LenReg audio t) (n + 1))
        (steadyInput LenReg audio (t (n + 1)))
        = (((n + 1 : Nat) : ℚ) + 1) * chunkDuration p0 LenReg - (t (n + 1) - t 0) := by
      rw [hsn, chunkDuration_eq]
      push_cast
      ring
    have htr := htrack (n + 1) (le_refl _)
    have hb := AiLenChanged_on_track w (callRun w p0 (timedCalls LenReg audio t) (n + 1))
      (steadyInput LenReg audio (t (n + 1)))
      (by rw [hfl.1]; exact hinit) (by rw [hfl.2]; exact hok) rfl
      (by rw [hsn2]; exact htr.1) (by rw [hsn2, hsfeq]; exact htr.2)
    rw [AiLenChanged_reset_of_fresh _ _ (by rw [a2]; exact ht0) a1 (by rw [a4, a6])
      (by rw [a5]; rfl)] at hb
    obtain ⟨b1, b2, b3, b4, b5, b6, b7⟩ := hb
    refine ⟨hsn2, b1, b2.trans a2, ?_, b4.trans (by rw [a6]), b5, b6.trans a6, b7.trans a7⟩
    have : (callRun w p0 (timedCalls LenReg audio t) (n + 1 + 1)).pacing.totalElapsedSamples
        = ((callRun w p0 (timedCalls LenReg audio t) (n + 1)).pacing.totalElapsedSamples
            + LenReg / 4) % 2 ^ w := b3
    rw [this, Nat.mod_eq_of_lt hov2, a3]
    ring

/-! ### A producer that falls behind and catches up -/

/-- The busy-wait statics after `n` calls depend only on the signs of the first `n` calls. -/
theorem busyWaitAfter_congr (b0 : Bool × Int × Int) (f g : Nat → Bool) (n : Nat)
    (h : ∀ k, k < n → f k = g k) : busyWaitAfter b0 f n = busyWaitAfter b0 g n := by
  induction n with
  | zero => rfl
  | succ n ih =>
    simp only [busyWaitAfter]
    rw [ih (fun k hk => h k (Nat.lt_succ_of_lt hk)), h n (Nat.lt_succ_self n)]

/-- The slack of call `k` along `lagTimes`, for chunks of 10 ms. -/
theorem lagTimes_slack (k : Nat) :
    ((k : ℚ) + 1) * (1 / 100) - (lagTimes k - lagTimes 0) =
      if k = 0 then 1 / 100 else if k ≤ 30 ∨ k = 60 then 0 else 1 / 200 := by
  have h0 : lagTimes 0 = 10 := by simp [lagTimes]
  rw [h0]
  unfold lagTimes
  split_ifs with h1 h2
  · subst h1
    norm_num
  · ring
  · ring

/-- Along `lagTimes` the running plugin computes the slack of `lagTimes_slack` as
`sleepNeeded`, for each of the first 62 calls. -/
theorem lagTimes_callSleep (k : Nat) (hk : k ≤ 61) :
    callSleep 64 runningPlugin (timedCalls 1344 silence lagTimes) k =
      if k = 0 then 1 / 100 else if k ≤ 30 ∨ k = 60 then 0 else 1 / 200 := by
  have hsf : speedFactor runningPlugin = 1 := by
    simp only [speedFactor, runningPlugin]
    norm_num
  have h := (timedCalls_inv 64 runningPlugin 1344 silence lagTimes (by decide) (by decide) rfl
    (by simp [lagTimes]) k
    (fun j _ => by
      rw [chunkDuration_running, lagTimes_slack, hsf]
      split_ifs <;> norm_num)
    (lt_of_le_of_lt (Nat.mul_le_mul_right _ (Nat.succ_le_succ hk)) (by norm_num))).1
  rw [h, chunkDuration_running, lagTimes_slack]

/-- The sign of `sleepNeeded` along `lagTimes` is `lagPositive`. -/
theorem lagTimes_positive (k : Nat) (hk : k ≤ 61) :
    decide (0 < callSleep 64 runningPlugin (timedCalls 1344 silence lagTimes) k)
      = lagPositive k := by
  rw [lagTimes_callSleep k hk]
  unfold lagPositive
  by_cases h1 : k = 0
  · rw [if_pos h1]
    simp [h1]
  · rw [if_neg h1]
    by_cases h2 : k ≤ 30 ∨ k = 60
    · rw [if_pos h2]
      have : ¬ (k = 0 ∨ (30 < k ∧ k ≠ 60)) := by omega
      simp [this]
    · rw [if_neg h2]
      have : k = 0 ∨ (30 < k ∧ k ≠ 60) := by omega
      simp [this]

/-- The busy-wait statics of the running plugin after the first `n` calls along
`lagTimes`. -/
theorem lagTimes_busy (n : Nat) (hn : n ≤ 62) :
    busyWaitStatics (callRun 64 runningPlugin (timedCalls 1344 silence lagTimes) n)
      = busyWaitAfter (false, 0, 0) lagPositive n := by
  rw [callRun_busy 64 runningPlugin (timedCalls 1344 silence lagTimes) (by decide) (by decide)
    (fun _ => rfl) n]
  exact busyWaitAfter_congr _ _ _ n (fun k hk => lagTimes_positive k (by omega))

/-- A run of consecutive calls is never longer than the number of calls made. -/
theorem nonPositiveRun_le (w : Nat) (p0 : Plugin) (calls : Nat → AiLenInput) (n : Nat) :
    nonPositiveRun w p0 calls n ≤ n := by
  induction n with
  | zero => exact le_refl _
  | succ n ih =>
    simp only [nonPositiveRun]
    split_ifs
    · exact Nat.succ_le_succ ih
    · exact Nat.zero_le _

/-- The count of positive calls is never larger than the number of calls made. -/
theorem positiveCount_le (w : Nat) (p0 : Plugin) (calls : Nat → AiLenInput) (n : Nat) :
    positiveCount w p0 calls n ≤ n := by
  induction n with
  | zero => exact le_refl _
  | succ n ih =>
    simp only [positiveCount]
    split_ifs
    · exact Nat.succ_le_succ ih
    · exact Nat.le_succ_of_le ih

/-- C14 (witness): the running plugin along `lagTimes`, after 29 calls; fewer than 30 calls
cannot contain a run of 30. -/
theorem C14_busy_wait_entry_witness :
    (callRun 64 runningPlugin (timedCalls 1344 silence lagTimes) 29).pacing.busyWait = false ∧
    (callRun 64 runningPlugin (timedCalls 1344 silence lagTimes) 29).pacing.busyWaitEnableCount
      = (nonPositiveRun 64 runningPlugin (timedCalls 1344 silence lagTimes) 29 : Int) ∧
    (nonPositiveRun 64 runningPlugin (timedCalls 1344 silence lagTimes) (29 + 1) = 30 →
      (callRun 64 runningPlugin (timedCalls 1344 silence lagTimes) (29 + 1)).pacing.busyWait
        = true) ∧
    (nonPositiveRun 64 runningPlugin (timedCalls 1344 silence lagTimes) (29 + 1) < 30 →
      (callRun 64 runningPlugin (timedCalls 1344 silence lagTimes) (29 + 1)).pacing.busyWait
        = false) ∧
    (0 < callSleep 64 runningPlugin (timedCalls 1344 silence lagTimes) 29 →
      nonPositiveRun 64 runningPlugin (timedCalls 1344 silence lagTimes) (29 + 1) = 0 ∧
      (callRun 64 runningPlugin (timedCalls 1344 silence lagTimes)
        (29 + 1)).pacing.busyWaitEnableCount = 0) :=
  C14_busy_wait_entry 64 runningPlugin (timedCalls 1344 silence lagTimes) (by decide)
    (by decide) (fun _ => rfl) rfl rfl 29
    (fun k hk => lt_of_le_of_lt (nonPositiveRun_le 64 runningPlugin _ k)
      (Nat.lt_succ_of_le hk))

/-- The slack of call `k` along `lateTimes`, for chunks of 10 ms. -/
theorem lateTimes_slack (k : Nat) :
    ((k : ℚ) + 1) * (1 / 100) - (lateTimes k - lateTimes 0) =
      if k = 0 then 1 / 100 else if k ≤ 30 ∨ k = 60 then -(1 / 500) else 1 / 500 := by
  have h0 : lateTimes 0 = 10 := by simp [lateTimes]
  rw [h0]
  unfold lateTimes
  split_ifs with h1 h2
  · subst h1
    norm_num
  · ring
  · ring

/-- Along `lateTimes` every call is made after the previous one has returned: a call with
positive slack returns when its chunk is due, a call with negative slack at once. -/
theorem lateTimes_after_return (k : Nat) :
    lateTimes k + max (((k : ℚ) + 1) * (1 / 100) - (lateTimes k - lateTimes 0)) 0
      < lateTimes (k + 1) := by
  rw [lateTimes_slack]
  have hk1 : ¬ (k + 1 = 0) := by omega
  by_cases h1 : k = 0
  · subst h1
    simp only [lateTimes]
    norm_num
  · by_cases h2 : k ≤ 30 ∨ k = 60
    · rw [if_neg h1, if_pos h2, max_eq_right (by norm_num)]
      unfold lateTimes
      rw [if_neg h1, if_pos h2, if_neg hk1]
      push_cast
      split_ifs <;> linarith
    · rw [if_neg h1, if_neg h2, max_eq_left (by norm_num)]
      unfold lateTimes
      rw [if_neg h1, if_neg h2, if_neg hk1]
      push_cast
      split_ifs <;> linarith

/-- Along `lateTimes` the running plugin computes the slack of `lateTimes_slack` as
`sleepNeeded`, for each of the first 62 calls. -/
theorem lateTimes_callSleep (k : Nat) (hk : k ≤ 61) :
    callSleep 64 runningPlugin (timedCalls 1344 silence lateTimes) k =
      if k = 0 then 1 / 100 else if k ≤ 30 ∨ k = 60 then -(1 / 500) else 1 / 500 := by
  have hsf : speedFactor runningPlugin = 1 := by
    simp only [speedFactor, runningPlugin]
    norm_num
  have h := (timedCalls_inv 64 runningPlugin 1344 silence lateTimes (by decide) (by decide) rfl
    (by simp [lateTimes]) k
    (fun j _ => by
      rw [chunkDuration_running, lateTimes_slack, hsf]
      split_ifs <;> norm_num)
    (lt_of_le_of_lt (Nat.mul_le_mul_right _ (Nat.succ_le_succ hk)) (by norm_num))).1
  rw [h, chunkDuration_running, lateTimes_slack]

/-- The sign of `sleepNeeded` along `lateTimes` is `lagPositive`. -/
theorem lateTimes_positive (k : Nat) (hk : k ≤ 61) :
    decide (0 < callSleep 64 runningPlugin (timedCalls 1344 silence lateTimes) k)
      = lagPositive k := by
  rw [lateTimes_callSleep k hk]
  unfold lagPositive
  by_cases h1 : k = 0
  · rw [if_pos h1]
    simp [h1]
  · rw [if_neg h1]
    by_cases h2 : k ≤ 30 ∨ k = 60
    · rw [if_pos h2]
      have : ¬ (k = 0 ∨ (30 < k ∧ k ≠ 60)) := by omega
      simp [this]
    · rw [if_neg h2]
      have : k = 0 ∨ (30 < k ∧ k ≠ 60) := by omega
      simp [this]

/-- The busy-wait statics of the running plugin after the first `n` calls along
`lateTimes`. -/
theorem lateTimes_busy (n : Nat) (hn : n ≤ 62) :
    busyWaitStatics (callRun 64 runningPlugin (timedCalls 1344 silence lateTimes) n)
      = busyWaitAfter (false, 0, 0) lagPositive n := by
  rw [callRun_busy 64 runningPlugin (timedCalls 1344 silence lateTimes) (by decide) (by decide)
    (fun _ => rfl) n]
  exact busyWaitAfter_congr _ _ _ n (fun k hk => lateTimes_positive k (by omega))

set_option maxRecDepth 100000 in
/-- C15 (the code at the failing input), with the statics listed as `(busyWait,
busyWaitEnableCount, busyWaitDisableCount)`: along `lateTimes` the running plugin enters
busy-waiting on call 30 (the 30th consecutive call with `sleepNeeded <= 0`); calls 31 to 59
have `sleepNeeded = 0.002` and bring `busyWaitDisableCount` to 29; call 60 has
`sleepNeeded = -0.002` and leaves `busyWaitDisableCount` at 29 instead of restarting it;
call 61 has `sleepNeeded = 0.002`, counts as the 30th and clears `busyWait`. Busy-waiting is
left on call 61 although call 60, the call immediately before it, had `sleepNeeded <= 0`. -/
theorem C15_exit_count_survives_break :
    (∀ k, isSpeedLimiterEnabled (timedCalls 1344 silence lateTimes k).e = false) ∧
    busyWaitStatics (callRun 64 runningPlugin (timedCalls 1344 silence lateTimes) 30)
      = (false, 29, 0) ∧
    busyWaitStatics (callRun 64 runningPlugin (timedCalls 1344 silence lateTimes) 31)
      = (true, 0, 0) ∧
    (∀ j, 31 ≤ j → j ≤ 59 →
      callSleep 64 runningPlugin (timedCalls 1344 silence lateTimes) j = 1 / 500) ∧
    busyWaitStatics (callRun 64 runningPlugin (timedCalls 1344 silence lateTimes) 60)
      = (true, 0, 29) ∧
    callSleep 64 runningPlugin (timedCalls 1344 silence lateTimes) 60 = -(1 / 500) ∧
    busyWaitStatics (callRun 64 runningPlugin (timedCalls 1344 silence lateTimes) 61)
      = (true, 1, 29) ∧
    callSleep 64 runningPlugin (timedCalls 1344 silence lateTimes) 61 = 1 / 500 ∧
    (callRun 64 runningPlugin (timedCalls 1344 silence lateTimes) 61).pacing.busyWait = true ∧
    (callRun 64 runningPlugin (timedCalls 1344 silence lateTimes) 62).pacing.busyWait = false ∧
    ¬ (∀ j, 32 ≤ j → j ≤ 61 →
      0 < callSleep 64 runningPlugin (timedCalls 1344 silence lateTimes) j) := by
  have h30 : busyWaitAfter (false, 0, 0) lagPositive 30 = (false, 29, 0) := by decide
  have h31 : busyWaitAfter (false, 0, 0) lagPositive 31 = (true, 0, 0) := by decide
  have h60 : busyWaitAfter (false, 0, 0) lagPositive 60 = (true, 0, 29) := by decide
  have h61 : busyWaitAfter (false, 0, 0) lagPositive 61 = (true, 1, 29) := by decide
  have h62 : busyWaitAfter (false, 0, 0) lagPositive 62 = (false, 0, 30) := by decide
  have hs60 : callSleep 64 runningPlugin (timedCalls 1344 silence lateTimes) 60
      = -(1 / 500) := by
    rw [lateTimes_callSleep 60 (by norm_num)]
    norm_num
  have hs61 : callSleep 64 runningPlugin (timedCalls 1344 silence lateTimes) 61
      = 1 / 500 := by
    rw [lateTimes_callSleep 61 (by norm_num)]
    norm_num
  refine ⟨fun _ => rfl, ?_, ?_, ?_, ?_, hs60, ?_, hs61, ?_, ?_, ?_⟩
  · rw [lateTimes_busy 30 (by norm_num), h30]
  · rw [lateTimes_busy 31 (by norm_num), h31]
  · intro j h1 h2
    rw [lateTimes_callSleep j (by omega), if_neg (by omega), if_neg (by omega)]
  · rw [lateTimes_busy 60 (by norm_num), h60]
  · rw [lateTimes_busy 61 (by norm_num), h61]
  · have hb := lateTimes_busy 61 (by norm_num)
    rw [h61] at hb
    exact congrArg Prod.fst hb
  · have hb := lateTimes_busy 62 (by norm_num)
    rw [h62] at hb
    exact congrArg Prod.fst hb
  · intro h
    have := h 60 (by norm_num) (by norm_num)
    rw [hs60] at this
    norm_num at this

/-- The count of positive calls never decreases. -/
theorem positiveCount_mono (w : Nat) (p0 : Plugin) (calls : Nat → AiLenInput) (n : Nat) :
    positiveCount w p0 calls n ≤ positiveCount w p0 calls (n + 1) := by
  simp only [positiveCount]
  split_ifs
  · exact Nat.le_succ _
  · exact le_refl _

/-- From the entry into busy-waiting, as long as busy-waiting is not entered again and fewer
than 30 calls had `sleepNeeded > 0`: the plugin is busy-waiting and `busyWaitDisableCount` is
the number of calls with `sleepNeeded > 0`. -/
theorem callRun_busy_inv (w : Nat) (p0 : Plugin) (calls : Nat → AiLenInput)
    (hinit : p0.l_PluginInit ≠ 0) (hok : p0.critical_failure ≠ 1)
    (hpace : ∀ k, isSpeedLimiterEnabled (calls k).e = false)
    (hb : p0.pacing.busyWait = true) (he : p0.pacing.busyWaitEnableCount = 0)
    (hd : p0.pacing.busyWaitDisableCount = 0) (n : Nat)
    (hrun : ∀ k, k ≤ n → nonPositiveRun w p0 calls k < 30)
    (hcount : positiveCount w p0 calls n < 30) :
    busyWaitStatics (callRun w p0 calls n)
      = (true, (nonPositiveRun w p0 calls n : Int), (positiveCount w p0 calls n : Int)) := by
  induction n with
  | zero =>
    unfold busyWaitStatics
    simp only [callRun, nonPositiveRun, positiveCount]
    rw [hb, he, hd]
    rfl
  | succ n ih =>
    have hmono := positiveCount_mono w p0 calls n
    have ih' := ih (fun k hk => hrun k (Nat.le_succ_of_le hk)) (lt_of_le_of_lt hmono hcount)
    have hlt := hrun (n + 1) (le_refl _)
    rw [callRun_busy_succ w p0 calls hinit hok hpace n, ih']
    by_cases hs : callSleep w p0 calls n ≤ 0
    · have hr : nonPositiveRun w p0 calls (n + 1) = nonPositiveRun w p0 calls n + 1 := by
        simp only [nonPositiveRun]
        rw [if_pos hs]
      have hc : positiveCount w p0 calls (n + 1) = positiveCount w p0 calls n := by
        simp only [positiveCount]
        rw [if_neg (not_lt.mpr hs)]
      rw [hr] at hlt ⊢
      rw [hc] at hcount ⊢
      rw [decide_eq_false (not_lt.mpr hs),
        busyWaitStep_busy_nonpos _ _ (by omega) (by omega)]
      push_cast
      rfl
    · have hr : nonPositiveRun w p0 calls (n + 1) = 0 := by
        simp only [nonPositiveRun]
        rw [if_neg hs]
      have hc : positiveCount w p0 calls (n + 1) = positiveCount w p0 calls n + 1 := by
        simp only [positiveCount]
        rw [if_pos (not_le.mp hs)]
      rw [hc] at hcount ⊢
      rw [hr, decide_eq_true (not_le.mp hs), busyWaitStep_busy_pos _ _ (by omega)]
      push_cast
      rfl

/-- The exit from busy-waiting as the code counts it: over any sequence of pacing-active
calls that starts where busy-waiting has just been entered (`busyWait` set, both counters
0), as long as busy-waiting is not entered again and fewer than 30 calls had
`sleepNeeded > 0`: `busyWait` is still set and `busyWaitDisableCount` is the number of calls
so far with `sleepNeeded > 0`, consecutive or not; the next call clears `busyWait` exactly
when it has `sleepNeeded > 0` and is the 30th such call; and a call with `sleepNeeded <= 0`
in between leaves the count of positive calls unchanged. -/
theorem callRun_busy_exit (w : Nat) (p0 : Plugin) (calls : Nat → AiLenInput)
    (hinit : p0.l_PluginInit ≠ 0) (hok : p0.critical_failure ≠ 1)
    (hpace : ∀ k, isSpeedLimiterEnabled (calls k).e = false)
    (hb : p0.pacing.busyWait = true) (he : p0.pacing.busyWaitEnableCount = 0)
    (hd : p0.pacing.busyWaitDisableCount = 0) (n : Nat)
    (hrun : ∀ k, k ≤ n + 1 → nonPositiveRun w p0 calls k < 30)
    (hcount : positiveCount w p0 calls n < 30) :
    (callRun w p0 calls n).pacing.busyWait = true ∧
    (callRun w p0 calls n).pacing.busyWaitDisableCount = (positiveCount w p0 calls n : Int) ∧
    ((callRun w p0 calls (n + 1)).pacing.busyWait = false ↔
      0 < callSleep w p0 calls n ∧ positiveCount w p0 calls n = 29) ∧
    (callSleep w p0 calls n ≤ 0 →
      (callRun w p0 calls (n + 1)).pacing.busyWaitDisableCount
        = (callRun w p0 calls n).pacing.busyWaitDisableCount) := by
  have hinv := callRun_busy_inv w p0 calls hinit hok hpace hb he hd n
    (fun k hk => hrun k (Nat.le_succ_of_le hk)) hcount
  have hsucc := callRun_busy_succ w p0 calls hinit hok hpace n
  rw [hinv] at hsucc
  have hlt := hrun (n + 1) (le_refl _)
  have hdis : (callRun w p0 calls n).pacing.busyWaitDisableCount
      = (positiveCount w p0 calls n : Int) := congrArg (fun x => x.2.2) hinv
  refine ⟨congrArg Prod.fst hinv, hdis, ?_, ?_⟩
  · by_cases hs : callSleep w p0 calls n ≤ 0
    · have hr : nonPositiveRun w p0 calls (n + 1) = nonPositiveRun w p0 calls n + 1 := by
        simp only [nonPositiveRun]
        rw [if_pos hs]
      rw [hr] at hlt
      rw [decide_eq_false (not_lt.mpr hs),
        busyWaitStep_busy_nonpos _ _ (by omega) (by omega)] at hsucc
      have hbw : (callRun w p0 calls (n + 1)).pacing.busyWait = true :=
        congrArg Prod.fst hsucc
      constructor
      · intro hf
        rw [hbw] at hf
        exact Bool.noConfusion hf
      · rintro ⟨hp, _⟩
        exact absurd hp (not_lt.mpr hs)
    · have hp : 0 < callSleep w p0 calls n := not_le.mp hs
      rw [decide_eq_true hp] at hsucc
      by_cases h29 : positiveCount w p0 calls n = 29
      · rw [h29] at hsucc
        have hbw : (callRun w p0 calls (n + 1)).pacing.busyWait = false :=
          congrArg Prod.fst (hsucc.trans (busyWaitStep_busy_leave _))
        exact ⟨fun _ => ⟨hp, h29⟩, fun _ => hbw⟩
      · rw [busyWaitStep_busy_pos _ _ (by omega)] at hsucc
        have hbw : (callRun w p0 calls (n + 1)).pacing.busyWait = true :=
          congrArg Prod.fst hsucc
        constructor
        · intro hf
          rw [hbw] at hf
          exact Bool.noConfusion hf
        · rintro ⟨_, h⟩
          exact absurd h h29
  · intro hs
    have hr : nonPositiveRun w p0 calls (n + 1) = nonPositiveRun w p0 calls n + 1 := by
      simp only [nonPositiveRun]
      rw [if_pos hs]
    rw [hr] at hlt
    rw [decide_eq_false (not_lt.mpr hs),
      busyWaitStep_busy_nonpos _ _ (by omega) (by omega)] at hsucc
    rw [hdis]
    exact congrArg (fun x => x.2.2) hsucc

/-! ### Chunk timestamps -/

/-- After the reset block the origin is the current time, or it is the old origin of a
state whose `hasBeenReset` was set. -/
theorem AiLenChanged_reset_origin (p : Plugin) (i : AiLenInput) :
    (AiLenChanged_reset p i).pacing.gameStartTime = i.currentTime ∨
    (p.pacing.hasBeenReset = true ∧
      (AiLenChanged_reset p i).pacing.gameStartTime = p.pacing.gameStartTime) := by
  unfold AiLenChanged_reset
  dsimp only
  split_ifs with h
  · exact Or.inl rfl
  · simp only [not_or, Bool.not_eq_false] at h
    exact Or.inr ⟨h.2.1, rfl⟩

/-- The game time accounted so far is not negative when `GameFreq` is positive. -/
theorem totalElapsedGameTime_nonneg (p : Plugin) (h : 0 < p.GameFreq) :
    0 ≤ totalElapsedGameTime p := by
  unfold totalElapsedGameTime speedFactor
  have hG : (0 : ℚ) ≤ (p.GameFreq : ℚ) := by exact_mod_cast le_of_lt h
  exact div_nonneg (div_nonneg (Nat.cast_nonneg _) hG)
    (div_nonneg (Nat.cast_nonneg _) (by norm_num))

/-- A call of `AiLenChanged` made at or after the latest call keeps the invariant. -/
theorem AiLenChanged_StampInv (w : Nat) (p : Plugin) (i : AiLenInput) (tl : ℚ)
    (h : StampInv p tl) (ht : tl ≤ i.currentTime) :
    StampInv (AiLenChanged w p i).1 i.currentTime := by
  obtain ⟨hG, hs1, hs2, hg, hq⟩ := h
  by_cases hc : p.critical_failure = 1
  · have : (AiLenChanged w p i).1 = p := by
      unfold AiLenChanged
      rw [if_pos hc]
    rw [this]
    exact ⟨hG, hs1, hs2, fun hr => le_trans (hg hr) ht, hq⟩
  by_cases hi : p.l_PluginInit = 0
  · have : (AiLenChanged w p i).1 = p := by
      unfold AiLenChanged
      rw [if_neg hc, if_pos hi]
    rw [this]
    exact ⟨hG, hs1, hs2, fun hr => le_trans (hg hr) ht, hq⟩
  have hacc := AiLenChanged_accounted_frame w p i
  have horigin : (AiLenChanged_reset p i).pacing.gameStartTime ≤ i.currentTime := by
    rcases AiLenChanged_reset_origin p i with h1 | ⟨h1, h2⟩
    · rw [h1]
    · rw [h2]
      exact le_trans (hg h1) ht
  have hqueue : ∀ q ∈ (AiLenChanged_accounted w p i).audioConsumerQueue,
      0 ≤ q.timeSinceStart := by
    intro q hmem
    rw [hacc.1, List.mem_append, List.mem_singleton] at hmem
    rcases hmem with hmem | hmem
    · exact hq q hmem
    · rw [hmem]
      exact sub_nonneg.mpr horigin
  rw [AiLenChanged_eq w p i hi hc]
  split_ifs with hl
  · have hfr := AiLenChanged_pace_frame (AiLenChanged_accounted w p i) i (sleepNeeded w p i)
    refine ⟨by rw [hfr.2.2.2.2.2.1, hacc.2.2.2.2.1]; exact hG,
      by rw [hfr.2.2.2.2.1, hacc.2.2.2.1]; exact hs1,
      by rw [hfr.2.2.2.2.1, hacc.2.2.2.1]; exact hs2, fun _ => ?_,
      by rw [hfr.1]; exact hqueue⟩
    rw [AiLenChanged_pace_gameStartTime, hacc.2.2.1]
    split_ifs with hsn
    · have hgt : 0 ≤ totalElapsedGameTime (AiLenChanged_accounted w p i) :=
        totalElapsedGameTime_nonneg _ (by rw [hacc.2.2.2.2.1]; exact hG)
      have hdef : sleepNeeded w p i = totalElapsedGameTime (AiLenChanged_accounted w p i)
          - (i.currentTime - (AiLenChanged_reset p i).pacing.gameStartTime) := rfl
      unfold minSleepNeeded at hsn ⊢
      linarith
    · exact horigin
  · exact ⟨by rw [hacc.2.2.2.2.1]; exact hG, by rw [hacc.2.2.2.1]; exact hs1,
      by rw [hacc.2.2.2.1]; exact hs2, fun _ => by rw [hacc.2.2.1]; exact horigin, hqueue⟩

/-- The function `InitializeAudio` leaves the pacing statics, the queue and the speed factor
alone, and sets `GameFreq` to the configured frequency or to a requested one of at least
4000 Hz. -/
theorem InitializeAudio_frame (p : Plugin) (cfgFreq freq : Int) (slesOk : Bool) :
    (InitializeAudio p cfgFreq freq slesOk).pacing = p.pacing ∧
    (InitializeAudio p cfgFreq freq slesOk).audioConsumerQueue = p.audioConsumerQueue ∧
    (InitializeAudio p cfgFreq freq slesOk).speed_factor = p.speed_factor ∧
    ((InitializeAudio p cfgFreq freq slesOk).GameFreq = cfgFreq ∨
      ((InitializeAudio p cfgFreq freq slesOk).GameFreq = freq ∧ 4000 ≤ freq)) := by
  unfold InitializeAudio OnInitFailure CloseAudio
  dsimp only
  by_cases h1 : freq < 4000
  · rw [if_pos h1]
    exact ⟨rfl, rfl, rfl, Or.inl rfl⟩
  · rw [if_neg h1]
    have h4 : 4000 ≤ freq := not_lt.mp h1
    split_ifs <;> first
      | exact ⟨rfl, rfl, rfl, Or.inl rfl⟩
      | exact ⟨rfl, rfl, rfl, Or.inr ⟨rfl, h4⟩⟩

/-- Every host call keeps the invariant, when a configured frequency it brings is positive
and a call of `AiLenChanged` is not made before the latest one. -/
theorem Plugin.call_StampInv (w : Nat) (p : Plugin) (c : Call) (tl : ℚ)
    (h : StampInv p tl)
    (hfreq : ∀ cfgFreq freq slesOk, c = Call.InitializeAudio cfgFreq freq slesOk → 0 < cfgFreq)
    (ht : ∀ i, c = Call.AiLenChanged i → tl ≤ i.currentTime) :
    StampInv (p.call w c) (match c with
      | Call.AiLenChanged i => i.currentTime
      | _ => tl) := by
  cases c with
  | PluginStartup ok =>
    simp only [Plugin.call, PluginStartup]
    split_ifs <;> exact h
  | InitializeAudio cfgFreq freq slesOk =>
    have hcfg := hfreq cfgFreq freq slesOk rfl
    simp only [Plugin.call]
    split_ifs
    · exact h
    · obtain ⟨hG, hs1, hs2, hg, hq⟩ := h
      obtain ⟨f1, f2, f3, f4⟩ := InitializeAudio_frame p cfgFreq freq slesOk
      refine ⟨?_, by rw [f3]; exact hs1, by rw [f3]; exact hs2, by rw [f1]; exact hg,
        by rw [f2]; exact hq⟩
      rcases f4 with f4 | ⟨f4, f5⟩
      · rw [f4]; exact hcfg
      · rw [f4]; omega
  | RomClosed =>
    simp only [Plugin.call, RomClosed, CloseAudio]
    split_ifs <;> exact h
  | SetSpeedFactor percentage =>
    obtain ⟨hG, hs1, hs2, hg, hq⟩ := h
    simp only [Plugin.call, SetSpeedFactor]
    split_ifs with h1 h2
    · exact ⟨hG, hs1, hs2, hg, hq⟩
    · exact ⟨hG, by show 10 ≤ percentage.toNat; omega,
        by show percentage.toNat ≤ 300; omega, hg, hq⟩
    · exact ⟨hG, hs1, hs2, hg, hq⟩
  | AiLenChanged i =>
    exact AiLenChanged_StampInv w p i tl h (ht i rfl)

/-- The invariant holds along any sequence of host calls with positive configured
frequencies and a monotone clock. -/
theorem Plugin.foldl_StampInv (w : Nat) (cs : List Call) :
    ∀ (p : Plugin) (tl : ℚ), StampInv p tl →
      (∀ cfgFreq freq slesOk, Call.InitializeAudio cfgFreq freq slesOk ∈ cs → 0 < cfgFreq) →
      (∀ t ∈ callTimes cs, tl ≤ t) → (callTimes cs).Pairwise (fun a b => a ≤ b) →
      ∃ tl2, StampInv (cs.foldl (Plugin.call w) p) tl2 := by
  induction cs with
  | nil =>
    intro p tl h _ _ _
    exact ⟨tl, h⟩
  | cons c cs ih =>
    intro p tl h hfreq hlow hpw
    have hfreq' : ∀ cfgFreq freq slesOk,
        Call.InitializeAudio cfgFreq freq slesOk ∈ cs → 0 < cfgFreq :=
      fun a b d hm => hfreq a b d (List.mem_cons_of_mem _ hm)
    have hstep := Plugin.call_StampInv w p c tl h
      (fun a b d hc => hfreq a b d (by rw [hc]; exact List.mem_cons_self _ _))
      (fun i hc => hlow i.currentTime (by rw [hc]; exact List.mem_cons_self _ _))
    cases c with
    | AiLenChanged i =>
      have hpw' : (i.currentTime :: callTimes cs).Pairwise (fun a b => a ≤ b) := hpw
      rw [List.pairwise_cons] at hpw'
      exact ih _ _ hstep hfreq' hpw'.1 hpw'.2
    | PluginStartup ok => exact ih _ _ hstep hfreq' hlow hpw
    | InitializeAudio a b d => exact ih _ _ hstep hfreq' hlow hpw
    | RomClosed => exact ih _ _ hstep hfreq' hlow hpw
    | SetSpeedFactor a => exact ih _ _ hstep hfreq' hlow hpw

/-- The stamps in exact arithmetic, that is, with `timeSinceStart` as the exact difference of
the two times: with a monotone clock and positive configured frequencies (so that
`GameFreq > 0`; `speed_factor` stays in `[10, 300]` by itself), after every sequence of host
calls, with arbitrary resets, limiter toggles and runaway-guard shifts, every queued chunk
has an exact `timeSinceStart >= 0`. A negative stamp can therefore only come from the
rounding of the conversions modelled by `gameStartTime_double` and
`timeSinceStart_double`. -/
theorem timeSinceStart_nonneg_exact (w : Nat) (cs : List Call)
    (hfreq : ∀ cfgFreq freq slesOk,
      Call.InitializeAudio cfgFreq freq slesOk ∈ cs → 0 < cfgFreq)
    (hmono : (callTimes cs).Pairwise (fun a b => a ≤ b)) :
    ∀ q ∈ (Plugin.run w cs).audioConsumerQueue, 0 ≤ q.timeSinceStart := by
  have h0 : ∀ tl : ℚ, StampInv ({} : Plugin) tl := fun tl =>
    ⟨by decide, by decide, by decide, fun h => Bool.noConfusion h,
      fun q hq => absurd hq (List.not_mem_nil q)⟩
  have hex : ∃ tl2, StampInv (Plugin.run w cs) tl2 := by
    cases hct : callTimes cs with
    | nil =>
      exact Plugin.foldl_StampInv w cs {} 0 (h0 0) hfreq
        (by rw [hct]; intro t ht; exact absurd ht (List.not_mem_nil t)) hmono
    | cons t0 ts =>
      rw [hct, List.pairwise_cons] at hmono
      refine Plugin.foldl_StampInv w cs {} t0 (h0 t0) hfreq ?_ (by rw [hct, List.pairwise_cons]; exact hmono)
      rw [hct]
      intro t ht
      rcases List.mem_cons.mp ht with h | h
      · rw [h]
      · exact hmono.1 t h
  obtain ⟨tl2, hinv⟩ := hex
  exact hinv.2.2.2.2

/-- The exact stamps of the session of `sessionCalls`, with a speed change and a pause. -/
theorem timeSinceStart_nonneg_exact_session :
    callTimes sessionCalls = [10, 20, 2001 / 100] ∧
    ∀ q ∈ (Plugin.run 64 sessionCalls).audioConsumerQueue, 0 ≤ q.timeSinceStart :=
  ⟨rfl,
   timeSinceStart_nonneg_exact 64 sessionCalls
    (fun cfgFreq freq slesOk hm => by
      simp only [sessionCalls, List.mem_cons, List.mem_singleton, List.not_mem_nil,
        or_false, false_or, reduceCtorEq] at hm
      injection hm with h1 _ _
      rw [h1]
      norm_num)
    (by
      have : callTimes sessionCalls = [10, 20, 2001 / 100] := rfl
      rw [this]
      simp only [List.pairwise_cons, List.mem_cons, List.mem_singleton, List.not_mem_nil,
        List.Pairwise.nil, and_true]
      norm_num)⟩

/-! ### The moving averages -/

/-- The zero-initialised window array, with its first slots spelled out. -/
theorem replicate_window : List.replicate maxWindowSize (0 : ℚ) = windowSlots 0 0 := rfl

/-- First chunk of `growingWindowChunks`: one slot recorded, window length re-derived as 2. -/
theorem growingWindow_step1 :
    audioConsumerStretch_average 33600 defaultLocals (chunkOf 40320 0) =
      { defaultLocals with
        prevTime := 0, feedTimeIndex := 1, feedTimeWindowSize := 2,
        feedTimes := windowSlots 0 0, gameTimes := windowSlots (3 / 10) 0,
        averageGameTime := 3 / 10, averageFeedTime := 0 } := by
  have hw : c_int (defaultSampleLength / (3 / 10) * 50) = 2 :=
    c_int_eq _ 2 (by norm_num [defaultSampleLength]) (by norm_num [defaultSampleLength])
      (by norm_num)
  unfold audioConsumerStretch_average GetAverageTime
  simp only [defaultLocals, chunkOf, replicate_window, windowSlots, N64_SAMPLE_BYTES]
  norm_num
  rw [hw]
  decide

/-- Second chunk: the index reaches the window length 2, wraps, and the window is marked as
filled. -/
theorem growingWindow_step2 :
    audioConsumerStretch_average 33600
      { defaultLocals with
        prevTime := 0, feedTimeIndex := 1, feedTimeWindowSize := 2,
        feedTimes := windowSlots 0 0, gameTimes := windowSlots (3 / 10) 0,
        averageGameTime := 3 / 10, averageFeedTime := 0 }
      (chunkOf 40320 (3 / 10)) =
      { defaultLocals with
        prevTime := 3 / 10, feedTimeIndex := 0, feedTimesSet := true, feedTimeWindowSize := 2,
        feedTimes := windowSlots 0 (3 / 10), gameTimes := windowSlots (3 / 10) (3 / 10),
        averageGameTime := 3 / 10, averageFeedTime := 3 / 20 } := by
  have hw : c_int (defaultSampleLength / (3 / 10) * 50) = 2 :=
    c_int_eq _ 2 (by norm_num [defaultSampleLength]) (by norm_num [defaultSampleLength])
      (by norm_num)
  have t2 : Int.toNat 2 = 2 := rfl
  have t5 : Int.toNat 5 = 5 := rfl
  unfold audioConsumerStretch_average GetAverageTime
  simp only [defaultLocals, chunkOf, windowSlots, N64_SAMPLE_BYTES]
  norm_num [t2, t5, List.take, List.sum_cons]
  rw [hw]
  decide

/-- Third chunk, of 10 ms: the average game time drops to 0.155 and the window length is
re-derived as 5, although only two slots have ever been written. -/
theorem growingWindow_step3 :
    audioConsumerStretch_average 33600
      { defaultLocals with
        prevTime := 3 / 10, feedTimeIndex := 0, feedTimesSet := true, feedTimeWindowSize := 2,
        feedTimes := windowSlots 0 (3 / 10), gameTimes := windowSlots (3 / 10) (3 / 10),
        averageGameTime := 3 / 10, averageFeedTime := 3 / 20 }
      (chunkOf 1344 (6 / 10)) =
      { defaultLocals with
        prevTime := 6 / 10, feedTimeIndex := 1, feedTimesSet := true, feedTimeWindowSize := 5,
        feedTimes := windowSlots (3 / 10) (3 / 10),
        gameTimes := windowSlots (1 / 100) (3 / 10),
        averageGameTime := 31 / 200, averageFeedTime := 3 / 10 } := by
  have hw : c_int (defaultSampleLength / (31 / 200) * 50) = 5 :=
    c_int_eq _ 5 (by norm_num [defaultSampleLength]) (by norm_num [defaultSampleLength])
      (by norm_num)
  have t2 : Int.toNat 2 = 2 := rfl
  have t5 : Int.toNat 5 = 5 := rfl
  unfold audioConsumerStretch_average GetAverageTime
  simp only [defaultLocals, chunkOf, windowSlots, N64_SAMPLE_BYTES]
  norm_num [t2, t5, List.take, List.sum_cons]
  rw [hw]
  decide

/-- Fourth chunk: both averages are taken over 5 slots, three of which were never written. -/
theorem growingWindow_step4 :
    audioConsumerStretch_average 33600
      { defaultLocals with
        prevTime := 6 / 10, feedTimeIndex := 1, feedTimesSet := true, feedTimeWindowSize := 5,
        feedTimes := windowSlots (3 / 10) (3 / 10),
        gameTimes := windowSlots (1 / 100) (3 / 10),
        averageGameTime := 31 / 200, averageFeedTime := 3 / 10 }
      (chunkOf 1344 (61 / 100)) =
      { defaultLocals with
        prevTime := 61 / 100, feedTimeIndex := 2, feedTimesSet := true,
        feedTimeWindowSize := 208,
        feedTimes := windowSlots (3 / 10) (1 / 100),
        gameTimes := windowSlots (1 / 100) (1 / 100),
        averageGameTime := 1 / 250, averageFeedTime := 31 / 500 } := by
  have hw : c_int (defaultSampleLength / (1 / 250) * 50) = 208 :=
    c_int_eq _ 208 (by norm_num [defaultSampleLength]) (by norm_num [defaultSampleLength])
      (by norm_num)
  have t2 : Int.toNat 2 = 2 := rfl
  have t5 : Int.toNat 5 = 5 := rfl
  unfold audioConsumerStretch_average GetAverageTime
  simp only [defaultLocals, chunkOf, windowSlots, N64_SAMPLE_BYTES]
  norm_num [t2, t5, List.take, List.sum_cons]
  rw [hw]
  decide

/-- C19 (the code at the failing input): after the four chunks of `growingWindowChunks`
(game times 0.3, 0.3, 0.01 and 0.01 s; feed gaps 0, 0.3, 0.3 and 0.01 s) the window length
has grown from 2 to 5 after the window was marked as filled, and both averages are taken
over slots 0 to 4 of arrays in which only slots 0 and 1 were ever written:
`averageGameTime` is 0.004, below every recorded game time, and `averageFeedTime` is 0.062;
the means of the two recorded slots of the window are 0.01 and 0.155. -/
theorem C19_window_growth_dilutes :
    (growingWindowChunks.foldl (audioConsumerStretch_average 33600) defaultLocals).gameTimes
      = windowSlots (1 / 100) (1 / 100) ∧
    (growingWindowChunks.foldl (audioConsumerStretch_average 33600) defaultLocals).feedTimes
      = windowSlots (3 / 10) (1 / 100) ∧
    (growingWindowChunks.foldl (audioConsumerStretch_average 33600)
      defaultLocals).averageGameTime = 1 / 250 ∧
    (growingWindowChunks.foldl (audioConsumerStretch_average 33600)
      defaultLocals).averageFeedTime = 31 / 500 ∧
    (∀ c ∈ growingWindowChunks,
      (growingWindowChunks.foldl (audioConsumerStretch_average 33600)
        defaultLocals).averageGameTime < (c.length : ℚ) / 4 / 33600) := by
  have h : growingWindowChunks.foldl (audioConsumerStretch_average 33600) defaultLocals =
      { defaultLocals with
        prevTime := 61 / 100, feedTimeIndex := 2, feedTimesSet := true,
        feedTimeWindowSize := 208,
        feedTimes := windowSlots (3 / 10) (1 / 100),
        gameTimes := windowSlots (1 / 100) (1 / 100),
        averageGameTime := 1 / 250, averageFeedTime := 31 / 500 } := by
    simp only [growingWindowChunks, List.foldl]
    rw [growingWindow_step1, growingWindow_step2, growingWindow_step3, growingWindow_step4]
  rw [h]
  refine ⟨rfl, rfl, rfl, rfl, ?_⟩
  intro c hc
  simp only [growingWindowChunks, List.mem_cons, List.mem_singleton, List.not_mem_nil,
    or_false] at hc
  rcases hc with hc | hc | hc | hc <;> (rw [hc]; simp only [chunkOf]; norm_num)

/-! ### The stores of the copy loop -/

/-- A value converted to `unsigned int` is below `2^32`. -/
theorem c_unsigned_lt (x : Int) : c_unsigned x < UINT_RANGE := by
  unfold c_unsigned UINT_RANGE
  omega

/-- Converting an `unsigned int` value to `int` and back gives the value. -/
theorem c_unsigned_c_signed (x : Nat) (h : x < UINT_RANGE) : c_unsigned (c_signed x) = x := by
  unfold c_unsigned c_signed
  unfold UINT_RANGE at *
  split_ifs <;> omega

/-- A multiple of 4 converted to `unsigned int` is a multiple of 4. -/
theorem c_unsigned_mul_four (x : Int) : c_unsigned (x * 4) % 4 = 0 := by
  unfold c_unsigned UINT_RANGE
  omega

/-- After `CreatePrimaryBuffer` the bound used by the test of `processAudio` is the number
of bytes of the array, a multiple of 4 below `2^32`. -/
theorem CreatePrimaryBuffer_bytes (PrimaryBufferSize : Int) :
    c_unsigned (CreatePrimaryBuffer PrimaryBufferSize).primaryBufferBytes
      = (CreatePrimaryBuffer PrimaryBufferSize).primaryBuffer.length ∧
    (CreatePrimaryBuffer PrimaryBufferSize).primaryBuffer.length % 4 = 0 ∧
    (CreatePrimaryBuffer PrimaryBufferSize).primaryBuffer.length < UINT_RANGE := by
  unfold CreatePrimaryBuffer
  simp only [List.length_replicate, N64_SAMPLE_BYTES]
  exact ⟨c_unsigned_c_signed _ (c_unsigned_lt _), c_unsigned_mul_four _, c_unsigned_lt _⟩

/-- For a size whose fourfold fits an `int`, `primaryBufferBytes` is `4 * PrimaryBufferSize`. -/
theorem CreatePrimaryBuffer_fits (PrimaryBufferSize : Int) (h0 : 0 ≤ PrimaryBufferSize)
    (h1 : PrimaryBufferSize < 536870912) :
    (CreatePrimaryBuffer PrimaryBufferSize).primaryBufferBytes = 4 * PrimaryBufferSize := by
  unfold CreatePrimaryBuffer c_signed c_unsigned
  simp only [N64_SAMPLE_BYTES, UINT_RANGE]
  split_ifs <;> omega

/-- The indices of the frame at offset `4 * j`. -/
theorem frame_indices_lt (length M j k : Nat) (hM : M % 4 = 0) (hlen : length < M)
    (hj : j < (length + 3) / 4) (hk : k ∈ [4 * j, 4 * j + 1, 4 * j + 2, 4 * j + 3]) :
    k < M := by
  simp only [List.mem_cons, List.mem_singleton, List.not_mem_nil, or_false] at hk
  omega

/-- Away from the end of the range of `unsigned int` the sums of the loop do not wrap. -/
theorem uint_add_eq (a b : Nat) (h : a + b < UINT_RANGE) : uint_add a b = a + b := by
  unfold uint_add
  exact Nat.mod_eq_of_lt h

/-- The indices stored to by the loop body at offset `i`. -/
theorem processAudio_stores_indices (SwapChannels : Int) (buffer : List Nat) (i : Nat)
    (h : i + 3 < UINT_RANGE) :
    (processAudio_stores SwapChannels buffer i).map Prod.fst = [i, i + 1, i + 2, i + 3] := by
  have h1 : uint_add i 1 = i + 1 := uint_add_eq _ _ (by omega)
  have h2 : uint_add i 2 = i + 2 := uint_add_eq _ _ (by omega)
  have h3 : uint_add i 3 = i + 3 := uint_add_eq _ _ h
  unfold processAudio_stores
  rw [h1, h2, h3]
  split_ifs <;> rfl

/-- The stores of the loop body, applied in order, are the frame copy `processAudio_frame`. -/
theorem processAudio_stores_frame (SwapChannels : Int) (buffer : List Nat) (i : Nat)
    (primaryBuffer : List Nat) (h : i + 3 < UINT_RANGE) :
    (processAudio_stores SwapChannels buffer i).foldl (fun b s => b.set s.1 s.2) primaryBuffer
      = processAudio_frame SwapChannels buffer i primaryBuffer := by
  have h1 : uint_add i 1 = i + 1 := uint_add_eq _ _ (by omega)
  have h2 : uint_add i 2 = i + 2 := uint_add_eq _ _ (by omega)
  have h3 : uint_add i 3 = i + 3 := uint_add_eq _ _ h
  unfold processAudio_stores processAudio_frame
  rw [h1, h2, h3]
  split_ifs <;> rfl

/-- The copy loop from offset `4 * a` with `n` iterations left, for a length below a bound
`M` that is a multiple of 4 below `2^32`: with more than `n` units of fuel it returns, after
`n` iterations, having stored to the indices of the frames `a` to `a + n - 1`; the bytes are
those of `processAudio_copy`. -/
theorem processAudio_loop_spec (SwapChannels : Int) (buffer : List Nat) (length M : Nat)
    (hM : M % 4 = 0) (hMlt : M < UINT_RANGE) (hlen : length < M) :
    ∀ (n a fuel : Nat) (t : CopyTrace), a + n = (length + 3) / 4 → n < fuel →
      processAudio_loop SwapChannels buffer length fuel (4 * a) t =
        some { primaryBuffer := processAudio_copy SwapChannels buffer length (4 * a)
                 t.primaryBuffer
               written := t.written ++
                 (List.range' a n).flatMap (fun j => [4 * j, 4 * j + 1, 4 * j + 2, 4 * j + 3])
               iterations := t.iterations + n } := by
  intro n
  induction n with
  | zero =>
    intro a fuel t ha hf
    obtain ⟨f, rfl⟩ : ∃ f, fuel = f + 1 := ⟨fuel - 1, by omega⟩
    have hn : ¬ 4 * a < length := by omega
    rw [processAudio_copy, if_neg hn]
    simp only [processAudio_loop, if_neg hn, List.range'_zero, List.flatMap_nil,
      List.append_nil, Nat.add_zero]
  | succ n ih =>
    intro a fuel t ha hf
    obtain ⟨f, rfl⟩ : ∃ f, fuel = f + 1 := ⟨fuel - 1, by omega⟩
    have hp : 4 * a < length := by omega
    have h3 : 4 * a + 3 < UINT_RANGE := by omega
    have h4 : uint_add (4 * a) 4 = 4 * (a + 1) := by
      rw [uint_add_eq _ _ (by omega)]
      ring
    rw [processAudio_copy, if_pos hp]
    simp only [processAudio_loop, if_pos hp]
    rw [h4, ih (a + 1) f _ (by omega) (by omega), processAudio_stores_indices _ _ _ h3,
      processAudio_stores_frame _ _ _ _ h3]
    simp only [List.range'_succ, List.flatMap_cons, List.append_assoc]
    have e : 4 * a + 4 = 4 * (a + 1) := by ring
    rw [e]
    congr 2
    omega

/-- The quotient `(length + 3) / 4` is the ceiling of `length / 4`. -/
theorem ceil_div_four (length : Nat) :
    (((length + 3) / 4 : Nat) : Int) = ⌈(length : ℚ) / 4⌉ := by
  symm
  rw [Int.ceil_eq_iff]
  have h1 : 4 * ((length + 3) / 4) ≤ length + 3 := by omega
  have h2 : length ≤ 4 * ((length + 3) / 4) := by omega
  have h1q : (4 : ℚ) * (((length + 3) / 4 : Nat) : ℚ) ≤ (length : ℚ) + 3 := by exact_mod_cast h1
  have h2q : (length : ℚ) ≤ 4 * (((length + 3) / 4 : Nat) : ℚ) := by exact_mod_cast h2
  rw [Int.cast_natCast]
  constructor <;> linarith

/-- C21: after `CreatePrimaryBuffer` (for any configured `PrimaryBufferSize`), for every
chunk length that passes the test `length < primaryBufferBytes` of `processAudio`, the copy
loop returns, whatever the bytes of the chunk and the channel order: with any fuel above
`(length + 3) / 4` it yields one and the same trace. The loop makes `(length + 3) / 4`, the
ceiling of `length / 4`, iterations; the indices stored to are `4 j, 4 j + 1, 4 j + 2,
4 j + 3` for `j` below that count, in this order; each of them is below the number of bytes
of the array and below `primaryBufferBytes` (compared as `unsigned int`, as the code does),
and when `4 * PrimaryBufferSize` fits an `int` it is below `4 * PrimaryBufferSize`. The
length need not be a multiple of 4. -/
theorem C21_primary_writes_in_bounds (PrimaryBufferSize SwapChannels : Int)
    (buffer : List Nat) (length : Nat)
    (hguard : length < c_unsigned (CreatePrimaryBuffer PrimaryBufferSize).primaryBufferBytes) :
    ∃ t : CopyTrace,
      (∀ fuel, (length + 3) / 4 < fuel →
        processAudio_guarded SwapChannels (CreatePrimaryBuffer PrimaryBufferSize) buffer
          length fuel = some t) ∧
      t.iterations = (length + 3) / 4 ∧ (t.iterations : Int) = ⌈(length : ℚ) / 4⌉ ∧
      t.written = (List.range ((length + 3) / 4)).flatMap
        (fun j => [4 * j, 4 * j + 1, 4 * j + 2, 4 * j + 3]) ∧
      (∀ k ∈ t.written, k < (CreatePrimaryBuffer PrimaryBufferSize).primaryBuffer.length ∧
        k < c_unsigned (CreatePrimaryBuffer PrimaryBufferSize).primaryBufferBytes) ∧
      (0 ≤ PrimaryBufferSize → PrimaryBufferSize < 536870912 →
        (CreatePrimaryBuffer PrimaryBufferSize).primaryBufferBytes = 4 * PrimaryBufferSize ∧
        ∀ k ∈ t.written, (k : Int) < 4 * PrimaryBufferSize) := by
  obtain ⟨hb, hM, hMlt⟩ := CreatePrimaryBuffer_bytes PrimaryBufferSize
  have hlen : length < (CreatePrimaryBuffer PrimaryBufferSize).primaryBuffer.length := by
    rw [← hb]
    exact hguard
  have hk : ∀ k ∈ (List.range ((length + 3) / 4)).flatMap
      (fun j => [4 * j, 4 * j + 1, 4 * j + 2, 4 * j + 3]),
      k < (CreatePrimaryBuffer PrimaryBufferSize).primaryBuffer.length := by
    intro k hk
    rw [List.mem_flatMap] at hk
    obtain ⟨j, hj, hkj⟩ := hk
    exact frame_indices_lt length _ j k hM hlen (List.mem_range.mp hj) hkj
  refine ⟨{ primaryBuffer := processAudio_copy SwapChannels buffer length 0
              (CreatePrimaryBuffer PrimaryBufferSize).primaryBuffer
            written := (List.range ((length + 3) / 4)).flatMap
              (fun j => [4 * j, 4 * j + 1, 4 * j + 2, 4 * j + 3])
            iterations := (length + 3) / 4 }, ?_, rfl, ceil_div_four length, rfl, ?_, ?_⟩
  · intro fuel hf
    unfold processAudio_guarded
    rw [if_pos hguard]
    have h := processAudio_loop_spec SwapChannels buffer length _ hM hMlt hlen
      ((length + 3) / 4) 0 fuel
      { primaryBuffer := (CreatePrimaryBuffer PrimaryBufferSize).primaryBuffer, written := [],
        iterations := 0 } (by omega) hf
    rw [Nat.mul_zero] at h
    rw [h, List.range_eq_range']
    simp only [List.nil_append, Nat.zero_add]
  · intro k hk1
    exact ⟨hk k hk1, by rw [hb]; exact hk k hk1⟩
  · intro h0 h1
    have hf := CreatePrimaryBuffer_fits PrimaryBufferSize h0 h1
    refine ⟨hf, ?_⟩
    intro k hk1
    have h2 := hk k hk1
    rw [← hb, hf] at h2
    unfold c_unsigned UINT_RANGE at h2
    omega

/-- C21 (witness): the default primary buffer (`PRIMARY_BUFFER_SIZE` frames, 65536 bytes)
and a chunk length of 1342 bytes, which is not a multiple of 4: 336 iterations. -/
theorem C21_primary_writes_in_bounds_witness :
    1342 < c_unsigned (CreatePrimaryBuffer 16384).primaryBufferBytes ∧
    ∃ t : CopyTrace,
      (∀ fuel, (1342 + 3) / 4 < fuel →
        processAudio_guarded 0 (CreatePrimaryBuffer 16384) silence 1342 fuel = some t) ∧
      t.iterations = (1342 + 3) / 4 ∧ (t.iterations : Int) = ⌈((1342 : Nat) : ℚ) / 4⌉ ∧
      t.written = (List.range ((1342 + 3) / 4)).flatMap
        (fun j => [4 * j, 4 * j + 1, 4 * j + 2, 4 * j + 3]) ∧
      (∀ k ∈ t.written, k < (CreatePrimaryBuffer 16384).primaryBuffer.length ∧
        k < c_unsigned (CreatePrimaryBuffer 16384).primaryBufferBytes) ∧
      ((0 : Int) ≤ 16384 → (16384 : Int) < 536870912 →
        (CreatePrimaryBuffer 16384).primaryBufferBytes = 4 * 16384 ∧
        ∀ k ∈ t.written, (k : Int) < 4 * 16384) :=
  ⟨by decide, C21_primary_writes_in_bounds 16384 0 silence 1342 (by decide)⟩

/-! ### The window of the moving averages stays within the arrays -/

/-- The truncation of a non-negative value is non-negative. -/
theorem c_int_nonneg (x : ℚ) (h : 0 ≤ x) : 0 ≤ c_int x := by
  unfold c_int
  rw [if_pos h]
  exact Int.floor_nonneg.mpr h

/-- The choice of the adjustment leaves the window alone. -/
theorem audioConsumerStretch_adjust_window (state : slesState) (v : StretchLocals) :
    (audioConsumerStretch_adjust state v).feedTimeWindowSize = v.feedTimeWindowSize ∧
    (audioConsumerStretch_adjust state v).feedTimeIndex = v.feedTimeIndex ∧
    (audioConsumerStretch_adjust state v).feedTimesSet = v.feedTimesSet ∧
    (audioConsumerStretch_adjust state v).feedTimes = v.feedTimes ∧
    (audioConsumerStretch_adjust state v).gameTimes = v.gameTimes := by
  unfold audioConsumerStretch_adjust
  dsimp only
  split_ifs <;> exact ⟨rfl, rfl, rfl, rfl, rfl⟩

/-- The tempo selection of an iteration leaves the window alone. -/
theorem audioConsumerStretch_tempo_window (state : slesState) (speed_factor : Nat)
    (v : StretchLocals) (tempo : ℚ) :
    (audioConsumerStretch_tempo state speed_factor v tempo).1.feedTimeWindowSize
      = v.feedTimeWindowSize ∧
    (audioConsumerStretch_tempo state speed_factor v tempo).1.feedTimeIndex
      = v.feedTimeIndex ∧
    (audioConsumerStretch_tempo state speed_factor v tempo).1.feedTimesSet
      = v.feedTimesSet ∧
    (audioConsumerStretch_tempo state speed_factor v tempo).1.feedTimes = v.feedTimes ∧
    (audioConsumerStretch_tempo state speed_factor v tempo).1.gameTimes = v.gameTimes := by
  unfold audioConsumerStretch_tempo
  split_ifs
  · exact ⟨rfl, rfl, rfl, rfl, rfl⟩
  · dsimp only
    cases audioConsumerStretch_setTempo (audioConsumerStretch_adjust state v) with
    | none => exact audioConsumerStretch_adjust_window state v
    | some t => exact audioConsumerStretch_adjust_window state v

/-- The averaging step keeps the window within the arrays: the new length is capped, the
index either wraps to 0 or stays below the previous length. -/
theorem audioConsumerStretch_average_WindowInv (GameFreq : Int) (v : StretchLocals)
    (chunk : QueueData) (h : WindowInv v) :
    WindowInv (audioConsumerStretch_average GameFreq v chunk) := by
  obtain ⟨h1, h2, h3, h4, h5⟩ := h
  unfold WindowInv audioConsumerStretch_average
  dsimp only
  simp only [maxWindowSize, List.length_set] at *
  refine ⟨?_, ?_, ?_, h4, h5⟩
  · split_ifs <;> omega
  · split_ifs <;> omega
  · split_ifs <;> omega

/-- The window length re-derived from a positive average game time is non-negative. -/
theorem audioConsumerStretch_average_window_nonneg (GameFreq : Int) (v : StretchLocals)
    (chunk : QueueData)
    (h : 0 < (audioConsumerStretch_average GameFreq v chunk).averageGameTime) :
    0 ≤ (audioConsumerStretch_average GameFreq v chunk).feedTimeWindowSize := by
  have hc : 0 ≤ c_int (defaultSampleLength /
      (audioConsumerStretch_average GameFreq v chunk).averageGameTime * 50) := by
    apply c_int_nonneg
    have hd : (0 : ℚ) ≤ defaultSampleLength := by unfold defaultSampleLength; norm_num
    exact mul_nonneg (div_nonneg hd (le_of_lt h)) (by norm_num)
  have he : (audioConsumerStretch_average GameFreq v chunk).feedTimeWindowSize =
      if c_int (defaultSampleLength /
          (audioConsumerStretch_average GameFreq v chunk).averageGameTime * 50)
          > (maxWindowSize : Int) then (maxWindowSize : Int)
      else c_int (defaultSampleLength /
          (audioConsumerStretch_average GameFreq v chunk).averageGameTime * 50) := rfl
  rw [he]
  simp only [maxWindowSize]
  split_ifs <;> omega

/-- An iteration in which `tryPop` times out only refreshes `ranDry`. -/
theorem audioConsumerStretch_iteration_none (v : StretchLocals) (tempo : ℚ) (x : StretchInput)
    (h : x.chunk = none) :
    audioConsumerStretch_iteration v tempo x =
      ({ v with ranDry := decide (slesQueueLength x.state < v.minQueueSize) }, tempo) := by
  unfold audioConsumerStretch_iteration
  rw [h]

/-- An iteration that receives a chunk selects the tempo and then updates the averages. -/
theorem audioConsumerStretch_iteration_some (v : StretchLocals) (tempo : ℚ) (x : StretchInput)
    (chunk : QueueData) (h : x.chunk = some chunk) :
    audioConsumerStretch_iteration v tempo x =
      (audioConsumerStretch_average x.GameFreq
        (audioConsumerStretch_tempo x.state x.speed_factor v tempo).1 chunk,
       (audioConsumerStretch_tempo x.state x.speed_factor v tempo).2) := by
  unfold audioConsumerStretch_iteration
  rw [h]

/-- Every iteration keeps the window within the arrays. -/
theorem audioConsumerStretch_iteration_WindowInv (v : StretchLocals) (tempo : ℚ)
    (x : StretchInput) (h : WindowInv v) :
    WindowInv (audioConsumerStretch_iteration v tempo x).1 := by
  cases hc : x.chunk with
  | none =>
    rw [audioConsumerStretch_iteration_none v tempo x hc]
    exact h
  | some chunk =>
    rw [audioConsumerStretch_iteration_some v tempo x chunk hc]
    apply audioConsumerStretch_average_WindowInv
    obtain ⟨e1, e2, _, e4, e5⟩ :=
      audioConsumerStretch_tempo_window x.state x.speed_factor v tempo
    unfold WindowInv
    rw [e1, e2, e4, e5]
    exact h

/-- The window stays within the arrays along every run of the loop. -/
theorem audioConsumerStretch_run_WindowInv (v0 : StretchLocals) (tempo0 : ℚ)
    (inputs : Nat → StretchInput) (h : WindowInv v0) (n : Nat) :
    WindowInv (audioConsumerStretch_run v0 tempo0 inputs n).1 := by
  induction n with
  | zero => exact h
  | succ n ih => exact audioConsumerStretch_iteration_WindowInv _ _ _ ih

/-- The window length stays non-negative along a run in which every re-derivation sees a
positive average game time. -/
theorem audioConsumerStretch_run_window_nonneg (v0 : StretchLocals) (tempo0 : ℚ)
    (inputs : Nat → StretchInput) (h0 : 0 ≤ v0.feedTimeWindowSize) (n : Nat)
    (hpos : ∀ k < n, (inputs k).chunk ≠ none →
      0 < (audioConsumerStretch_run v0 tempo0 inputs (k + 1)).1.averageGameTime) :
    0 ≤ (audioConsumerStretch_run v0 tempo0 inputs n).1.feedTimeWindowSize := by
  induction n with
  | zero => exact h0
  | succ n ih =>
    have hr : audioConsumerStretch_run v0 tempo0 inputs (n + 1) =
        audioConsumerStretch_iteration (audioConsumerStretch_run v0 tempo0 inputs n).1
          (audioConsumerStretch_run v0 tempo0 inputs n).2 (inputs n) := rfl
    cases hc : (inputs n).chunk with
    | none =>
      rw [hr, audioConsumerStretch_iteration_none _ _ _ hc]
      exact ih (fun k hk => hpos k (Nat.lt_succ_of_lt hk))
    | some chunk =>
      have hp := hpos n (Nat.lt_succ_self n) (by rw [hc]; exact Option.some_ne_none chunk)
      rw [hr, audioConsumerStretch_iteration_some _ _ _ chunk hc] at hp
      rw [hr, audioConsumerStretch_iteration_some _ _ _ chunk hc]
      exact audioConsumerStretch_average_window_nonneg _ _ _ hp

/-- The locals set up by lines 799-839 have a window of 50 slots, index 0, within the two
arrays of 500 slots. -/
theorem audioConsumerStretch_init_WindowInv (state : slesState) (speed_factor : Nat)
    (OutputFreq SecondaryBufferSize TargetSecondaryBuffers : Int) :
    WindowInv (audioConsumerStretch_init state speed_factor OutputFreq SecondaryBufferSize
      TargetSecondaryBuffers).1 ∧
    0 ≤ (audioConsumerStretch_init state speed_factor OutputFreq SecondaryBufferSize
      TargetSecondaryBuffers).1.feedTimeWindowSize := by
  unfold WindowInv audioConsumerStretch_init
  dsimp only
  simp only [List.length_replicate, maxWindowSize]
  refine ⟨⟨?_, ?_, ?_, trivial, trivial⟩, ?_⟩ <;> decide

/-- The locals set up for 44100 Hz output, 256-frame secondary buffers, 20 target buffers
and speed factor 100 are `defaultLocals`, with tempo 1. -/
theorem audioConsumerStretch_init_default :
    audioConsumerStretch_init healthyState 100 44100 256 20 = (defaultLocals, 1) := by
  have hmin : c_int (((20 : Int) : ℚ) * ((((44100 : Int) : ℚ) / ((DEFAULT_FREQUENCY : Nat) : ℚ)) *
      (((DEFAULT_SECONDARY_BUFFER_SIZE : Nat) : ℚ) / ((256 : Int) : ℚ)))) = 26 :=
    c_int_eq _ 26 (by norm_num [DEFAULT_FREQUENCY, DEFAULT_SECONDARY_BUFFER_SIZE])
      (by norm_num [DEFAULT_FREQUENCY, DEFAULT_SECONDARY_BUFFER_SIZE]) (by norm_num)
  have hmax : c_int ((((20 : Int) : ℚ) + 30) * ((((44100 : Int) : ℚ) /
      ((DEFAULT_FREQUENCY : Nat) : ℚ)) *
      (((DEFAULT_SECONDARY_BUFFER_SIZE : Nat) : ℚ) / ((256 : Int) : ℚ)))) = 65 :=
    c_int_eq _ 65 (by norm_num [DEFAULT_FREQUENCY, DEFAULT_SECONDARY_BUFFER_SIZE])
      (by norm_num [DEFAULT_FREQUENCY, DEFAULT_SECONDARY_BUFFER_SIZE]) (by norm_num)
  have h1 : (((100 : Nat) : ℚ)) / 100 = 1 := by norm_num
  unfold audioConsumerStretch_init
  dsimp only
  rw [hmin, hmax, h1]
  rfl

/-- During warm-up, at speed factor 100 and with 40 buffers queued, the tempo selection
leaves locals with `speedFactor = 1`, `ranDry` clear and lower threshold 26 as they are. -/
theorem audioConsumerStretch_tempo_warm (v : StretchLocals) (tempo : ℚ)
    (h1 : v.speedFactor = 1) (h2 : v.ranDry = false) (h3 : v.minQueueSize = 26) :
    audioConsumerStretch_tempo warmUpState 100 v tempo = (v, 1) := by
  have hq : (((100 : Nat) : ℚ)) / 100 = 1 := by norm_num
  have hd : decide (slesQueueLength warmUpState < v.minQueueSize) = false := by
    rw [h3]
    decide
  unfold audioConsumerStretch_tempo
  rw [if_pos (by decide)]
  dsimp only
  rw [hq, hd, ← h1, ← h2]

/-- First chunk of `shrinkingInputs`, of 10 ms: one slot recorded, window length re-derived
as 83. -/
theorem shrinkingWindow_step1 :
    audioConsumerStretch_average 33600 defaultLocals (chunkOf 1344 0) =
      { defaultLocals with
        prevTime := 0, feedTimeIndex := 1, feedTimeWindowSize := 83,
        feedTimes := windowSlots 0 0, gameTimes := windowSlots (1 / 100) 0,
        averageGameTime := 1 / 100, averageFeedTime := 0 } := by
  have hw : c_int (defaultSampleLength / (1 / 100) * 50) = 83 :=
    c_int_eq _ 83 (by norm_num [defaultSampleLength]) (by norm_num [defaultSampleLength])
      (by norm_num)
  unfold audioConsumerStretch_average GetAverageTime
  simp only [defaultLocals, chunkOf, replicate_window, windowSlots, N64_SAMPLE_BYTES]
  norm_num
  rw [hw]
  decide

/-- Second chunk, of 1 s: the average game time rises to 0.505 and the window length is
re-derived as 1, below the write index, which has advanced to 2. -/
theorem shrinkingWindow_step2 :
    audioConsumerStretch_average 33600
      { defaultLocals with
        prevTime := 0, feedTimeIndex := 1, feedTimeWindowSize := 83,
        feedTimes := windowSlots 0 0, gameTimes := windowSlots (1 / 100) 0,
        averageGameTime := 1 / 100, averageFeedTime := 0 }
      (chunkOf 134400 (1 / 100)) = shrunkLocals := by
  have hw : c_int (defaultSampleLength / (101 / 200) * 50) = 1 :=
    c_int_eq _ 1 (by norm_num [defaultSampleLength]) (by norm_num [defaultSampleLength])
      (by norm_num)
  have t2 : Int.toNat 2 = 2 := rfl
  unfold audioConsumerStretch_average GetAverageTime shrunkLocals
  simp only [defaultLocals, chunkOf, windowSlots, N64_SAMPLE_BYTES]
  norm_num [t2, List.take, List.sum_cons]
  rw [hw]
  decide

/-- The first iteration of `shrinkingInputs` from the initial locals. -/
theorem shrinkingRun_one :
    audioConsumerStretch_run defaultLocals 1 shrinkingInputs 1 =
      ({ defaultLocals with
         prevTime := 0, feedTimeIndex := 1, feedTimeWindowSize := 83,
         feedTimes := windowSlots 0 0, gameTimes := windowSlots (1 / 100) 0,
         averageGameTime := 1 / 100, averageFeedTime := 0 }, 1) := by
  have hr : audioConsumerStretch_run defaultLocals 1 shrinkingInputs 1 =
      audioConsumerStretch_iteration defaultLocals 1 (shrinkingInputs 0) := rfl
  rw [hr, audioConsumerStretch_iteration_some _ _ _ (chunkOf 1344 0) rfl]
  have ht : audioConsumerStretch_tempo (shrinkingInputs 0).state
      (shrinkingInputs 0).speed_factor defaultLocals 1 = (defaultLocals, 1) :=
    audioConsumerStretch_tempo_warm defaultLocals 1 rfl rfl rfl
  rw [ht]
  exact congrArg (fun v => (v, (1 : ℚ))) shrinkingWindow_step1

/-- The first two iterations of `shrinkingInputs` from the initial locals. -/
theorem shrinkingRun_two :
    audioConsumerStretch_run defaultLocals 1 shrinkingInputs 2 = (shrunkLocals, 1) := by
  have hr : audioConsumerStretch_run defaultLocals 1 shrinkingInputs 2 =
      audioConsumerStretch_iteration (audioConsumerStretch_run defaultLocals 1 shrinkingInputs 1).1
        (audioConsumerStretch_run defaultLocals 1 shrinkingInputs 1).2 (shrinkingInputs 1) := rfl
  rw [hr, shrinkingRun_one,
    audioConsumerStretch_iteration_some _ _ _ (chunkOf 134400 (1 / 100)) rfl]
  have ht : audioConsumerStretch_tempo (shrinkingInputs 1).state
      (shrinkingInputs 1).speed_factor
      { defaultLocals with
        prevTime := 0, feedTimeIndex := 1, feedTimeWindowSize := 83,
        feedTimes := windowSlots 0 0, gameTimes := windowSlots (1 / 100) 0,
        averageGameTime := 1 / 100, averageFeedTime := 0 } 1 =
      ({ defaultLocals with
        prevTime := 0, feedTimeIndex := 1, feedTimeWindowSize := 83,
        feedTimes := windowSlots 0 0, gameTimes := windowSlots (1 / 100) 0,
        averageGameTime := 1 / 100, averageFeedTime := 0 }, 1) :=
    audioConsumerStretch_tempo_warm _ 1 rfl rfl rfl
  rw [ht]
  exact congrArg (fun v => (v, (1 : ℚ))) shrinkingWindow_step2

/-- The locals after the first two iterations of `shrinkingInputs`, the function having run
from its first line with the configuration of `defaultLocals`. -/
theorem shrinkingLocals_eval :
    audioConsumerStretch_locals healthyState 100 44100 256 20 shrinkingInputs 1 =
      { defaultLocals with
        prevTime := 0, feedTimeIndex := 1, feedTimeWindowSize := 83,
        feedTimes := windowSlots 0 0, gameTimes := windowSlots (1 / 100) 0,
        averageGameTime := 1 / 100, averageFeedTime := 0 } ∧
    audioConsumerStretch_locals healthyState 100 44100 256 20 shrinkingInputs 2 =
      shrunkLocals := by
  unfold audioConsumerStretch_locals
  rw [audioConsumerStretch_init_default]
  exact ⟨congrArg Prod.fst shrinkingRun_one, congrArg Prod.fst shrinkingRun_two⟩

/-- Along `shrinkingInputs` the average game time is positive after each of the first two
iterations. -/
theorem shrinkingLocals_positive (k : Nat) (hk : k < 2) :
    0 < (audioConsumerStretch_locals healthyState 100 44100 256 20 shrinkingInputs
      (k + 1)).averageGameTime := by
  have h1 : k = 0 ∨ k = 1 := by omega
  rcases h1 with h | h
  · rw [h, shrinkingLocals_eval.1]
    show (0 : ℚ) < 1 / 100
    norm_num
  · rw [h, shrinkingLocals_eval.2]
    show (0 : ℚ) < 101 / 200
    norm_num

/-- C22: let `v` be the locals of `audioConsumerStretch` as iteration `n` of its loop starts
(any configuration, any tracker readings, chunks and time-outs of `tryPop`), the average
game time having been positive at every window re-derivation so far. Then
`0 <= feedTimeWindowSize <= 500`; the index `feedTimeIndex`, at which the iteration stores
into `feedTimes` and `gameTimes` (the tempo selection before the stores leaves the window
alone), satisfies `0 <= feedTimeIndex < 500` and lies within both arrays, which have 500
slots; and the element count passed to `GetAverageTime`,
`feedTimesSet ? feedTimeWindowSize : feedTimeIndex + 1`, is between 0 and 500, so the reads
stay within the arrays. The index is not required to be below the window length. -/
theorem C22_window_in_bounds (state : slesState) (speed_factor : Nat)
    (OutputFreq SecondaryBufferSize TargetSecondaryBuffers : Int)
    (inputs : Nat → StretchInput) (n : Nat)
    (hpos : ∀ k < n, (inputs k).chunk ≠ none →
      0 < (audioConsumerStretch_locals state speed_factor OutputFreq SecondaryBufferSize
        TargetSecondaryBuffers inputs (k + 1)).averageGameTime) :
    ∃ v : StretchLocals,
      audioConsumerStretch_locals state speed_factor OutputFreq SecondaryBufferSize
        TargetSecondaryBuffers inputs n = v ∧
      0 ≤ v.feedTimeWindowSize ∧ v.feedTimeWindowSize ≤ 500 ∧
      0 ≤ v.feedTimeIndex ∧ v.feedTimeIndex < 500 ∧
      v.feedTimes.length = 500 ∧ v.gameTimes.length = 500 ∧
      v.feedTimeIndex.toNat < v.feedTimes.length ∧
      v.feedTimeIndex.toNat < v.gameTimes.length ∧
      0 ≤ audioConsumerStretch_numTimes v ∧ audioConsumerStretch_numTimes v ≤ 500 ∧
      (audioConsumerStretch_numTimes v).toNat ≤ v.feedTimes.length ∧
      (audioConsumerStretch_numTimes v).toNat ≤ v.gameTimes.length := by
  refine ⟨_, rfl, ?_⟩
  obtain ⟨hinv, h0⟩ := audioConsumerStretch_init_WindowInv state speed_factor OutputFreq
    SecondaryBufferSize TargetSecondaryBuffers
  have hw := audioConsumerStretch_run_window_nonneg _
    (audioConsumerStretch_init state speed_factor OutputFreq SecondaryBufferSize
      TargetSecondaryBuffers).2 inputs h0 n hpos
  obtain ⟨h1, h2, h3, h4, h5⟩ := audioConsumerStretch_run_WindowInv _
    (audioConsumerStretch_init state speed_factor OutputFreq SecondaryBufferSize
      TargetSecondaryBuffers).2 inputs hinv n
  unfold audioConsumerStretch_locals audioConsumerStretch_numTimes
  simp only [maxWindowSize] at h1 h3 h4 h5
  rw [h4, h5]
  refine ⟨hw, by omega, h2, by omega, rfl, rfl, by omega, by omega, ?_, ?_, ?_, ?_⟩ <;>
    split_ifs <;> omega

/-- C22 (witness): two iterations during warm-up, a chunk of 10 ms and then one of 1 s. The
window length is re-derived as 83 and then as 1 while the write index advances to 2: the
third iteration starts with the index above the window length, and within the arrays. -/
theorem C22_window_in_bounds_witness :
    (∀ k < 2, (shrinkingInputs k).chunk ≠ none →
      0 < (audioConsumerStretch_locals healthyState 100 44100 256 20 shrinkingInputs
        (k + 1)).averageGameTime) ∧
    (audioConsumerStretch_locals healthyState 100 44100 256 20 shrinkingInputs
        2).feedTimeWindowSize <
      (audioConsumerStretch_locals healthyState 100 44100 256 20 shrinkingInputs
        2).feedTimeIndex ∧
    ∃ v : StretchLocals,
      audioConsumerStretch_locals healthyState 100 44100 256 20 shrinkingInputs 2 = v ∧
      0 ≤ v.feedTimeWindowSize ∧ v.feedTimeWindowSize ≤ 500 ∧
      0 ≤ v.feedTimeIndex ∧ v.feedTimeIndex < 500 ∧
      v.feedTimes.length = 500 ∧ v.gameTimes.length = 500 ∧
      v.feedTimeIndex.toNat < v.feedTimes.length ∧
      v.feedTimeIndex.toNat < v.gameTimes.length ∧
      0 ≤ audioConsumerStretch_numTimes v ∧ audioConsumerStretch_numTimes v ≤ 500 ∧
      (audioConsumerStretch_numTimes v).toNat ≤ v.feedTimes.length ∧
      (audioConsumerStretch_numTimes v).toNat ≤ v.gameTimes.length :=
  ⟨fun k hk _ => shrinkingLocals_positive k hk,
   by rw [shrinkingLocals_eval.2]; decide,
   C22_window_in_bounds healthyState 100 44100 256 20 shrinkingInputs 2
     (fun k hk _ => shrinkingLocals_positive k hk)⟩

/-! ### The recorded copy loop and the copy of `processAudio_feed` -/

/-- After `CreatePrimaryBuffer`, with enough fuel, the bytes left in the primary buffer by the
recorded loop are those computed by `processAudio_feed`, for chunks that pass the test and
for chunks that do not. -/
theorem processAudio_guarded_feed (PrimaryBufferSize SwapChannels : Int) (buffer : List Nat)
    (length fuel : Nat) (hf : (length + 3) / 4 < fuel) :
    (processAudio_guarded SwapChannels (CreatePrimaryBuffer PrimaryBufferSize) buffer length
      fuel).map CopyTrace.primaryBuffer =
    some (processAudio_feed SwapChannels (CreatePrimaryBuffer PrimaryBufferSize).primaryBuffer
      (c_unsigned (CreatePrimaryBuffer PrimaryBufferSize).primaryBufferBytes) buffer
      length).1 := by
  obtain ⟨hb, hM, hMlt⟩ := CreatePrimaryBuffer_bytes PrimaryBufferSize
  unfold processAudio_guarded processAudio_feed
  dsimp only
  by_cases hg : length < c_unsigned (CreatePrimaryBuffer PrimaryBufferSize).primaryBufferBytes
  · rw [if_pos hg, if_pos hg]
    have h := processAudio_loop_spec SwapChannels buffer length _ hM hMlt (by rw [← hb]; exact hg)
      ((length + 3) / 4) 0 fuel
      { primaryBuffer := (CreatePrimaryBuffer PrimaryBufferSize).primaryBuffer, written := [],
        iterations := 0 } (by omega) hf
    rw [Nat.mul_zero] at h
    rw [h]
    rfl
  · rw [if_neg hg, if_neg hg]
    rfl

/-- A run of the recorded loop: an array of 8 bytes and a chunk length of 5. The second
iteration stores to the indices 4 to 7; the bytes it reads past the chunk are taken as 0. -/
theorem processAudio_guarded_short :
    processAudio_guarded 0 (CreatePrimaryBuffer 2) [1, 2, 3, 4, 5] 5 3 =
      some { primaryBuffer := [3, 4, 1, 2, 0, 0, 5, 0],
             written := [0, 1, 2, 3, 4, 5, 6, 7], iterations := 2 } := by
  decide

/-! ### The stamp of a chunk in machine arithmetic -/

/-- A value strictly within half a unit of an integer rounds to that integer. -/
theorem roundHalfEven_eq (x : ℚ) (k : Int) (h1 : (k : ℚ) - 1 / 2 < x)
    (h2 : x < (k : ℚ) + 1 / 2) : roundHalfEven x = k := by
  unfold roundHalfEven
  by_cases hx : (k : ℚ) ≤ x
  · have hf : ⌊x⌋ = k := by
      rw [Int.floor_eq_iff]
      exact ⟨hx, by linarith⟩
    rw [hf, if_pos (by linarith)]
  · have hf : ⌊x⌋ = k - 1 := by
      rw [Int.floor_eq_iff]
      push_cast
      exact ⟨by linarith, by linarith⟩
    rw [hf]
    push_cast
    rw [if_neg (by linarith), if_pos (by linarith)]
    ring

/-- The `double` nearest to a value of binary exponent `e` (`2^e <= |x| < 2^(e+1)`) is the
multiple `k * 2^(e-52)` of the spacing of that binade for which `x / 2^(e-52)` lies strictly
within half a unit of `k`. -/
theorem c_double_eq (x : ℚ) (e k : Int) (h1 : (2 : ℚ) ^ e ≤ |x|)
    (h2 : |x| < (2 : ℚ) ^ (e + 1))
    (hk1 : (k : ℚ) - 1 / 2 < x / (2 : ℚ) ^ (e - 52))
    (hk2 : x / (2 : ℚ) ^ (e - 52) < (k : ℚ) + 1 / 2) :
    c_double x = (k : ℚ) * (2 : ℚ) ^ (e - 52) := by
  have hpos : (0 : ℚ) < |x| := lt_of_lt_of_le (zpow_pos (by norm_num) e) h1
  have hx : x ≠ 0 := abs_pos.mp hpos
  have hl : Int.log 2 |x| = e := by
    apply le_antisymm
    · have := (Int.lt_zpow_iff_log_lt (b := 2) (by norm_num) hpos).mp (by exact_mod_cast h2)
      omega
    · exact (Int.zpow_le_iff_le_log (b := 2) (by norm_num) hpos).mp (by exact_mod_cast h1)
  unfold c_double
  rw [if_neg hx, hl, roundHalfEven_eq _ k hk1 hk2]

/-- The count 68417862475 is a `double`. -/
theorem c_double_uptime_count : c_double 68417862475 = 68417862475 := by
  rw [c_double_eq 68417862475 35 8967666070323200 (by norm_num) (by norm_num) (by norm_num)
    (by norm_num)]
  norm_num

/-- The `double` nearest to 68.417862475 is `4814479061685873 / 2^46`. -/
theorem c_double_uptime_seconds :
    c_double (68417862475 / 1000000000) = 4814479061685873 / 70368744177664 := by
  rw [c_double_eq _ 6 4814479061685873 (by norm_num [abs_of_pos]) (by norm_num [abs_of_pos])
    (by norm_num) (by norm_num)]
  norm_num

/-- The origin of `c_double_uptime_seconds` times `1e9` rounds to the count plus `2^-17`. -/
theorem c_double_uptime_origin :
    c_double (4814479061685873 / 70368744177664 * 1000000000)
      = 8967666070323201 / 131072 := by
  rw [c_double_eq _ 35 8967666070323201 (by norm_num [abs_of_pos])
    (by norm_num [abs_of_pos]) (by norm_num) (by norm_num)]
  norm_num

/-- The difference `-2^-17` is a `double`. -/
theorem c_double_uptime_difference : c_double (-(1 / 131072)) = -(1 / 131072) := by
  rw [c_double_eq _ (-17) (-4503599627370496) (by norm_num [abs_of_neg])
    (by norm_num [abs_of_neg]) (by norm_num) (by norm_num)]
  norm_num

/-- The difference `-2^-17` divided by `1e9` rounds to `-4835703278458517 / 2^99`. -/
theorem c_double_uptime_stamp :
    c_double (-(1 / 131072) / 1000000000)
      = -(4835703278458517 / 633825300114114700748351602688) := by
  rw [c_double_eq _ (-47) (-4835703278458517) (by norm_num [abs_of_neg])
    (by norm_num [abs_of_neg]) (by norm_num) (by norm_num)]
  norm_num

/-- C20 (the code at the failing input): the first call of `AiLenChanged` on the running
plugin, at the clock reading 68417862475 ns. The reset block fires and assigns
`gameStartTime = currentTime`; in exact arithmetic the stamp of the chunk would be 0. In
machine arithmetic the origin is stored as the `double` `4814479061685873 / 2^46` seconds,
which lies after the reading; converted back to nanoseconds for the subtraction it is the
reading plus `2^-17` ns; and the stamp `timeSinceStart` of the queued chunk is
`-4835703278458517 / 2^99`, about `-7.6e-15` s: a negative value. -/
theorem C20_reset_stamp_negative :
    runningPlugin.l_PluginInit ≠ 0 ∧ runningPlugin.critical_failure ≠ 1 ∧
    (AiLenChanged_reset runningPlugin chunkAtUptime).pacing.gameStartTime
      = chunkAtUptime.currentTime ∧
    timeSinceStart (AiLenChanged_reset runningPlugin chunkAtUptime) chunkAtUptime = 0 ∧
    gameStartTime_double chunkAtUptime.currentTime = 4814479061685873 / 70368744177664 ∧
    chunkAtUptime.currentTime < gameStartTime_double chunkAtUptime.currentTime ∧
    c_double (gameStartTime_double chunkAtUptime.currentTime * 1000000000)
      = 68417862475 + 1 / 131072 ∧
    timeSinceStart_double chunkAtUptime.currentTime
        (gameStartTime_double chunkAtUptime.currentTime)
      = -(4835703278458517 / 633825300114114700748351602688) ∧
    timeSinceStart_double chunkAtUptime.currentTime
        (gameStartTime_double chunkAtUptime.currentTime) < 0 := by
  have hr : (AiLenChanged_reset runningPlugin chunkAtUptime).pacing.gameStartTime
      = chunkAtUptime.currentTime := by
    rw [AiLenChanged_reset_of_stale runningPlugin _ rfl]
  have hc : chunkAtUptime.currentTime * 1000000000 = 68417862475 := by
    simp only [chunkAtUptime]
    norm_num
  have hg : gameStartTime_double chunkAtUptime.currentTime
      = 4814479061685873 / 70368744177664 := by
    unfold gameStartTime_double
    rw [hc, c_double_uptime_count, c_double_uptime_seconds]
  have ho : c_double (gameStartTime_double chunkAtUptime.currentTime * 1000000000)
      = 68417862475 + 1 / 131072 := by
    rw [hg, c_double_uptime_origin]
    norm_num
  have ht : timeSinceStart_double chunkAtUptime.currentTime
      (gameStartTime_double chunkAtUptime.currentTime)
      = -(4835703278458517 / 633825300114114700748351602688) := by
    unfold timeSinceStart_double
    rw [ho, hc, c_double_uptime_count]
    have hd : (68417862475 : ℚ) - (68417862475 + 1 / 131072) = -(1 / 131072) := by ring
    rw [hd, c_double_uptime_difference, c_double_uptime_stamp]
  refine ⟨by decide, by decide, hr, ?_, hg, ?_, ho, ht, ?_⟩
  · unfold timeSinceStart
    rw [hr, sub_self]
  · rw [hg]
    simp only [chunkAtUptime]
    norm_num
  · rw [ht]
    norm_num

end AudioSles
